import Mathlib

/-!
# QSparqlBinding: typed RDF literals and their SPARQL text

A shallow embedding of `src/sparql/kernel/qsparqlbinding.cpp`, followed by one
of `src/sparql/drivers/tracker_direct/qsparql_tracker_direct_update_result_p.cpp`
(the update result and its private controller) and by the cursor of a select
result, which is written after the specification because `QSparqlResult` is
not among the sources.

The binding code is written against the Qt 4 value classes (`QString`,
`QByteArray`, `QUrl`, `QDate`, `QTime`, `QDateTime`, `QVariant`).  Those
classes are modelled first, after Qt 4.7's `qstring.cpp`, `qbytearray.cpp`,
`qlocale.cpp` and `qdatetime.cpp`; the functions of the binding itself
(`extractTimezone`, `setValue`, `toString`, `dataTypeUri`, ...) follow and
keep the names they have in the source.

Conventions of the embedding:

* a `QString` is the list of its characters, a `QByteArray` the list of its
  bytes (`Fin 256`);
* C `int` values are `Int`, unsigned ones `Nat`; C division is `Int.tdiv`;
* the default locale is the C locale and the local time zone has a constant
  offset, so that `QDateTime` arithmetic does not depend on the machine;
* the class `\d` of the zone pattern and the case folding of `toLower` are
  those of the ASCII characters;
* a `QUrl` is the text it was built from, and `toEncoded` percent-encodes the
  UTF-8 bytes that are not legal in a URL;
* floating point is not interpreted: parsing and printing of `double` are
  operations of a `QtDoubleOps` record that every function takes as its first
  argument;
* the two overloads of `QSparqlBinding::setValue` are `setValue` (a variant)
  and `setValueTyped` (a lexical form and a datatype URI);
* the functions on `QSparqlBinding` describe a binding that owns its private
  record; the sharing of that record between copies is described on a heap
  (`PrivHeap`, `BindingObj`), where each setter is the same function applied
  through the pointer, after `detach()` for the setters that call it;
* `QVariant::operator==` is a parameter of `QSparqlBinding.equals`.
-/

namespace QtSparql

/-! ## Characters, strings and byte arrays -/

abbrev QString := List Char

abbrev QByteArray := List (Fin 256)

/-- The double quote character, code 34. -/
def dquote : Char := Char.ofNat 34

/-- The apostrophe, code 39. -/
def squote : Char := Char.ofNat 39

/-- The backslash, code 92. -/
def backslash : Char := Char.ofNat 92

/-- Horizontal tab, code 9. -/
def chTab : Char := Char.ofNat 9

/-- Line feed, code 10. -/
def chNewline : Char := Char.ofNat 10

/-- Carriage return, code 13. -/
def chReturn : Char := Char.ofNat 13

/-- Backspace, code 8. -/
def chBackspace : Char := Char.ofNat 8

/-- Form feed, code 12. -/
def chFormFeed : Char := Char.ofNat 12

/-- `QChar::toLatin1`: the code of a character below 256, and 63 (a question
mark) for every other character. -/
def toLatin1Char (c : Char) : Fin 256 :=
  if c.toNat < 256 then Fin.ofNat c.toNat else 63

/-- `QString::toLatin1` (and `toAscii`, which is the same conversion when no
codec for C strings is installed). -/
def QString.toLatin1 (s : QString) : QByteArray := s.map toLatin1Char

/-- `QString::fromLatin1` / `QString::fromAscii` on a byte array. -/
def QString.fromLatin1 (b : QByteArray) : QString := b.map (fun x => Char.ofNat x.val)

/-- A C string literal as a byte array. -/
def cstr (s : String) : QByteArray := QString.toLatin1 s.toList

/-- `QString::mid(pos, n)`. -/
def QString.mid (s : QString) (pos n : Nat) : QString := (s.drop pos).take n

/-- `QString::left(n)`. -/
def QString.left (s : QString) (n : Nat) : QString := s.take n

/-- `QString::remove(pos, n)`. -/
def QString.remove (s : QString) (pos n : Nat) : QString := s.take pos ++ s.drop (pos + n)

/-- `QString::toLower`, on the letters A to Z (the comparisons made by the
binding code are against lower-case ASCII words only). -/
def QString.toLower (s : QString) : QString := s.map Char.toLower

/-- `QString::rightJustified(width, fill, truncate)`. -/
def QString.rightJustified (s : QString) (width : Nat) (fill : Char) (truncate : Bool) : QString :=
  if s.length < width then List.replicate (width - s.length) fill ++ s
  else if truncate then s.take width
  else s

/-! ## Printing integers -/

/-- The character of a decimal digit. -/
def digitChar (d : Nat) : Char := Char.ofNat (48 + d)

/-- Decimal digits of `n`, most significant first, in front of `acc`; `fuel`
bounds the number of digits. -/
def natDigits : Nat → Nat → QString → QString
  | 0, _, acc => acc
  | fuel + 1, n, acc =>
    if n < 10 then digitChar n :: acc
    else natDigits fuel (n / 10) (digitChar (n % 10) :: acc)

/-- `QString::number` of an unsigned value. -/
def QString.numberNat (n : Nat) : QString := natDigits (n + 1) n []

/-- `QString::number` of a signed value, in base 10. -/
def QString.number (i : Int) : QString :=
  if i < 0 then '-' :: QString.numberNat i.natAbs else QString.numberNat i.toNat

/-! ## QUrl -/

/-- A `QUrl`, represented by the text it was built from. -/
structure QUrl where
  text : QString
deriving DecidableEq, Repr

/-- `QUrl::toString`. -/
def QUrl.toString (u : QUrl) : QString := u.text

/-- `QUrl::isEmpty`. -/
def QUrl.isEmpty (u : QUrl) : Bool := u.text.isEmpty

/-- The UTF-8 bytes of a character. -/
def utf8Bytes (c : Char) : List Nat :=
  let v := c.toNat
  if v < 128 then [v]
  else if v < 2048 then [192 + v / 64, 128 + v % 64]
  else if v < 65536 then [224 + v / 4096, 128 + v / 64 % 64, 128 + v % 64]
  else [240 + v / 262144, 128 + v / 4096 % 64, 128 + v / 64 % 64, 128 + v % 64]

/-- Bytes that percent-encoding leaves alone: letters, digits, `-._~`, the
reserved delimiters of RFC 3986 and the percent sign. -/
def urlByteKept (b : Nat) : Bool :=
  (97 ≤ b && b ≤ 122) || (65 ≤ b && b ≤ 90) || (48 ≤ b && b ≤ 57)
    || (cstr "-._~!$&()*+,;=:/?#[]@%").contains (Fin.ofNat b) || b == 39

/-- An upper-case hexadecimal digit. -/
def hexDigit (d : Nat) : Fin 256 := if d < 10 then Fin.ofNat (48 + d) else Fin.ofNat (55 + d)

/-- Percent-encoding of one byte. -/
def pctEncodeByte (b : Nat) : QByteArray :=
  if urlByteKept b then [Fin.ofNat b] else [37, hexDigit (b / 16), hexDigit (b % 16)]

/-- `QUrl::toEncoded`: the URL text in UTF-8 with every byte outside the
characters legal in a URL percent-encoded. -/
def QUrl.toEncoded (u : QUrl) : QByteArray :=
  (u.text.flatMap utf8Bytes).flatMap pctEncodeByte

/-- `QUrl::fromEncoded` on a C string literal. -/
def QUrl.fromEncoded (s : String) : QUrl := ⟨s.toList⟩

/-! ## QByteArray: base64 -/

/-- The base64 alphabet of `QByteArray::toBase64`. -/
def base64Alphabet : QByteArray :=
  cstr "ABCDEFGHIJKLMNOPQRSTUVWXYZabcdefghijklmnopqrstuvwxyz0123456789+/"

/-- The entry `alphabet[j]`. -/
def base64Char (j : Nat) : Fin 256 := base64Alphabet.getD j 0

/-- `QByteArray::toBase64`.  Each round of the loop takes up to three bytes
into the 24-bit `chunk`, and writes four characters: the 6-bit groups
`j k l m` of the chunk, with `=` in place of the groups that hold no input
bit (`padlen`). -/
def QByteArray.toBase64 : QByteArray → QByteArray
  | [] => []
  | [a] =>
    let chunk := a.val * 65536
    [base64Char (chunk / 262144 % 64), base64Char (chunk / 4096 % 64), 61, 61]
  | [a, b] =>
    let chunk := a.val * 65536 + b.val * 256
    [base64Char (chunk / 262144 % 64), base64Char (chunk / 4096 % 64),
     base64Char (chunk / 64 % 64), 61]
  | a :: b :: c :: rest =>
    let chunk := a.val * 65536 + b.val * 256 + c.val
    base64Char (chunk / 262144 % 64) :: base64Char (chunk / 4096 % 64) ::
      base64Char (chunk / 64 % 64) :: base64Char (chunk % 64) :: QByteArray.toBase64 rest

/-- The 6-bit value `d` of a base64 character in `QByteArray::fromBase64`,
`none` standing for the `-1` of the characters that are skipped. -/
def base64Value (ch : Fin 256) : Option Nat :=
  if 65 ≤ ch.val ∧ ch.val ≤ 90 then some (ch.val - 65)
  else if 97 ≤ ch.val ∧ ch.val ≤ 122 then some (ch.val - 97 + 26)
  else if 48 ≤ ch.val ∧ ch.val ≤ 57 then some (ch.val - 48 + 52)
  else if ch.val = 43 then some 62
  else if ch.val = 47 then some 63
  else none

/-- The loop of `QByteArray::fromBase64` from the state `buf`, `nbits`: each
valid character shifts six bits into `buf`, and a byte is written as soon as
eight bits are there. -/
def fromBase64Loop : Nat → Nat → QByteArray → QByteArray
  | _, _, [] => []
  | buf, nbits, ch :: rest =>
    match base64Value ch with
    | none => fromBase64Loop buf nbits rest
    | some d =>
      let buf1 := (buf * 64 + d) % 4294967296
      let nbits1 := nbits + 6
      if 8 ≤ nbits1 then
        let nbits2 := nbits1 - 8
        Fin.ofNat (buf1 / 2 ^ nbits2) :: fromBase64Loop (buf1 % 2 ^ nbits2) nbits2 rest
      else fromBase64Loop buf1 nbits1 rest

/-- `QByteArray::fromBase64`. -/
def QByteArray.fromBase64 (base64 : QByteArray) : QByteArray := fromBase64Loop 0 0 base64

/-! ## QDate, QTime, QDateTime -/

/-- A `QDate`: its Julian day number `jd`, 0 for the null date. -/
structure QDate where
  jd : Nat
deriving DecidableEq, Repr

/-- `julianDayFromGregorianDate` (Fliegel and Van Flandern). -/
def julianDayFromGregorianDate (year month day : Int) : Int :=
  (1461 * (year + 4800 + (month - 14).tdiv 12)).tdiv 4
    + (367 * (month - 2 - 12 * ((month - 14).tdiv 12))).tdiv 12
    - (3 * ((year + 4900 + (month - 14).tdiv 12).tdiv 100)).tdiv 4
    + day - 32075

/-- `julianDayFromDate`: Gregorian calendar from 15 October 1582, Julian
calendar until 4 October 1582, 0 for the ten days in between. -/
def julianDayFromDate (year0 month day : Int) : Int :=
  let year := if year0 < 0 then year0 + 1 else year0
  if year > 1582 ∨ (year = 1582 ∧ (month > 10 ∨ (month = 10 ∧ day ≥ 15))) then
    julianDayFromGregorianDate year month day
  else if year < 1582 ∨ (year = 1582 ∧ (month < 10 ∨ (month = 10 ∧ day ≤ 4))) then
    let a := (14 - month).tdiv 12
    (153 * (month + (12 * a) - 3) + 2).tdiv 5 + (1461 * (year + 4800 - a)).tdiv 4 + day - 32083
  else 0

/-- `getDateFromJulianDay`: year, month and day of a Julian day number. -/
def getDateFromJulianDay (julianDay : Nat) : Int × Int × Int :=
  if julianDay ≥ 2299161 then
    let ell0 : Int := (julianDay : Int) + 68569
    let n := (4 * ell0).tdiv 146097
    let ell1 := ell0 - (146097 * n + 3).tdiv 4
    let i := (4000 * (ell1 + 1)).tdiv 1461001
    let ell2 := ell1 - (1461 * i).tdiv 4 + 31
    let j := (80 * ell2).tdiv 2447
    let d := ell2 - (2447 * j).tdiv 80
    let ell3 := j.tdiv 11
    let m := j + 2 - (12 * ell3)
    let y := 100 * (n - 49) + i + ell3
    (y, m, d)
  else
    let jday : Int := (julianDay : Int) + 32082
    let dd := (4 * jday + 3).tdiv 1461
    let ee := jday - (1461 * dd).tdiv 4
    let mm := ((5 * ee) + 2).tdiv 153
    let d := ee - (153 * mm + 2).tdiv 5 + 1
    let m := mm + 3 - 12 * (mm.tdiv 10)
    let y := dd - 4800 + (mm.tdiv 10)
    (if y ≤ 0 then y - 1 else y, m, d)

/-- `QDate::isLeapYear`. -/
def QDate.isLeapYear (y0 : Int) : Bool :=
  if y0 < 1582 then
    let y := if y0 < 1 then y0 + 1 else y0
    y.tmod 4 == 0
  else (y0.tmod 4 == 0 && y0.tmod 100 != 0) || y0.tmod 400 == 0

/-- The table `monthDays`. -/
def monthDays (month : Int) : Int :=
  [0, 31, 28, 31, 30, 31, 30, 31, 31, 30, 31, 30, 31].getD month.toNat 0

/-- `QDate::isValid(year, month, day)`. -/
def QDate.isValidYMD (year month day : Int) : Bool :=
  if year < -4713 || (year == -4713 && (month < 1 || (month == 1 && day < 2))) || year == 0 then
    false
  else if year == 1582 && month == 10 && day > 4 && day < 15 then false
  else (day > 0 && month > 0 && month ≤ 12)
    && (day ≤ monthDays month || (day == 29 && month == 2 && QDate.isLeapYear year))

/-- The null date `QDate()`. -/
def QDate.null : QDate := ⟨0⟩

/-- The constructor `QDate(y, m, d)`: the null date when the triple is not a
valid date. -/
def QDate.ofYMD (y m d : Int) : QDate :=
  if QDate.isValidYMD y m d then ⟨(julianDayFromDate y m d).toNat⟩ else QDate.null

/-- `QDate::isValid`. -/
def QDate.isValid (dt : QDate) : Bool := dt.jd != 0

/-- `QDate::year`. -/
def QDate.year (dt : QDate) : Int := (getDateFromJulianDay dt.jd).1

/-- `QDate::month`. -/
def QDate.month (dt : QDate) : Int := (getDateFromJulianDay dt.jd).2.1

/-- `QDate::day`. -/
def QDate.day (dt : QDate) : Int := (getDateFromJulianDay dt.jd).2.2

/-- A `QTime`: milliseconds since midnight in `mds`, or -1 (`NullTime`). -/
structure QTime where
  mds : Int
deriving DecidableEq, Repr

/-- The null time `QTime()`. -/
def QTime.null : QTime := ⟨-1⟩

/-- `QTime::ds`: the milliseconds, 0 for the null time. -/
def QTime.ds (t : QTime) : Int := if t.mds = -1 then 0 else t.mds

/-- `QTime::isValid`. -/
def QTime.isValid (t : QTime) : Bool := t.mds > -1 && t.mds < 86400000

/-- `QTime::isValid(h, m, s, ms)`. -/
def QTime.isValidHMS (h m s ms : Int) : Bool :=
  (0 ≤ h && h < 24) && (0 ≤ m && m < 60) && (0 ≤ s && s < 60) && (0 ≤ ms && ms < 1000)

/-- The constructor `QTime(h, m, s, ms)`: the null time when the fields are
out of range. -/
def QTime.ofHMS (h m s ms : Int) : QTime :=
  if QTime.isValidHMS h m s ms then ⟨(h * 3600 + m * 60 + s) * 1000 + ms⟩ else QTime.null

/-- `QTime::hour`. -/
def QTime.hour (t : QTime) : Int := t.ds.tdiv 3600000

/-- `QTime::minute`. -/
def QTime.minute (t : QTime) : Int := (t.ds.tmod 3600000).tdiv 60000

/-- `QTime::second`. -/
def QTime.second (t : QTime) : Int := (t.ds.tdiv 1000).tmod 60

/-- `QTime::addMSecs`. -/
def QTime.addMSecs (t : QTime) (ms : Int) : QTime :=
  if ms < 0 then
    let negdays := (86400000 - ms).tdiv 86400000
    ⟨(t.ds + ms + negdays * 86400000).tmod 86400000⟩
  else ⟨(t.ds + ms).tmod 86400000⟩

/-- `QTime::addSecs`. -/
def QTime.addSecs (t : QTime) (s : Int) : QTime := t.addMSecs (s * 1000)

/-- The two-digit field of `QString::arg(n, 2, 10, QLatin1Char('0'))`. -/
def argField2 (n : Int) : QString := (QString.number n).rightJustified 2 '0' false

/-- `QTime::toString()` in its default text format `hh:mm:ss`; the empty
string for an invalid time. -/
def QTime.toString (t : QTime) : QString :=
  if !t.isValid then []
  else argField2 t.hour ++ [':'] ++ argField2 t.minute ++ [':'] ++ argField2 t.second

/-- A `QDateTime`: a date and a time of day, in local time. -/
structure QDateTime where
  date : QDate
  time : QTime
deriving DecidableEq, Repr

/-- `QDateTimePrivate::addMSecs`, the body of `QDateTime::addSecs`. -/
def QDateTime.addMSecs (dt : QDateTime) (msecs0 : Int) : QDateTime :=
  let dd0 : Int := dt.date.jd
  let tt0 : Int := dt.time.ds
  let sign : Int := if msecs0 < 0 then -1 else 1
  let msecs1 : Int := if msecs0 < 0 then -msecs0 else msecs0
  let dd1 := if msecs1 ≥ 86400000 then dd0 + sign * (msecs1.tdiv 86400000) else dd0
  let msecs2 := if msecs1 ≥ 86400000 then msecs1.tmod 86400000 else msecs1
  let tt1 := tt0 + sign * msecs2
  if tt1 < 0 then
    let tt2 := 86400000 - tt1 - 1
    let dd2 := dd1 - tt2.tdiv 86400000
    let tt3 := tt2.tmod 86400000
    ⟨⟨(dd2 % 4294967296).toNat⟩, ⟨86400000 - tt3 - 1⟩⟩
  else if tt1 ≥ 86400000 then
    ⟨⟨((dd1 + tt1.tdiv 86400000) % 4294967296).toNat⟩, ⟨tt1.tmod 86400000⟩⟩
  else ⟨⟨(dd1 % 4294967296).toNat⟩, ⟨tt1⟩⟩

/-- `QDateTime::addSecs`. -/
def QDateTime.addSecs (dt : QDateTime) (s : Int) : QDateTime := dt.addMSecs (s * 1000)

/-! ## Parsing numbers: QString::toInt and its relatives -/

/-- `QChar::isSpace`: the ASCII white space 9 to 13 and 32, and the Unicode
separators. -/
def isSpace (c : Char) : Bool :=
  let v := c.toNat
  (9 ≤ v && v ≤ 13) || v == 32 || v == 133 || v == 160 || v == 5760 || v == 6158
    || (8192 ≤ v && v ≤ 8202) || v == 8232 || v == 8233 || v == 8239 || v == 8287
    || v == 12288

/-- The digit loop of `qstrtoll` / `qstrtoull`, followed by the check that
only white space is left (`QLocalePrivate::numberToCLocale` accepts trailing
white space and nothing else after the number). -/
def parseDigits : Nat → QString → Option Nat
  | acc, [] => some acc
  | acc, c :: cs =>
    if c.isDigit then parseDigits (acc * 10 + (c.toNat - 48)) cs
    else if (c :: cs).all isSpace then some acc
    else none

/-- A run of at least one digit, read as a number of any size. -/
def parseUnsignedBody (s : QString) : Option Nat :=
  match s with
  | [] => none
  | c :: _ => if c.isDigit then parseDigits 0 s else none

/-- The number read by `qstrtoll` in base 10, before the range check: leading
white space, an optional sign, digits, trailing white space. -/
def parseSigned (s : QString) : Option Int :=
  match s.dropWhile isSpace with
  | [] => none
  | c :: r =>
    if c = '-' then (parseUnsignedBody r).map (fun (n : Nat) => -(n : Int))
    else if c = '+' then (parseUnsignedBody r).map (fun (n : Nat) => (n : Int))
    else (parseUnsignedBody (c :: r)).map (fun (n : Nat) => (n : Int))

/-- The number read by `qstrtoull` in base 10: as `parseSigned`, but a minus
sign is an error. -/
def parseUnsigned (s : QString) : Option Nat :=
  match s.dropWhile isSpace with
  | [] => none
  | c :: r =>
    if c = '-' then none
    else if c = '+' then parseUnsignedBody r
    else parseUnsignedBody (c :: r)

/-- `QString::toLongLong(&ok)`: `none` when `ok` is false (not a number, or
outside the range of a 64-bit signed integer). -/
def QString.toLongLongOk (s : QString) : Option Int :=
  match parseSigned s with
  | some v => if -9223372036854775808 ≤ v ∧ v ≤ 9223372036854775807 then some v else none
  | none => none

/-- `QString::toULongLong(&ok)`. -/
def QString.toULongLongOk (s : QString) : Option Nat :=
  match parseUnsigned s with
  | some v => if v ≤ 18446744073709551615 then some v else none
  | none => none

/-- `QString::toInt(&ok)`: the value of `toLongLong`, refused outside
`INT_MIN .. INT_MAX`. -/
def QString.toIntOk (s : QString) : Option Int :=
  match QString.toLongLongOk s with
  | some v => if v < -2147483648 ∨ v > 2147483647 then none else some v
  | none => none

/-- `QString::toUInt(&ok)`. -/
def QString.toUIntOk (s : QString) : Option Nat :=
  match QString.toULongLongOk s with
  | some v => if v > 4294967295 then none else some v
  | none => none

/-- `QString::toLongLong()`: 0 when the conversion fails. -/
def QString.toLongLong (s : QString) : Int := (QString.toLongLongOk s).getD 0

/-- `QString::toInt()`: 0 when the conversion fails. -/
def QString.toInt (s : QString) : Int := (QString.toIntOk s).getD 0

/-- `QString::toUInt()`: 0 when the conversion fails. -/
def QString.toUInt (s : QString) : Nat := (QString.toUIntOk s).getD 0

/-! ## Floating point -/

/-- A `double`.  Its bits are never inspected. -/
structure QDouble where
  bits : Nat
deriving DecidableEq, Repr

/-- The floating-point operations of Qt that the binding code calls. -/
structure QtDoubleOps where
  /-- `QString::toDouble()`. -/
  toDouble : QString → QDouble
  /-- `QString::number(x, 'e', 10)`. -/
  numberE10 : QDouble → QString
  /-- `QVariant(x).toString()` for a double `x`. -/
  numberG : QDouble → QString
  /-- The milliseconds that `QTime::fromString` reads from the up to four
  characters `frac` after the seconds:
  `qMin(qRound(("0." + frac).toFloat(&ok) * 1000.0), 999)`, and 0 when `ok`
  is false. -/
  fracMsec : QString → Nat

/-- An instance of the floating-point operations for evaluating examples; it
reads every text as zero. -/
def QtDoubleOps.zero : QtDoubleOps where
  toDouble := fun _ => ⟨0⟩
  numberE10 := fun _ => "0.0000000000e+00".toList
  numberG := fun _ => "0".toList
  fracMsec := fun _ => 0

/-! ## Parsing dates and times -/

/-- `QDate::fromString(s, Qt::ISODate)`. -/
def QDate.fromString (s : QString) : QDate :=
  if s.isEmpty then QDate.null
  else
    let year := QString.toInt (s.mid 0 4)
    let month := QString.toInt (s.mid 5 2)
    let day := QString.toInt (s.mid 8 2)
    if year ≠ 0 ∧ month ≠ 0 ∧ day ≠ 0 then QDate.ofYMD year month day else QDate.null

/-- `QTime::fromString(s, Qt::ISODate)`.  The text `0.` followed by no digit
reads as zero milliseconds whatever the floating-point operations are. -/
def QTime.fromString (F : QtDoubleOps) (s : QString) : QTime :=
  if s.isEmpty then QTime.null
  else
    match QString.toIntOk (s.mid 0 2) with
    | none => QTime.null
    | some hour =>
      match QString.toIntOk (s.mid 3 2) with
      | none => QTime.null
      | some minute =>
        match QString.toIntOk (s.mid 6 2) with
        | none => QTime.null
        | some second =>
          let frac := s.mid 9 4
          let msec : Nat := if frac.isEmpty then 0 else F.fracMsec frac
          QTime.ofHMS hour minute second msec

/-- The value of a two-digit field. -/
def twoDigits (a b : Char) : Int := ((a.toNat - 48) * 10 + (b.toNat - 48) : Nat)

/-- `QTime::fromString(s, "hh':'mm")`, on a text of the form `dd:dd`: the
hour must be at most 23 and the minute at most 59, otherwise the result is the
null time. -/
def QTime.fromStringHHmm (s : QString) : QTime :=
  match s with
  | [h1, h2, c, m1, m2] =>
    if h1.isDigit ∧ h2.isDigit ∧ c = ':' ∧ m1.isDigit ∧ m2.isDigit then
      QTime.ofHMS (twoDigits h1 h2) (twoDigits m1 m2) 0 0
    else QTime.null
  | _ => QTime.null

/-- `QDateTime::fromString(s, Qt::ISODate)`: the date is read from the first
ten characters and the time from position 11 on; a final `Z` is dropped. -/
def QDateTime.fromString (F : QtDoubleOps) (s : QString) : QDateTime :=
  let date := QDate.fromString (s.left 10)
  if s.length = 10 then ⟨date, QTime.ofHMS 0 0 0 0⟩
  else
    let tmp : QString := if s.getLast? = some 'Z' then s.dropLast else s
    ⟨date, QTime.fromString F (tmp.drop 11)⟩

/-! ## QVariant -/

/-- The values of `QVariant::Type` that the binding code distinguishes;
`Other` stands for every remaining type. -/
inductive VType
  | Invalid | Bool | Int | UInt | LongLong | ULongLong | Double | String
  | ByteArray | Date | Time | DateTime | Url | Other
deriving DecidableEq, Repr

/-- A `QVariant`.  The integers of `ofInt`, `ofUInt`, `ofLongLong` and
`ofULongLong` are those of a C `int`, `uint`, `qlonglong` and `qulonglong`;
`ofOther` is a value of any other type, which the binding code never looks
into. -/
inductive QVariant
  | invalid
  | ofBool (b : Bool)
  | ofInt (i : Int)
  | ofUInt (n : Nat)
  | ofLongLong (i : Int)
  | ofULongLong (n : Nat)
  | ofDouble (x : QDouble)
  | ofString (s : QString)
  | ofByteArray (b : QByteArray)
  | ofDate (d : QDate)
  | ofTime (t : QTime)
  | ofDateTime (dt : QDateTime)
  | ofUrl (u : QUrl)
  | ofOther (tag : Nat)
deriving DecidableEq, Repr

/-- `QVariant::type`. -/
def QVariant.type : QVariant → VType
  | .invalid => .Invalid
  | .ofBool _ => .Bool
  | .ofInt _ => .Int
  | .ofUInt _ => .UInt
  | .ofLongLong _ => .LongLong
  | .ofULongLong _ => .ULongLong
  | .ofDouble _ => .Double
  | .ofString _ => .String
  | .ofByteArray _ => .ByteArray
  | .ofDate _ => .Date
  | .ofTime _ => .Time
  | .ofDateTime _ => .DateTime
  | .ofUrl _ => .Url
  | .ofOther _ => .Other

/-- `QVariant::toUrl`: the URL of a variant of type `Url`, the empty URL
otherwise. -/
def QVariant.toUrl : QVariant → QUrl
  | .ofUrl u => u
  | _ => ⟨[]⟩

/-- `QVariant::toBool` on the variants of type `Bool`. -/
def QVariant.toBool : QVariant → Bool
  | .ofBool b => b
  | _ => false

/-- `QDate::toString(Qt::ISODate)`. -/
def QDate.toStringISO (dt : QDate) : QString :=
  if !dt.isValid then []
  else if dt.year < 0 ∨ dt.year > 9999 then []
  else QString.number dt.year ++ ['-'] ++ (QString.number dt.month).rightJustified 2 '0' false
    ++ ['-'] ++ (QString.number dt.day).rightJustified 2 '0' false

/-- `QVariant::toString`: the text of a string, the decimal text of an
integer, `true` / `false`, the ISO text of a date or time, the text of a
URL, the characters of a byte array; empty for the other variants. -/
def QVariant.toString (F : QtDoubleOps) : QVariant → QString
  | .invalid => []
  | .ofBool b => if b then "true".toList else "false".toList
  | .ofInt i => QString.number i
  | .ofUInt n => QString.numberNat n
  | .ofLongLong i => QString.number i
  | .ofULongLong n => QString.numberNat n
  | .ofDouble x => F.numberG x
  | .ofString s => s
  | .ofByteArray b => QString.fromLatin1 b
  | .ofDate d => d.toStringISO
  | .ofTime t => t.toString
  | .ofDateTime dt =>
    if !dt.date.isValid then [] else dt.date.toStringISO ++ ['T'] ++ dt.time.toString
  | .ofUrl u => u.toString
  | .ofOther _ => []

/-! ## The binding -/

/-- The enumeration `QSparqlBindingPrivate::NodeType`. -/
inductive NodeType
  | Invalid | Uri | Literal | Blank
deriving DecidableEq, Repr

/-- The class `QSparqlBindingPrivate` (without its reference count). -/
structure QSparqlBindingPrivate where
  nm : QString
  type : VType
  dataType : QUrl
  lang : QString
  nodetype : NodeType
deriving DecidableEq, Repr

/-- A `QSparqlBinding`: the private record `d` and the value `val`. -/
structure QSparqlBinding where
  d : QSparqlBindingPrivate
  val : QVariant
deriving DecidableEq, Repr

/-- The constructor `QSparqlBindingPrivate(name, type)`: the datatype URI and
the language tag start empty. -/
def QSparqlBindingPrivate.new (name : QString) (type : VType) : QSparqlBindingPrivate :=
  { nm := name, type := type, dataType := ⟨[]⟩, lang := [], nodetype := .Invalid }

/-- `QSparqlBinding::setValue(const QVariant&)`. -/
def QSparqlBinding.setValue (b : QSparqlBinding) (value : QVariant) : QSparqlBinding :=
  if value.type = .Url then { d := { b.d with nodetype := .Uri }, val := value }
  else { d := { b.d with nodetype := .Literal }, val := value }

/-- The constructor `QSparqlBinding(name, type)`. -/
def QSparqlBinding.newTyped (name : QString) (type : VType) : QSparqlBinding :=
  { d := QSparqlBindingPrivate.new name type, val := .invalid }

/-- The constructor `QSparqlBinding(name, value)`. -/
def QSparqlBinding.new (name : QString) (value : QVariant) : QSparqlBinding :=
  QSparqlBinding.setValue { d := QSparqlBindingPrivate.new name value.type, val := .invalid } value

/-- `QSparqlBinding::setDataTypeUri`. -/
def QSparqlBinding.setDataTypeUri (b : QSparqlBinding) (dataType : QUrl) : QSparqlBinding :=
  { b with d := { b.d with dataType := dataType } }

/-- `QSparqlBinding::setLanguageTag`. -/
def QSparqlBinding.setLanguageTag (b : QSparqlBinding) (languageTag : QString) : QSparqlBinding :=
  { b with d := { b.d with lang := languageTag } }

/-- The part of the pattern `([-+])(\d\d:\d\d)` at the start of a text. -/
def zoneMatchesAt : QString → Bool
  | c0 :: d1 :: d2 :: c3 :: d4 :: d5 :: _ =>
    (c0 == '-' || c0 == '+') && d1.isDigit && d2.isDigit && c3 == ':' && d4.isDigit && d5.isDigit
  | _ => false

/-- `QRegExp::indexIn` for the pattern `([-+])(\d\d:\d\d)`: the position of
the first match, `none` for -1. -/
def zoneIndexIn : QString → Option Nat
  | [] => none
  | c :: cs => if zoneMatchesAt (c :: cs) then some 0 else (zoneIndexIn cs).map (fun i => i + 1)

/-- The function `extractTimezone(QString& str)`: the returned adjustment in
seconds and the text left in `str`. -/
def extractTimezone (str : QString) : Int × QString :=
  match zoneIndexIn str with
  | some ix =>
    let cap1 := QString.mid str ix 1
    let cap2 := QString.mid str (ix + 1) 5
    let sign : Int := if cap1 = ['-'] then -1 else 1
    let adjustment := QTime.fromStringHHmm cap2
    (((adjustment.hour * 3600) + (adjustment.minute * 60)) * sign, QString.remove str ix 6)
  | none => (0, str)

/-- The private record after the first two assignments of
`setValue(lexical, uri)`: the node is a literal and the datatype URI is
`dataTypeUri`. -/
def typedPrivate (d : QSparqlBindingPrivate) (dataTypeUri : QUrl) : QSparqlBindingPrivate :=
  { d with nodetype := .Literal, dataType := dataTypeUri }

/-- The datatype URI `http://www.w3.org/2001/XMLSchema#` followed by `name`. -/
def xsd (name : String) : QUrl := ⟨("http://www.w3.org/2001/XMLSchema#" ++ name).toList⟩

/-- `QSparqlBinding::setValue(const QString&, const QUrl&)`. -/
def QSparqlBinding.setValueTyped (F : QtDoubleOps) (b0 : QSparqlBinding) (value : QString)
    (dataTypeUri : QUrl) : QSparqlBinding :=
  let b : QSparqlBinding := { b0 with d := typedPrivate b0.d dataTypeUri }
  let s : QByteArray := QString.toLatin1 dataTypeUri.toString
  if s = cstr "http://www.w3.org/2001/XMLSchema#int" then
    b.setValue (.ofInt (QString.toInt value))
  else if s = cstr "http://www.w3.org/2001/XMLSchema#integer" then
    b.setValue (.ofInt (QString.toInt value))
  else if s = cstr "http://www.w3.org/2001/XMLSchema#nonNegativeInteger" then
    b.setValue (.ofUInt (QString.toUInt value))
  else if s = cstr "http://www.w3.org/2001/XMLSchema#decimal" then
    b.setValue (.ofDouble (F.toDouble value))
  else if s = cstr "http://www.w3.org/2001/XMLSchema#short" then
    b.setValue (.ofInt (QString.toInt value))
  else if s = cstr "http://www.w3.org/2001/XMLSchema#long" then
    b.setValue (.ofLongLong (QString.toLongLong value))
  else if s = cstr "http://www.w3.org/2001/XMLSchema#boolean" then
    b.setValue (.ofBool (QString.toLower value == "true".toList
      || QString.toLower value == "yes".toList || QString.toInt value != 0))
  else if s = cstr "http://www.w3.org/2001/XMLSchema#double" then
    b.setValue (.ofDouble (F.toDouble value))
  else if s = cstr "http://www.w3.org/2001/XMLSchema#float" then
    b.setValue (.ofDouble (F.toDouble value))
  else if s = cstr "http://www.w3.org/2001/XMLSchema#string" then
    b.setValue (.ofString value)
  else if s = cstr "http://www.w3.org/2001/XMLSchema#date" then
    b.setValue (.ofDate (QDate.fromString value))
  else if s = cstr "http://www.w3.org/2001/XMLSchema#time" then
    let r := extractTimezone value
    b.setValue (.ofTime ((QTime.fromString F r.2).addSecs r.1))
  else if s = cstr "http://www.w3.org/2001/XMLSchema#dateTime" then
    let r := extractTimezone value
    b.setValue (.ofDateTime ((QDateTime.fromString F r.2).addSecs r.1))
  else if s = cstr "http://www.w3.org/2001/XMLSchema#base64Binary" then
    b.setValue (.ofByteArray (QByteArray.fromBase64 (QString.toLatin1 value)))
  else
    b.setValue (.ofString value)

/-- The escape of one character in the `QVariant::String` case of
`QSparqlBinding::toString`. -/
def escapeChar (ch : Char) : QString :=
  if ch = chTab then [backslash, 't']
  else if ch = chNewline then [backslash, 'n']
  else if ch = chReturn then [backslash, 'r']
  else if ch = chBackspace then [backslash, 'b']
  else if ch = chFormFeed then [backslash, 'f']
  else if ch = dquote then [backslash, dquote]
  else if ch = squote then [backslash, squote]
  else if ch = backslash then [backslash, backslash]
  else [ch]

/-- The `yyyy-MM-dd` text that `toString` builds for a date: the year as
`QString::number` prints it, month and day right-justified in two characters
with zeroes. -/
def dateText (dt : QDate) : QString :=
  QString.number dt.year ++ ['-'] ++ (QString.number dt.month).rightJustified 2 '0' true
    ++ ['-'] ++ (QString.number dt.day).rightJustified 2 '0' true

/-- The `switch (val.type())` of `QSparqlBinding::toString`: the text
`literal` and the flag `quoted` for a value. -/
def literalOf (F : QtDoubleOps) : QVariant → QString × Bool
  | .ofInt i => (QString.number i, false)
  | .ofLongLong i => (QString.number i, false)
  | .ofUInt n => (QString.numberNat n, false)
  | .ofULongLong n => (QString.numberNat n, false)
  | .ofBool b => (if b then "true".toList else "false".toList, false)
  | .ofDouble x => (F.numberE10 x, false)
  | .ofString s => ([dquote] ++ s.flatMap escapeChar ++ [dquote], true)
  | .ofDate dt => ([dquote] ++ dateText dt ++ [dquote], true)
  | .ofTime tm => ([dquote] ++ tm.toString ++ [dquote], true)
  | .ofDateTime v => ([dquote] ++ dateText v.date ++ ['T'] ++ v.time.toString ++ [dquote], true)
  | .ofByteArray b => ([dquote] ++ QString.fromLatin1 (QByteArray.toBase64 b) ++ [dquote], true)
  | _ => ([], false)

/-- `QSparqlBinding::dataTypeUri`. -/
def QSparqlBinding.dataTypeUri (b : QSparqlBinding) : QUrl :=
  if b.d.nodetype ≠ .Literal then ⟨[]⟩
  else if !b.d.dataType.isEmpty then b.d.dataType
  else
    match b.val.type with
    | .Int => QUrl.fromEncoded "http://www.w3.org/2001/XMLSchema#integer"
    | .LongLong => QUrl.fromEncoded "http://www.w3.org/2001/XMLSchema#long"
    | .UInt => QUrl.fromEncoded "http://www.w3.org/2001/XMLSchema#unsignedInt"
    | .ULongLong => QUrl.fromEncoded "http://www.w3.org/2001/XMLSchema#unsignedLong"
    | .Bool => QUrl.fromEncoded "http://www.w3.org/2001/XMLSchema#boolean"
    | .Double => QUrl.fromEncoded "http://www.w3.org/2001/XMLSchema#double"
    | .String => QUrl.fromEncoded "http://www.w3.org/2001/XMLSchema#string"
    | .Date => QUrl.fromEncoded "http://www.w3.org/2001/XMLSchema#date"
    | .Time => QUrl.fromEncoded "http://www.w3.org/2001/XMLSchema#time"
    | .DateTime => QUrl.fromEncoded "http://www.w3.org/2001/XMLSchema#dateTime"
    | .ByteArray => QUrl.fromEncoded "http://www.w3.org/2001/XMLSchema#base64Binary"
    | _ => ⟨[]⟩

/-- `QSparqlBinding::toString`. -/
def QSparqlBinding.toString (F : QtDoubleOps) (b : QSparqlBinding) : QString :=
  if b.d.nodetype = .Uri then
    ['<'] ++ QString.fromLatin1 b.val.toUrl.toEncoded ++ ['>']
  else if b.d.nodetype = .Blank then
    "_:".toList ++ b.val.toString F
  else if b.d.nodetype = .Literal then
    let lq := literalOf F b.val
    let literal1 := if !b.d.lang.isEmpty then lq.1 ++ ('@' :: b.d.lang) else lq.1
    if !b.d.dataType.isEmpty then
      let literal2 := if !lq.2 then [dquote] ++ literal1 ++ [dquote] else literal1
      literal2 ++ ("^^<".toList ++ QString.fromLatin1 b.dataTypeUri.toEncoded ++ ['>'])
    else literal1
  else []

/-- `QSparqlBinding::isLiteral`. -/
def QSparqlBinding.isLiteral (b : QSparqlBinding) : Bool := b.d.nodetype == .Literal

/-- `QSparqlBinding::isUri`. -/
def QSparqlBinding.isUri (b : QSparqlBinding) : Bool := b.d.nodetype == .Uri

/-- `QSparqlBinding::isBlank`. -/
def QSparqlBinding.isBlank (b : QSparqlBinding) : Bool := b.d.nodetype == .Blank

/-- `QSparqlBinding::languageTag`. -/
def QSparqlBinding.languageTag (b : QSparqlBinding) : QString := b.d.lang

/-- `QSparqlBinding::value`. -/
def QSparqlBinding.value (b : QSparqlBinding) : QVariant := b.val

/-- `QSparqlBinding::name`. -/
def QSparqlBinding.name (b : QSparqlBinding) : QString := b.d.nm

/-- `QSparqlBinding::setName`. -/
def QSparqlBinding.setName (b : QSparqlBinding) (name : QString) : QSparqlBinding :=
  { b with d := { b.d with nm := name } }

/-- `QSparqlBinding::setBlankNodeLabel`. -/
def QSparqlBinding.setBlankNodeLabel (b : QSparqlBinding) (id : QString) : QSparqlBinding :=
  { d := { b.d with nodetype := .Blank }, val := .ofString id }

/-- `QSparqlBinding::clear`. -/
def QSparqlBinding.clear (b : QSparqlBinding) : QSparqlBinding :=
  { d := { b.d with nodetype := .Invalid, dataType := ⟨[]⟩, lang := [] }, val := .invalid }

/-- `QSparqlBinding::isValid`. -/
def QSparqlBinding.isValid (b : QSparqlBinding) : Bool := b.d.type != .Invalid

/-- `QVariant::isValid`. -/
def QVariant.isValid (v : QVariant) : Bool := v.type != .Invalid

/-- `QSparqlBindingPrivate::operator==`. -/
def QSparqlBindingPrivate.equals (p other : QSparqlBindingPrivate) : Bool :=
  p.type == other.type && p.nodetype == other.nodetype && p.dataType == other.dataType
    && p.lang == other.lang

/-- `QSparqlBinding::operator==`.  `samePointer` is the outcome of the pointer
comparison `d == other.d`, and `veq` is `QVariant::operator==` (which Qt
defines through conversions between the value types). -/
def QSparqlBinding.equals (veq : QVariant → QVariant → Bool) (samePointer : Bool)
    (a other : QSparqlBinding) : Bool :=
  (samePointer || a.d.equals other.d) && veq a.val other.val

/-! ## Sequences of setters -/

/-- A call of one of the setters of `QSparqlBinding`. -/
inductive Setter
  | setValue (value : QVariant)
  | setValueTyped (value : QString) (dataTypeUri : QUrl)
  | setBlankNodeLabel (id : QString)
  | setDataTypeUri (dataType : QUrl)
  | setLanguageTag (languageTag : QString)
  | setName (name : QString)
  | clear
deriving DecidableEq, Repr

/-- The effect of a setter on a binding that shares its private record with
no other binding. -/
def Setter.apply (F : QtDoubleOps) (b : QSparqlBinding) : Setter → QSparqlBinding
  | .setValue v => b.setValue v
  | .setValueTyped x u => b.setValueTyped F x u
  | .setBlankNodeLabel id => b.setBlankNodeLabel id
  | .setDataTypeUri u => b.setDataTypeUri u
  | .setLanguageTag l => b.setLanguageTag l
  | .setName n => b.setName n
  | .clear => b.clear

/-- The effect of a sequence of setters, first to last. -/
def applySetters (F : QtDoubleOps) (b : QSparqlBinding) (ops : List Setter) : QSparqlBinding :=
  ops.foldl (Setter.apply F) b

/-- Whether a setter calls `detach()` before it writes to the private
record: `setValue` (both overloads) and `clear` do not. -/
def Setter.detaches : Setter → Bool
  | .setValue _ => false
  | .setValueTyped _ _ => false
  | .clear => false
  | .setBlankNodeLabel _ => true
  | .setDataTypeUri _ => true
  | .setLanguageTag _ => true
  | .setName _ => true

/-! ## Shared private records

`QSparqlBinding` holds a pointer `d` to a reference-counted
`QSparqlBindingPrivate`; the copy constructor and the assignment operator
share the record.  The heap below holds the records; an address is an index
into it. -/

/-- A private record on the heap with its reference count `ref`. -/
structure PrivCell where
  data : QSparqlBindingPrivate
  ref : Nat
deriving DecidableEq, Repr

/-- The heap of private records; `none` is a deleted record. -/
abbrev PrivHeap := List (Option PrivCell)

/-- A `QSparqlBinding` object: the pointer `d` and the value `val`. -/
structure BindingObj where
  d : Nat
  val : QVariant
deriving DecidableEq, Repr

/-- The record behind a pointer (an empty record for a dangling pointer). -/
def PrivHeap.read (h : PrivHeap) (p : Nat) : QSparqlBindingPrivate :=
  match h.get? p with
  | some (some c) => c.data
  | _ => QSparqlBindingPrivate.new [] .Invalid

/-- The reference count behind a pointer. -/
def PrivHeap.refCount (h : PrivHeap) (p : Nat) : Nat :=
  match h.get? p with
  | some (some c) => c.ref
  | _ => 0

/-- Overwriting the data of the record at `p`. -/
def PrivHeap.write (h : PrivHeap) (p : Nat) (data : QSparqlBindingPrivate) : PrivHeap :=
  h.modify (Option.map (fun (c : PrivCell) => ({ c with data := data } : PrivCell))) p

/-- `ref.ref()` on the record at `p`. -/
def PrivHeap.incRef (h : PrivHeap) (p : Nat) : PrivHeap :=
  h.modify (Option.map (fun (c : PrivCell) => ({ c with ref := c.ref + 1 } : PrivCell))) p

/-- `if (!ref.deref()) delete` on the record at `p`. -/
def PrivHeap.decRef (h : PrivHeap) (p : Nat) : PrivHeap :=
  h.modify (fun (oc : Option PrivCell) => match oc with
    | some c => if c.ref - 1 = 0 then none else some ({ c with ref := c.ref - 1 } : PrivCell)
    | none => none) p

/-- The binding seen through its pointer: private record and value. -/
def BindingObj.view (h : PrivHeap) (b : BindingObj) : QSparqlBinding :=
  { d := h.read b.d, val := b.val }

/-- The constructor `QSparqlBinding(name, type)` on the heap. -/
def BindingObj.newTyped (h : PrivHeap) (name : QString) (type : VType) : PrivHeap × BindingObj :=
  (h ++ [some { data := QSparqlBindingPrivate.new name type, ref := 1 }],
   { d := h.length, val := .invalid })

/-- The copy constructor: the pointer is shared and the count incremented. -/
def BindingObj.copy (h : PrivHeap) (other : BindingObj) : PrivHeap × BindingObj :=
  (h.incRef other.d, { d := other.d, val := other.val })

/-- The assignment operator `*this = other`, with `qAtomicAssign`. -/
def BindingObj.assign (h : PrivHeap) (this other : BindingObj) : PrivHeap × BindingObj :=
  if this.d = other.d then (h, { d := this.d, val := other.val })
  else (PrivHeap.decRef (h.incRef other.d) this.d, { d := other.d, val := other.val })

/-- `QSparqlBinding::detach`, that is `qAtomicDetach(d)`: a record that is
shared is copied (with `QSparqlBindingPrivate`'s copy constructor, count 1) and
the old one released. -/
def BindingObj.detach (h : PrivHeap) (b : BindingObj) : PrivHeap × BindingObj :=
  if h.refCount b.d = 1 then (h, b)
  else
    (PrivHeap.decRef (h ++ [some ({ data := h.read b.d, ref := 1 } : PrivCell)]) b.d,
     { d := h.length, val := b.val })

/-- A setter on the heap: the private record is detached first by the setters
that call `detach()` and written in place by the others. -/
def BindingObj.applySetter (F : QtDoubleOps) (h : PrivHeap) (b : BindingObj) (op : Setter) :
    PrivHeap × BindingObj :=
  let hb := if op.detaches then b.detach h else (h, b)
  let r := op.apply F (hb.2.view hb.1)
  (hb.1.write hb.2.d r.d, { d := hb.2.d, val := r.val })

/-- The constructor `QSparqlBinding(name, value)` on the heap. -/
def BindingObj.new (F : QtDoubleOps) (h : PrivHeap) (name : QString) (value : QVariant) :
    PrivHeap × BindingObj :=
  let hb := BindingObj.newTyped h name value.type
  BindingObj.applySetter F hb.1 hb.2 (.setValue value)

/-! ## The tracker update result

An embedding of `qsparql_tracker_direct_update_result_p.cpp`.  One record
holds the update result, its private object and what surrounds them: the
driver, the backend call that is in flight, the queued `terminate` and a trace
of what the code has done. -/

/-- Modelled from the spec: the error kinds of `QSparqlError` (the class is
not among the sources); the specification names `NoError`, `ConnectionError`,
`StatementError` and `UnsupportedOperation`. -/
inductive ErrorType
  | NoError | ConnectionError | StatementError | UnsupportedOperation
deriving DecidableEq, Repr

/-- Modelled from the spec: an error record of `QSparqlError` (the class is
not among the sources): message, kind and number. -/
structure QSparqlError where
  message : QString
  type : ErrorType
  number : Int
deriving DecidableEq, Repr

/-- Modelled from the spec: the error record of a result that has no error. -/
def QSparqlError.noError : QSparqlError := { message := [], type := .NoError, number := -1 }

/-- Modelled from the spec: the constructor `QSparqlError(message, type)`. -/
def QSparqlError.ofType (message : QString) (type : ErrorType) : QSparqlError :=
  { message := message, type := type, number := -1 }

/-- The enumeration `QTrackerDirectUpdateResultPrivate::State`. -/
inductive UpdateState
  | Idle | Executing | Finished
deriving DecidableEq, Repr

/-- An update result and its surroundings.

* `state`, `loop`, `q`, `driverPrivate` are the fields of
  `QTrackerDirectUpdateResultPrivate`; the three pointers are recorded as
  null (false) or not null (true);
* `query` and `lastError` belong to the `QTrackerDirectUpdateResult`;
* `driverOpen` and `driverError` are `driver->isOpen()` and
  `driverPrivate->error`;
* `resultAlive` and `privateAlive` tell whether the two objects still exist;
* `callbackPending` tells whether the backend holds a completion callback
  for this update, `terminateQueued` counts the queued calls of `terminate`;
* `updatesStarted`, `finishedEmitted`, `warnings` and `loopExits` record the
  backend updates started, the emissions of `finished()`, the warnings
  printed and the calls of `loop->exit()`;
* `terminateRuns` counts the runs of `terminate()` and `updateFinishCalls`
  the calls of `tracker_sparql_connection_update_finish` on the connection;
* `fault` is set when a null pointer or a deleted object is dereferenced. -/
structure UpdateResult where
  state : UpdateState
  loop : Bool
  q : Bool
  driverPrivate : Bool
  query : QString
  lastError : QSparqlError
  driverOpen : Bool
  driverError : QString
  resultAlive : Bool
  privateAlive : Bool
  callbackPending : Bool
  terminateQueued : Nat
  updatesStarted : List QString
  finishedEmitted : Nat
  warnings : Nat
  loopExits : Nat
  terminateRuns : Nat
  updateFinishCalls : Nat
  fault : Bool
deriving DecidableEq, Repr

/-- The constructor `QTrackerDirectUpdateResult(p, query, type, options)`
with a driver that is open or not. -/
def UpdateResult.new (query : QString) (driverOpen : Bool) (driverError : QString) :
    UpdateResult :=
  { state := .Idle, loop := false, q := true, driverPrivate := true, query := query,
    lastError := QSparqlError.noError, driverOpen := driverOpen, driverError := driverError,
    resultAlive := true, privateAlive := true, callbackPending := false, terminateQueued := 0,
    updatesStarted := [], finishedEmitted := 0, warnings := 0, loopExits := 0,
    terminateRuns := 0, updateFinishCalls := 0, fault := false }

/-- Modelled from the spec: `QSparqlResult::hasError` (the class is not among
the sources): the error record is not `NoError`. -/
def UpdateResult.hasError (s : UpdateResult) : Bool := s.lastError.type != .NoError

/-- Modelled from the spec: `QSparqlResult::setLastError` (the class is not
among the sources): the new record replaces the previous one. -/
def UpdateResult.setLastError (s : UpdateResult) (e : QSparqlError) : UpdateResult :=
  { s with lastError := e }

/-- `QTrackerDirectUpdateResultPrivate::startUpdate`. -/
def UpdateResult.startUpdate (s : UpdateResult) (query : QString) : UpdateResult :=
  { s with updatesStarted := s.updatesStarted ++ [query], callbackPending := true,
           state := .Executing }

/-- `QTrackerDirectUpdateResultPrivate::terminate`; reading `q->hasError()`
through a null `q` is a fault. -/
def UpdateResult.terminate (s : UpdateResult) : UpdateResult :=
  let s1 := { s with state := .Finished, terminateRuns := s.terminateRuns + 1 }
  if !s1.q then { s1 with fault := true }
  else
    let s2 := if s1.hasError then { s1 with warnings := s1.warnings + 1 } else s1
    let s3 := { s2 with finishedEmitted := s2.finishedEmitted + 1 }
    if s3.loop then { s3 with loopExits := s3.loopExits + 1 } else s3

/-- `QTrackerDirectUpdateResult::exec`. -/
def UpdateResult.exec (s : UpdateResult) : UpdateResult :=
  if s.state ≠ .Idle then s
  else if !s.driverPrivate then s
  else if !s.driverOpen then
    (s.setLastError (QSparqlError.ofType s.driverError .ConnectionError)).terminate
  else s.startUpdate s.query

/-- `QTrackerDirectUpdateResult::isFinished`. -/
def UpdateResult.isFinished (s : UpdateResult) : Bool := s.state == .Finished

/-- A `GError` of the backend: message and code. -/
structure BackendError where
  message : QString
  code : Int
deriving DecidableEq, Repr

/-- The error record that `async_update_callback` builds from a backend
error; `errorCodeToType` is the function of that name, which is not among the
sources. -/
def QSparqlError.ofBackend (errorCodeToType : Int → ErrorType) (e : BackendError) : QSparqlError :=
  { message := e.message, type := errorCodeToType e.code, number := e.code }

/-- The function `async_update_callback` with `user_data` the private object
and `error` the outcome that `tracker_sparql_connection_update_finish`
reports.  Reading `data->q` of a private object that has been deleted is a
fault. -/
def UpdateResult.asyncUpdateCallback (errorCodeToType : Int → ErrorType) (s : UpdateResult)
    (error : Option BackendError) : UpdateResult :=
  if !s.privateAlive then { s with fault := true }
  else if !s.q then { s with privateAlive := false }
  else
    let s1 :=
      if s.driverPrivate then
        let s0 := { s with updateFinishCalls := s.updateFinishCalls + 1 }
        match error with
        | some e => s0.setLastError (QSparqlError.ofBackend errorCodeToType e)
        | none => s0
      else s
    { s1 with terminateQueued := s1.terminateQueued + 1 }

/-- `QTrackerDirectUpdateResultPrivate::driverClosing`. -/
def UpdateResult.driverClosing (s : UpdateResult) : UpdateResult :=
  { s with driverPrivate := false, warnings := s.warnings + 1 }

/-- `QTrackerDirectUpdateResultPrivate::checkConnection`; `connection` tells
whether `driverPrivate->connection` is set.  The returned flag is the result
of the function. -/
def UpdateResult.checkConnection (s : UpdateResult) (connection : Bool) (errorMsg : QString) :
    UpdateResult × Bool :=
  if !s.driverPrivate || !connection then
    (s.setLastError (QSparqlError.ofType errorMsg .ConnectionError), false)
  else (s, true)

/-- The destructor `~QTrackerDirectUpdateResult`. -/
def UpdateResult.destroy (s : UpdateResult) : UpdateResult :=
  if s.state = .Executing then { s with resultAlive := false, q := false }
  else { s with resultAlive := false, privateAlive := false }

/-- `QTrackerDirectUpdateResult::waitForFinished` up to the point where it
returns or blocks in `loop.exec()` with `d->loop` set.
`waitForConnectionOpen()` returns when the driver has finished opening; its
outcome is the `driverOpen` of the state. -/
def UpdateResult.waitForFinished (s : UpdateResult) : UpdateResult :=
  if s.isFinished then s
  else if s.driverPrivate then
    if !s.driverOpen then
      (s.setLastError (QSparqlError.ofType s.driverError .ConnectionError)).terminate
    else { s with loop := true }
  else if s.state = .Idle then s
  else { s with loop := true }

/-- The end of `waitForFinished`: `loop.exec()` returns once the event during
which `loop->exit()` was called has been handled, and `d->loop` is reset. -/
def UpdateResult.leaveLoop (before after : UpdateResult) : UpdateResult :=
  if after.loop && after.privateAlive && after.loopExits != before.loopExits then
    { after with loop := false }
  else after

/-- The events on one update result.

* `exec`, `waitForFinished` and `destroy` are calls of the consumer, made on
  a result that exists (and, for the last two, not from inside
  `waitForFinished`);
* `callback error` is the backend invoking the completion callback it holds;
* `deliverTerminate` is the event loop delivering a queued `terminate`; the
  call is dropped when the private object has been deleted;
* `closing`, `driverOpens` and `driverNotOpen` are the driver's: it emits
  `closing()` and is closed afterwards, it finishes opening, or its
  `isOpen()` turns false with no notification to the result.  The driver is
  not among the sources, and `exec()` and `waitForFinished()` read `isOpen()`
  afresh at each call, whatever the state. -/
inductive UpdateEvent
  | exec
  | waitForFinished
  | callback (error : Option BackendError)
  | deliverTerminate
  | closing
  | driverOpens
  | driverNotOpen
  | destroy
deriving DecidableEq, Repr

/-- The effect of one event; an event that cannot occur in a state leaves it
unchanged. -/
def UpdateResult.step (errorCodeToType : Int → ErrorType) (s : UpdateResult) :
    UpdateEvent → UpdateResult
  | .exec => if s.resultAlive then UpdateResult.leaveLoop s s.exec else s
  | .waitForFinished => if s.resultAlive && !s.loop then s.waitForFinished else s
  | .callback error =>
    if s.callbackPending then
      UpdateResult.asyncUpdateCallback errorCodeToType { s with callbackPending := false } error
    else s
  | .deliverTerminate =>
    if s.terminateQueued = 0 then s
    else if s.privateAlive then
      UpdateResult.leaveLoop s
        (UpdateResult.terminate { s with terminateQueued := s.terminateQueued - 1 })
    else { s with terminateQueued := s.terminateQueued - 1 }
  | .closing =>
    if s.privateAlive then { s.driverClosing with driverOpen := false }
    else { s with driverOpen := false }
  | .driverOpens => { s with driverOpen := true }
  | .driverNotOpen => { s with driverOpen := false }
  | .destroy => if s.resultAlive && !s.loop then s.destroy else s

/-- The effect of a sequence of events, first to last. -/
def UpdateResult.run (errorCodeToType : Int → ErrorType) (s : UpdateResult)
    (events : List UpdateEvent) : UpdateResult :=
  events.foldl (UpdateResult.step errorCodeToType) s

/-! ## The result cursor

The classes `QSparqlResult` and `QSparqlResultRow` are not among the sources
(only the tests and the example that iterate over a result are); the cursor
is written after the specification. -/

/-- Modelled from the spec: a `QSparqlResultRow`, the ordered sequence of the
bindings of one result tuple (the class is not among the sources); `count()`
is its length and the empty row has no binding. -/
abbrev QSparqlResultRow := List QSparqlBinding

/-- Modelled from the spec: the position of a result cursor (`pos()` of
`QSparqlResult`, which is not among the sources): before the first row, at
the row of an index, or after the last row. -/
inductive CursorPosition
  | BeforeFirst
  | AfterLast
  | RowIndex (i : Nat)
deriving DecidableEq, Repr

/-- Modelled from the spec: the state of the cursor of a select result
(`QSparqlResult`, not among the sources): the rows the backend delivered, the
position, the error record and whether the result is finished. -/
structure ResultCursor where
  rows : List QSparqlResultRow
  position : CursorPosition
  lastError : QSparqlError
  isFinished : Bool
deriving DecidableEq, Repr

/-- Modelled from the spec: `QSparqlResult::next()` (not among the sources):
it advances the position by one row and returns true, or returns false and
sets the position `AfterLast` when the rows are exhausted. -/
def ResultCursor.next (c : ResultCursor) : ResultCursor × Bool :=
  match c.position with
  | .BeforeFirst =>
    if 0 < c.rows.length then ({ c with position := .RowIndex 0 }, true)
    else ({ c with position := .AfterLast }, false)
  | .RowIndex i =>
    if i + 1 < c.rows.length then ({ c with position := .RowIndex (i + 1) }, true)
    else ({ c with position := .AfterLast }, false)
  | .AfterLast => ({ c with position := .AfterLast }, false)

/-- Modelled from the spec: `QSparqlResult::current()` (not among the
sources): the row at the current position, or the empty row when the position
is `BeforeFirst` or `AfterLast`. -/
def ResultCursor.current (c : ResultCursor) : QSparqlResultRow :=
  match c.position with
  | .RowIndex i => c.rows.getD i []
  | _ => []

/-- The cursor after `m` calls of `next()`. -/
def ResultCursor.afterCalls : Nat → ResultCursor → ResultCursor
  | 0, c => c
  | m + 1, c => ((ResultCursor.afterCalls m c).next).1

/-- Modelled from the spec: the cursor of a finished, error-free select
result with the given rows, as `exec` hands it out: positioned before the
first row. -/
def ResultCursor.finished (rows : List QSparqlResultRow) : ResultCursor :=
  { rows := rows, position := .BeforeFirst, lastError := QSparqlError.noError, isFinished := true }

/-! ## Definitions of the specification -/

/-- The escape table of the specification: each character that is escaped,
with the character that follows the backslash. -/
def specEscapeTable : List (Char × Char) :=
  [(chTab, 't'), (chNewline, 'n'), (chReturn, 'r'), (chBackspace, 'b'), (chFormFeed, 'f'),
   (dquote, dquote), (squote, squote), (backslash, backslash)]

/-- The function `esc` of the specification: a backslash and the table entry
for a character of the table, the character itself otherwise. -/
def specEsc (c : Char) : QString :=
  match specEscapeTable.lookup c with
  | some e => [backslash, e]
  | none => [c]

/-- A literal binding with value `v`, language tag `lang` and datatype URI
`dt`, for the examples. -/
def literalBinding (v : QVariant) (lang : QString) (dt : QUrl) : QSparqlBinding :=
  { d := { nm := "o".toList, type := v.type, dataType := dt, lang := lang, nodetype := .Literal },
    val := v }

/-- The decimal text of a natural number in the specification: the digits of
`Nat.digits 10`, most significant first, and `0` for zero. -/
def decimalNat (n : Nat) : QString :=
  if n = 0 then ['0'] else (Nat.digits 10 n).reverse.map digitChar

/-- The decimal text of an integer in the specification: a minus sign in
front of the digits of a negative number. -/
def decimalText (i : Int) : QString :=
  if i < 0 then '-' :: decimalNat i.natAbs else decimalNat i.toNat

/-- The text between the opening double quote of a literal and the next
double quote. -/
def betweenQuotes (s : QString) : QString := (s.drop 1).takeWhile (fun c => c != dquote)

/-- The bare text of an integer or boolean value in the specification: the
decimal digits of the number, or `true` / `false`; `none` for the values of
any other type. -/
def bareText : QVariant → Option QString
  | .ofInt i => some (decimalText i)
  | .ofLongLong i => some (decimalText i)
  | .ofUInt n => some (decimalNat n)
  | .ofULongLong n => some (decimalNat n)
  | .ofBool b => some (if b then "true".toList else "false".toList)
  | _ => none

/-- A number below 100 written with two digits. -/
def pad2 (n : Nat) : QString := [digitChar (n / 10 % 10), digitChar (n % 10)]

/-- A number below 10000 written with four digits. -/
def pad4 (n : Nat) : QString :=
  [digitChar (n / 1000 % 10), digitChar (n / 100 % 10), digitChar (n / 10 % 10), digitChar (n % 10)]

/-- The lexical `hh:mm:ss` of a time. -/
def timeLexical (hh mm ss : Nat) : QString := pad2 hh ++ [':'] ++ pad2 mm ++ [':'] ++ pad2 ss

/-- The lexical `YYYY-MM-DD` of a date. -/
def dateLexical (y m d : Nat) : QString := pad4 y ++ ['-'] ++ pad2 m ++ ['-'] ++ pad2 d

/-- The lexical `YYYY-MM-DDThh:mm:ss` of a date-time. -/
def dateTimeLexical (y m d hh mm ss : Nat) : QString :=
  dateLexical y m d ++ ['T'] ++ timeLexical hh mm ss

/-- The zone suffix `sHH:MM`, with the sign `-` when `neg` is true and `+`
otherwise. -/
def zoneSuffix (neg : Bool) (zh zm : Nat) : QString :=
  [if neg then '-' else '+'] ++ pad2 zh ++ [':'] ++ pad2 zm

/-- The signed number of seconds `s * (HH * 3600 + MM * 60)` of a zone. -/
def zoneSeconds (neg : Bool) (zh zm : Nat) : Int :=
  (if neg then -1 else 1) * ((zh : Int) * 3600 + (zm : Int) * 60)

/-- The names of the fourteen XML-Schema datatypes that the specification
lists as recognised. -/
def recognisedNames : List String :=
  ["int", "integer", "nonNegativeInteger", "decimal", "short", "long", "boolean", "double",
   "float", "string", "date", "time", "dateTime", "base64Binary"]

/-- The binding `a` built as `QSparqlBinding("x", "s")` with the language tag
`en`, seen before and after the setter `op` is applied to a copy `b` of `a`
made with the copy constructor. -/
def copyThenSet (F : QtDoubleOps) (op : Setter) : QSparqlBinding × QSparqlBinding :=
  let ha := BindingObj.new F [] "x".toList (.ofString "s".toList)
  let ha2 := BindingObj.applySetter F ha.1 ha.2 (.setLanguageTag "en".toList)
  let hb := BindingObj.copy ha2.1 ha2.2
  let hb2 := BindingObj.applySetter F hb.1 hb.2 op
  (ha2.2.view hb.1, ha2.2.view hb2.1)

/-- The invariant of the update result along the sequences of events without
`driverNotOpen`, that is, as long as the driver stops being open through
`closing` only: a result that exists has its private object and is linked
from it; nothing is pending or queued outside `Executing`; `terminate` has
run exactly when the state is `Finished`; and while an update is executing
with the connection reference in place, the driver is open. -/
def UpdateResult.Inv (s : UpdateResult) : Prop :=
  (s.resultAlive = true → s.privateAlive = true ∧ s.q = true) ∧
  (s.state = .Idle → s.callbackPending = false ∧ s.terminateQueued = 0 ∧
    s.terminateRuns = 0 ∧ s.finishedEmitted = 0 ∧ s.updatesStarted = []) ∧
  (s.state = .Executing → s.terminateRuns = 0 ∧ s.finishedEmitted = 0 ∧
    s.terminateQueued ≤ 1 ∧ (s.callbackPending = true → s.terminateQueued = 0) ∧
    (s.privateAlive = true → s.driverPrivate = true → s.driverOpen = true)) ∧
  (s.state = .Finished → s.terminateRuns = 1 ∧ s.finishedEmitted ≤ 1 ∧
    s.callbackPending = false ∧ s.terminateQueued = 0)

/-- An error-code mapping for the examples (the function `errorCodeToType` is
not among the sources): every backend code is a statement error. -/
def errorCodeToTypeExample : Int → ErrorType := fun _ => .StatementError

/-- An update result on an open driver, for the examples. -/
def openUpdateExample : UpdateResult := UpdateResult.new ['u'] true []

/-- An update result on a driver that failed to open, for the examples. -/
def notOpenUpdateExample : UpdateResult := UpdateResult.new ['u'] false ['n', 'o']

/-- A backend error, for the examples. -/
def backendErrorExample : BackendError := { message := ['b', 'a', 'd'], code := 3 }

/-- The rows of the scenario of the specification: three rows with the
columns `u` and `ng`. -/
def contactRowsExample : List QSparqlResultRow :=
  [[QSparqlBinding.new ['u'] (.ofUrl ⟨"uri001".toList⟩),
    QSparqlBinding.new ['n', 'g'] (.ofString "name001".toList)],
   [QSparqlBinding.new ['u'] (.ofUrl ⟨"uri002".toList⟩),
    QSparqlBinding.new ['n', 'g'] (.ofString "name002".toList)],
   [QSparqlBinding.new ['u'] (.ofUrl ⟨"uri003".toList⟩),
    QSparqlBinding.new ['n', 'g'] (.ofString "name003".toList)]]

/-- The character that a two-character escape stands for, given the character
after the backslash. -/
def unescapeChar (e : Char) : Char :=
  if e = 't' then chTab
  else if e = 'n' then chNewline
  else if e = 'r' then chReturn
  else if e = 'b' then chBackspace
  else if e = 'f' then chFormFeed
  else e

/-- The reading back of an escaped body: a backslash and the character after
it give one character, every other character stands for itself. -/
def unescape : QString → QString
  | [] => []
  | [c] => [c]
  | c :: e :: rest =>
    if c = backslash then unescapeChar e :: unescape rest else c :: unescape (e :: rest)

/-- The characters that may follow a backslash in an escaped body. -/
def isEscapeLetter (e : Char) : Bool :=
  e == 't' || e == 'n' || e == 'r' || e == 'b' || e == 'f' || e == dquote || e == squote
    || e == backslash

/-- The characters that an escaped body holds only after a backslash, if at
all: tab, newline, carriage return, backspace, form feed, double quote and
apostrophe. -/
def isRawForbidden (c : Char) : Bool :=
  c == chTab || c == chNewline || c == chReturn || c == chBackspace || c == chFormFeed
    || c == dquote || c == squote

/-- A well-formed escaped body, read from the left: each backslash is
followed by an escape letter and the two are taken together; a character
outside an escape is no control character of the table, no double quote and
no apostrophe. -/
def wellFormedBody : QString → Bool
  | [] => true
  | [c] => c != backslash && !isRawForbidden c
  | c :: e :: rest =>
    if c = backslash then isEscapeLetter e && wellFormedBody rest
    else !isRawForbidden c && wellFormedBody (e :: rest)

/-- The order of the phases in the specification: `Idle` before `Executing`
before `Finished`. -/
def UpdateState.rank : UpdateState → Nat
  | .Idle => 0
  | .Executing => 1
  | .Finished => 2

/-- The sign in front of a decimal lexical: none, `+` or `-`. -/
inductive LexSign
  | none | plus | minus
deriving DecidableEq, Repr

/-- The text of a sign. -/
def LexSign.text : LexSign → QString
  | .none => []
  | .plus => ['+']
  | .minus => ['-']

/-- A decimal lexical of the specification: an optional sign and the decimal
digits `digits`, most significant first (leading zeroes are allowed). -/
def decimalLexical (sign : LexSign) (digits : List Nat) : QString :=
  sign.text ++ digits.map digitChar

/-- The integer that a decimal lexical denotes. -/
def decimalLexicalValue (sign : LexSign) (digits : List Nat) : Int :=
  match sign with
  | .minus => -((Nat.ofDigits 10 digits.reverse : Nat) : Int)
  | _ => ((Nat.ofDigits 10 digits.reverse : Nat) : Int)

/-! ## Theorems -/

theorem escapeChar_eq_specEsc (c : Char) : escapeChar c = specEsc c := by
  unfold escapeChar specEsc specEscapeTable
  by_cases h1 : c = chTab
  · subst h1; decide
  by_cases h2 : c = chNewline
  · subst h2; decide
  by_cases h3 : c = chReturn
  · subst h3; decide
  by_cases h4 : c = chBackspace
  · subst h4; decide
  by_cases h5 : c = chFormFeed
  · subst h5; decide
  by_cases h6 : c = dquote
  · subst h6; decide
  by_cases h7 : c = squote
  · subst h7; decide
  by_cases h8 : c = backslash
  · subst h8; decide
  have e1 : (c == chTab) = false := beq_eq_false_iff_ne.mpr h1
  have e2 : (c == chNewline) = false := beq_eq_false_iff_ne.mpr h2
  have e3 : (c == chReturn) = false := beq_eq_false_iff_ne.mpr h3
  have e4 : (c == chBackspace) = false := beq_eq_false_iff_ne.mpr h4
  have e5 : (c == chFormFeed) = false := beq_eq_false_iff_ne.mpr h5
  have e6 : (c == dquote) = false := beq_eq_false_iff_ne.mpr h6
  have e7 : (c == squote) = false := beq_eq_false_iff_ne.mpr h7
  have e8 : (c == backslash) = false := beq_eq_false_iff_ne.mpr h8
  simp [List.lookup, h1, h2, h3, h4, h5, h6, h7, h8, e1, e2, e3, e4, e5, e6, e7, e8]

/-- C1: a literal binding holding the string `s`, with empty language tag and
empty datatype URI, prints as a double quote, the escapes `esc c` of the
characters of `s` in order, and a double quote. -/
theorem C1_string_literal_escaped (F : QtDoubleOps) (b : QSparqlBinding) (s : QString)
    (hlit : b.d.nodetype = .Literal) (hval : b.val = .ofString s)
    (hlang : b.d.lang = []) (hdt : b.d.dataType.isEmpty = true) :
    b.toString F = [dquote] ++ s.flatMap specEsc ++ [dquote] := by
  have hesc : escapeChar = specEsc := funext escapeChar_eq_specEsc
  simp [QSparqlBinding.toString, hlit, hval, hlang, hdt, literalOf, hesc]

/-- An instance of C1: the string `a`, tab, `b`. -/
theorem C1_string_literal_escaped_witness :
    (literalBinding (.ofString ['a', chTab, 'b']) [] ⟨[]⟩).toString QtDoubleOps.zero
      = [dquote] ++ (['a', chTab, 'b']).flatMap specEsc ++ [dquote] :=
  C1_string_literal_escaped QtDoubleOps.zero _ ['a', chTab, 'b'] rfl rfl rfl rfl

/-- A property of both branches of a conditional holds of the conditional. -/
theorem ite_prop {α : Type} (P : α → Prop) {c : Prop} [Decidable c] {x y : α}
    (hx : P x) (hy : P y) : P (if c then x else y) := by
  split <;> assumption

@[simp] theorem typedPrivate_nodetype (d : QSparqlBindingPrivate) (u : QUrl) :
    (typedPrivate d u).nodetype = .Literal := rfl

@[simp] theorem typedPrivate_dataType (d : QSparqlBindingPrivate) (u : QUrl) :
    (typedPrivate d u).dataType = u := rfl

@[simp] theorem typedPrivate_lang (d : QSparqlBindingPrivate) (u : QUrl) :
    (typedPrivate d u).lang = d.lang := rfl

@[simp] theorem typedPrivate_nm (d : QSparqlBindingPrivate) (u : QUrl) :
    (typedPrivate d u).nm = d.nm := rfl

@[simp] theorem typedPrivate_type (d : QSparqlBindingPrivate) (u : QUrl) :
    (typedPrivate d u).type = d.type := rfl

theorem setValue_literal (b : QSparqlBinding) (v : QVariant) (h : v.type ≠ .Url) :
    b.setValue v = { d := { b.d with nodetype := .Literal }, val := v } := by
  simp [QSparqlBinding.setValue, h]

/-- Every branch of `setValue(lexical, uri)` stores a value that is not a URL,
makes the binding a literal and records the URI; name, variant type and
language tag are left as they were. -/
theorem setValueTyped_shape (F : QtDoubleOps) (b : QSparqlBinding) (value : QString) (u : QUrl) :
    ∃ v, v.type ≠ .Url ∧
      b.setValueTyped F value u = { d := typedPrivate b.d u, val := v } := by
  unfold QSparqlBinding.setValueTyped
  dsimp only
  iterate 14
    refine ite_prop (fun r => ∃ v, QVariant.type v ≠ .Url ∧
      r = (⟨typedPrivate b.d u, v⟩ : QSparqlBinding)) ?_ ?_
    · exact ⟨_, (by intro h; cases h), setValue_literal _ _ (by intro h; cases h)⟩
  exact ⟨_, (by intro h; cases h), setValue_literal _ _ (by intro h; cases h)⟩

/-- The text of a literal with empty language tag and a datatype URI: the
value's text, put in quotes unless it already is, and the datatype suffix. -/
theorem toString_literal_datatype (F : QtDoubleOps) (b : QSparqlBinding)
    (hlit : b.d.nodetype = .Literal) (hlang : b.d.lang = []) (hdt : b.d.dataType.isEmpty = false) :
    b.toString F =
      (if (literalOf F b.val).2 then (literalOf F b.val).1
        else [dquote] ++ (literalOf F b.val).1 ++ [dquote])
      ++ ("^^<".toList ++ QString.fromLatin1 b.d.dataType.toEncoded ++ ['>']) := by
  have hdu : b.dataTypeUri = b.d.dataType := by
    simp [QSparqlBinding.dataTypeUri, hlit, hdt]
  cases hq : (literalOf F b.val).2 <;>
    simp [QSparqlBinding.toString, hlit, hlang, hdt, hdu, hq]

/-- The text of a literal with empty language tag and no datatype URI is the
value's text. -/
theorem toString_literal_plain (F : QtDoubleOps) (b : QSparqlBinding)
    (hlit : b.d.nodetype = .Literal) (hlang : b.d.lang = []) (hdt : b.d.dataType.isEmpty = true) :
    b.toString F = (literalOf F b.val).1 := by
  simp [QSparqlBinding.toString, hlit, hlang, hdt]

/-- A text that `toString` marks as quoted starts and ends with a double
quote. -/
theorem literalOf_quoted (F : QtDoubleOps) (v : QVariant) (h : (literalOf F v).2 = true) :
    ∃ body, (literalOf F v).1 = [dquote] ++ body ++ [dquote] := by
  cases v with
  | ofString s => exact ⟨s.flatMap escapeChar, rfl⟩
  | ofDate dt => exact ⟨dateText dt, rfl⟩
  | ofTime tm => exact ⟨tm.toString, rfl⟩
  | ofDateTime v => exact ⟨dateText v.date ++ ['T'] ++ v.time.toString, rfl⟩
  | ofByteArray b => exact ⟨QString.fromLatin1 (QByteArray.toBase64 b), rfl⟩
  | _ => simp [literalOf] at h

/-- C3: after `setValue(lexical, u)` with a non-empty datatype URI `u`, on a
binding with empty language tag, the binding is a literal, `dataTypeUri()` is
`u`, and `toString()` ends with a double quote followed by `^^<`, the encoded
form of `u` and `>`. -/
theorem C3_setValue_datatype_suffix (F : QtDoubleOps) (b : QSparqlBinding) (value : QString)
    (u : QUrl) (hlang : b.d.lang = []) (hu : u.isEmpty = false) :
    (b.setValueTyped F value u).isLiteral = true
      ∧ (b.setValueTyped F value u).dataTypeUri = u
      ∧ ([dquote] ++ "^^<".toList ++ QString.fromLatin1 u.toEncoded ++ ['>'])
          <:+ (b.setValueTyped F value u).toString F := by
  obtain ⟨v, -, hb⟩ := setValueTyped_shape F b value u
  rw [hb]
  refine ⟨rfl, by simp [QSparqlBinding.dataTypeUri, hu], ?_⟩
  rw [toString_literal_datatype F ⟨typedPrivate b.d u, v⟩ rfl hlang hu]
  cases hq : (literalOf F v).2
  · simp only [hq]
    exact ⟨[dquote] ++ (literalOf F v).1, by simp⟩
  · obtain ⟨body, hbody⟩ := literalOf_quoted F v hq
    simp only [hq, hbody]
    exact ⟨[dquote] ++ body, by simp⟩

/-- An instance of C3: a datatype URI that is not an XML-Schema one. -/
theorem C3_setValue_datatype_suffix_witness :
    ((QSparqlBinding.newTyped [] .Invalid).setValueTyped QtDoubleOps.zero "x".toList
        ⟨"http://example.org/t".toList⟩).isLiteral = true
      ∧ ((QSparqlBinding.newTyped [] .Invalid).setValueTyped QtDoubleOps.zero "x".toList
        ⟨"http://example.org/t".toList⟩).dataTypeUri = ⟨"http://example.org/t".toList⟩
      ∧ ([dquote] ++ "^^<".toList ++ QString.fromLatin1 (QUrl.toEncoded ⟨"http://example.org/t".toList⟩)
          ++ ['>'])
          <:+ ((QSparqlBinding.newTyped [] .Invalid).setValueTyped QtDoubleOps.zero "x".toList
            ⟨"http://example.org/t".toList⟩).toString QtDoubleOps.zero :=
  C3_setValue_datatype_suffix QtDoubleOps.zero _ "x".toList ⟨"http://example.org/t".toList⟩ rfl rfl

/-! ### Printing and reading decimal numbers -/

theorem digitChar_isDigit (d : Nat) (h : d < 10) : (digitChar d).isDigit = true := by
  interval_cases d <;> decide

theorem digitChar_value (d : Nat) (h : d < 10) : (digitChar d).toNat - 48 = d := by
  interval_cases d <;> decide

theorem digitChar_not_space (d : Nat) (h : d < 10) : isSpace (digitChar d) = false := by
  interval_cases d <;> decide

theorem digitChar_ne_minus (d : Nat) (h : d < 10) : digitChar d ≠ '-' := by
  interval_cases d <;> decide

theorem digitChar_ne_plus (d : Nat) (h : d < 10) : digitChar d ≠ '+' := by
  interval_cases d <;> decide

theorem digitChar_ne_dquote (d : Nat) (h : d < 10) : digitChar d ≠ dquote := by
  interval_cases d <;> decide

/-- The digits of `n`, most significant first (`[0]` for zero). -/
theorem decimalNat_eq_map (n : Nat) :
    ∃ ds : List Nat, ds ≠ [] ∧ (∀ d ∈ ds, d < 10) ∧ decimalNat n = ds.map digitChar
      ∧ ds.foldl (fun a d => a * 10 + d) 0 = n := by
  unfold decimalNat
  by_cases h0 : n = 0
  · subst h0
    exact ⟨[0], by simp, by simp, by simp [digitChar], by simp⟩
  · refine ⟨(Nat.digits 10 n).reverse, ?_, ?_, by simp [h0], ?_⟩
    · simp [Nat.digits_ne_nil_iff_ne_zero, h0]
    · intro d hd
      exact Nat.digits_lt_base (by norm_num) (List.mem_reverse.mp hd)
    · rw [List.foldl_reverse]
      have h := Nat.ofDigits_digits 10 n
      rw [Nat.ofDigits_eq_foldr] at h
      simpa [Nat.mul_comm, Nat.add_comm] using h

theorem natDigits_eq (n : Nat) : ∀ fuel acc, n < fuel → natDigits fuel n acc = decimalNat n ++ acc := by
  induction n using Nat.strong_induction_on with
  | _ n ih =>
    intro fuel acc hf
    cases fuel with
    | zero => omega
    | succ fuel =>
      unfold natDigits
      by_cases h10 : n < 10
      · rw [if_pos h10]
        unfold decimalNat
        by_cases h0 : n = 0
        · subst h0; rfl
        · rw [if_neg h0, Nat.digits_of_lt 10 n h0 h10]; rfl
      · rw [if_neg h10, ih (n / 10) (by omega) fuel _ (by omega)]
        have hn0 : n ≠ 0 := by omega
        have hq0 : n / 10 ≠ 0 := by omega
        unfold decimalNat
        have hd : Nat.digits 10 n = n % 10 :: Nat.digits 10 (n / 10) :=
          Nat.digits_def' (by norm_num) (by omega)
        rw [if_neg hn0, if_neg hq0, hd]
        simp

theorem numberNat_eq_decimalNat (n : Nat) : QString.numberNat n = decimalNat n := by
  unfold QString.numberNat
  rw [natDigits_eq n (n + 1) [] (by omega)]
  simp

/-- `QString::number` prints the decimal text of the specification. -/
theorem number_eq_decimalText (i : Int) : QString.number i = decimalText i := by
  unfold QString.number decimalText
  simp only [numberNat_eq_decimalNat]

theorem parseDigits_map (ds : List Nat) : ∀ acc, (∀ d ∈ ds, d < 10) →
    parseDigits acc (ds.map digitChar) = some (ds.foldl (fun a d => a * 10 + d) acc) := by
  induction ds with
  | nil => intro acc _; rfl
  | cons d ds ih =>
    intro acc h
    have hd : d < 10 := h d (by simp)
    simp only [List.map_cons, parseDigits, digitChar_isDigit d hd, if_true, digitChar_value d hd,
      List.foldl_cons]
    exact ih _ (fun x hx => h x (by simp [hx]))

theorem parseUnsignedBody_decimalNat (n : Nat) : parseUnsignedBody (decimalNat n) = some n := by
  obtain ⟨ds, hne, hlt, heq, hval⟩ := decimalNat_eq_map n
  rw [heq]
  cases ds with
  | nil => exact absurd rfl hne
  | cons d ds =>
    have hd : d < 10 := hlt d (by simp)
    have := parseDigits_map (d :: ds) 0 hlt
    simp only [List.map_cons] at this ⊢
    simp only [parseUnsignedBody, digitChar_isDigit d hd, if_true]
    rw [this, hval]

/-- The first character of a decimal text is a digit. -/
theorem decimalNat_head (n : Nat) : ∃ d rest, d < 10 ∧ decimalNat n = digitChar d :: rest := by
  obtain ⟨ds, hne, hlt, heq, -⟩ := decimalNat_eq_map n
  cases ds with
  | nil => exact absurd rfl hne
  | cons d ds => exact ⟨d, ds.map digitChar, hlt d (by simp), by simp [heq]⟩

theorem parseUnsigned_decimalNat (n : Nat) : parseUnsigned (decimalNat n) = some n := by
  obtain ⟨d, rest, hd, heq⟩ := decimalNat_head n
  have hb := parseUnsignedBody_decimalNat n
  rw [heq] at hb ⊢
  simp [parseUnsigned, List.dropWhile, digitChar_not_space d hd, digitChar_ne_minus d hd,
    digitChar_ne_plus d hd, hb]

theorem parseSigned_decimalText (i : Int) : parseSigned (decimalText i) = some i := by
  unfold decimalText
  by_cases hneg : i < 0
  · rw [if_pos hneg]
    have hsp : isSpace '-' = false := by decide
    have hi : -((i.natAbs : Nat) : Int) = i := by omega
    simp only [parseSigned, List.dropWhile, hsp, parseUnsignedBody_decimalNat, if_true,
      Option.map_some', hi]
  · rw [if_neg hneg]
    obtain ⟨d, rest, hd, heq⟩ := decimalNat_head i.toNat
    have hb := parseUnsignedBody_decimalNat i.toNat
    rw [heq] at hb ⊢
    have hi : ((i.toNat : Nat) : Int) = i := by omega
    simp [parseSigned, List.dropWhile, digitChar_not_space d hd, digitChar_ne_minus d hd,
      digitChar_ne_plus d hd, hb, hi]

theorem toLongLong_decimalText (i : Int) (h : -9223372036854775808 ≤ i ∧ i ≤ 9223372036854775807) :
    QString.toLongLong (decimalText i) = i := by
  simp [QString.toLongLong, QString.toLongLongOk, parseSigned_decimalText, h]

theorem toInt_decimalText (i : Int) (h : -2147483648 ≤ i ∧ i ≤ 2147483647) :
    QString.toInt (decimalText i) = i := by
  have h1 : -9223372036854775808 ≤ i ∧ i ≤ 9223372036854775807 := by omega
  have h2 : ¬ (i < -2147483648 ∨ i > 2147483647) := by omega
  simp [QString.toInt, QString.toIntOk, QString.toLongLongOk, parseSigned_decimalText, h1, h2]

theorem toUInt_decimalNat (n : Nat) (h : n ≤ 4294967295) :
    QString.toUInt (decimalNat n) = n := by
  have h1 : n ≤ 18446744073709551615 := by omega
  have h2 : ¬ (n > 4294967295) := by omega
  simp [QString.toUInt, QString.toUIntOk, QString.toULongLongOk, parseUnsigned_decimalNat, h1, h2]

/-- `toInt` stays within the 32-bit signed range. -/
theorem toInt_range (s : QString) : -2147483648 ≤ QString.toInt s ∧ QString.toInt s ≤ 2147483647 := by
  unfold QString.toInt QString.toIntOk
  cases QString.toLongLongOk s with
  | none => simp
  | some v =>
    by_cases hv : v < -2147483648 ∨ v > 2147483647
    · simp [hv]
    · simp only [hv, if_false, Option.getD_some]; omega

/-- `toLongLong` stays within the 64-bit signed range. -/
theorem toLongLong_range (s : QString) :
    -9223372036854775808 ≤ QString.toLongLong s ∧ QString.toLongLong s ≤ 9223372036854775807 := by
  unfold QString.toLongLong QString.toLongLongOk
  cases parseSigned s with
  | none => simp
  | some v =>
    by_cases hv : -9223372036854775808 ≤ v ∧ v ≤ 9223372036854775807
    · simp only [hv, and_self, if_true, Option.getD_some]
    · simp [hv]

/-- `toUInt` stays within the 32-bit unsigned range. -/
theorem toUInt_range (s : QString) : QString.toUInt s ≤ 4294967295 := by
  unfold QString.toUInt QString.toUIntOk
  cases QString.toULongLongOk s with
  | none => simp
  | some v =>
    by_cases hv : v > 4294967295
    · simp [hv]
    · simp only [hv, if_false, Option.getD_some]; omega

/-! ### The branch of `setValue(lexical, uri)` taken for each recognised URI -/

theorem setValueTyped_int (F : QtDoubleOps) (b : QSparqlBinding) (value : QString) :
    b.setValueTyped F value (xsd "int") =
      { d := typedPrivate b.d (xsd "int"),
        val := .ofInt (QString.toInt value) } := by
  unfold QSparqlBinding.setValueTyped
  dsimp only
  rw [if_pos]; swap; decide
  exact setValue_literal _ _ (by intro h; cases h)

theorem setValueTyped_integer (F : QtDoubleOps) (b : QSparqlBinding) (value : QString) :
    b.setValueTyped F value (xsd "integer") =
      { d := typedPrivate b.d (xsd "integer"),
        val := .ofInt (QString.toInt value) } := by
  unfold QSparqlBinding.setValueTyped
  dsimp only
  iterate 1 (rw [if_neg]; swap; decide)
  rw [if_pos]; swap; decide
  exact setValue_literal _ _ (by intro h; cases h)

theorem setValueTyped_nonNegativeInteger (F : QtDoubleOps) (b : QSparqlBinding) (value : QString) :
    b.setValueTyped F value (xsd "nonNegativeInteger") =
      { d := typedPrivate b.d (xsd "nonNegativeInteger"),
        val := .ofUInt (QString.toUInt value) } := by
  unfold QSparqlBinding.setValueTyped
  dsimp only
  iterate 2 (rw [if_neg]; swap; decide)
  rw [if_pos]; swap; decide
  exact setValue_literal _ _ (by intro h; cases h)

theorem setValueTyped_short (F : QtDoubleOps) (b : QSparqlBinding) (value : QString) :
    b.setValueTyped F value (xsd "short") =
      { d := typedPrivate b.d (xsd "short"),
        val := .ofInt (QString.toInt value) } := by
  unfold QSparqlBinding.setValueTyped
  dsimp only
  iterate 4 (rw [if_neg]; swap; decide)
  rw [if_pos]; swap; decide
  exact setValue_literal _ _ (by intro h; cases h)

theorem setValueTyped_long (F : QtDoubleOps) (b : QSparqlBinding) (value : QString) :
    b.setValueTyped F value (xsd "long") =
      { d := typedPrivate b.d (xsd "long"),
        val := .ofLongLong (QString.toLongLong value) } := by
  unfold QSparqlBinding.setValueTyped
  dsimp only
  iterate 5 (rw [if_neg]; swap; decide)
  rw [if_pos]; swap; decide
  exact setValue_literal _ _ (by intro h; cases h)

theorem setValueTyped_boolean (F : QtDoubleOps) (b : QSparqlBinding) (value : QString) :
    b.setValueTyped F value (xsd "boolean") =
      { d := typedPrivate b.d (xsd "boolean"),
        val := .ofBool (QString.toLower value == "true".toList
          || QString.toLower value == "yes".toList || QString.toInt value != 0) } := by
  unfold QSparqlBinding.setValueTyped
  dsimp only
  iterate 6 (rw [if_neg]; swap; decide)
  rw [if_pos]; swap; decide
  exact setValue_literal _ _ (by intro h; cases h)

theorem setValueTyped_string (F : QtDoubleOps) (b : QSparqlBinding) (value : QString) :
    b.setValueTyped F value (xsd "string") =
      { d := typedPrivate b.d (xsd "string"),
        val := .ofString value } := by
  unfold QSparqlBinding.setValueTyped
  dsimp only
  iterate 9 (rw [if_neg]; swap; decide)
  rw [if_pos]; swap; decide
  exact setValue_literal _ _ (by intro h; cases h)

theorem setValueTyped_date (F : QtDoubleOps) (b : QSparqlBinding) (value : QString) :
    b.setValueTyped F value (xsd "date") =
      { d := typedPrivate b.d (xsd "date"),
        val := .ofDate (QDate.fromString value) } := by
  unfold QSparqlBinding.setValueTyped
  dsimp only
  iterate 10 (rw [if_neg]; swap; decide)
  rw [if_pos]; swap; decide
  exact setValue_literal _ _ (by intro h; cases h)

theorem setValueTyped_time (F : QtDoubleOps) (b : QSparqlBinding) (value : QString) :
    b.setValueTyped F value (xsd "time") =
      { d := typedPrivate b.d (xsd "time"),
        val := .ofTime ((QTime.fromString F (extractTimezone value).2).addSecs (extractTimezone value).1) } := by
  unfold QSparqlBinding.setValueTyped
  dsimp only
  iterate 11 (rw [if_neg]; swap; decide)
  rw [if_pos]; swap; decide
  exact setValue_literal _ _ (by intro h; cases h)

theorem setValueTyped_dateTime (F : QtDoubleOps) (b : QSparqlBinding) (value : QString) :
    b.setValueTyped F value (xsd "dateTime") =
      { d := typedPrivate b.d (xsd "dateTime"),
        val := .ofDateTime ((QDateTime.fromString F (extractTimezone value).2).addSecs
          (extractTimezone value).1) } := by
  unfold QSparqlBinding.setValueTyped
  dsimp only
  iterate 12 (rw [if_neg]; swap; decide)
  rw [if_pos]; swap; decide
  exact setValue_literal _ _ (by intro h; cases h)

theorem setValueTyped_base64Binary (F : QtDoubleOps) (b : QSparqlBinding) (value : QString) :
    b.setValueTyped F value (xsd "base64Binary") =
      { d := typedPrivate b.d (xsd "base64Binary"),
        val := .ofByteArray (QByteArray.fromBase64 (QString.toLatin1 value)) } := by
  unfold QSparqlBinding.setValueTyped
  dsimp only
  iterate 13 (rw [if_neg]; swap; decide)
  rw [if_pos]; swap; decide
  exact setValue_literal _ _ (by intro h; cases h)

/-! ### Integers and booleans -/

theorem betweenQuotes_quoted (body rest : QString) (h : ∀ c ∈ body, c ≠ dquote) :
    betweenQuotes ([dquote] ++ body ++ [dquote] ++ rest) = body := by
  have aux : ∀ l : QString, (∀ c ∈ l, c ≠ dquote) →
      List.takeWhile (fun c => c != dquote) (l ++ dquote :: rest) = l := by
    intro l
    induction l with
    | nil => intro _; simp [List.takeWhile]
    | cons c cs ih =>
      intro hl
      have hc : (c != dquote) = true := by simpa using hl c (by simp)
      simp only [List.cons_append, List.takeWhile_cons, hc, if_true]
      rw [ih (fun x hx => hl x (by simp [hx]))]
  unfold betweenQuotes
  simpa using aux body h

theorem decimalNat_no_dquote (n : Nat) : ∀ c ∈ decimalNat n, c ≠ dquote := by
  obtain ⟨ds, -, hlt, heq, -⟩ := decimalNat_eq_map n
  intro c hc
  rw [heq, List.mem_map] at hc
  obtain ⟨d, hd, rfl⟩ := hc
  exact digitChar_ne_dquote d (hlt d hd)

theorem decimalText_no_dquote (i : Int) : ∀ c ∈ decimalText i, c ≠ dquote := by
  unfold decimalText
  intro c hc
  split at hc
  · rcases List.mem_cons.mp hc with rfl | h
    · decide
    · exact decimalNat_no_dquote _ c h
  · exact decimalNat_no_dquote _ c hc

theorem encoded_xsd_int : QString.fromLatin1 (xsd "int").toEncoded = (xsd "int").toString := by
  decide

theorem encoded_xsd_integer :
    QString.fromLatin1 (xsd "integer").toEncoded = (xsd "integer").toString := by
  decide

theorem encoded_xsd_short : QString.fromLatin1 (xsd "short").toEncoded = (xsd "short").toString := by
  decide

theorem encoded_xsd_long : QString.fromLatin1 (xsd "long").toEncoded = (xsd "long").toString := by
  decide

/-- Printing a signed integer stored under a datatype URI. -/
theorem toString_ofInt_typed (F : QtDoubleOps) (d : QSparqlBindingPrivate) (n : Int)
    (hlit : d.nodetype = .Literal) (hlang : d.lang = []) (hdt : d.dataType.isEmpty = false) :
    QSparqlBinding.toString F ⟨d, .ofInt n⟩ = [dquote] ++ decimalText n ++ [dquote] ++
      ("^^<".toList ++ QString.fromLatin1 d.dataType.toEncoded ++ ['>']) := by
  rw [toString_literal_datatype F ⟨d, .ofInt n⟩ hlit hlang hdt]
  simp [literalOf, number_eq_decimalText]

/-- Printing a 64-bit integer stored under a datatype URI. -/
theorem toString_ofLongLong_typed (F : QtDoubleOps) (d : QSparqlBindingPrivate) (n : Int)
    (hlit : d.nodetype = .Literal) (hlang : d.lang = []) (hdt : d.dataType.isEmpty = false) :
    QSparqlBinding.toString F ⟨d, .ofLongLong n⟩ = [dquote] ++ decimalText n ++ [dquote] ++
      ("^^<".toList ++ QString.fromLatin1 d.dataType.toEncoded ++ ['>']) := by
  rw [toString_literal_datatype F ⟨d, .ofLongLong n⟩ hlit hlang hdt]
  simp [literalOf, number_eq_decimalText]

/-- C2: for `u` among xsd:int, xsd:integer, xsd:short and `n` a 32-bit signed
integer, or `u` = xsd:long and `n` a 64-bit signed integer, on a binding with
empty language tag, `setValue(decimal(n), u)` followed by `toString()` yields
the decimal text of `n` in double quotes followed by `^^<`, `u` and `>`. -/
theorem C2_integer_text_roundtrip (F : QtDoubleOps) (b : QSparqlBinding) (n : Int) (u : QUrl)
    (hlang : b.d.lang = [])
    (h : (u ∈ [xsd "int", xsd "integer", xsd "short"] ∧ -2147483648 ≤ n ∧ n ≤ 2147483647)
      ∨ (u = xsd "long" ∧ -9223372036854775808 ≤ n ∧ n ≤ 9223372036854775807)) :
    (b.setValueTyped F (decimalText n) u).toString F
      = [dquote] ++ decimalText n ++ [dquote] ++ "^^<".toList ++ u.toString ++ ['>'] := by
  rcases h with ⟨hu, hn⟩ | ⟨hu, hn⟩
  · simp only [List.mem_cons, List.mem_singleton, List.mem_nil_iff, or_false] at hu
    rcases hu with rfl | rfl | rfl
    · rw [setValueTyped_int, toInt_decimalText n hn,
        toString_ofInt_typed F (typedPrivate b.d (xsd "int")) n rfl hlang rfl]
      simp only [typedPrivate_dataType, encoded_xsd_int, List.append_assoc]
    · rw [setValueTyped_integer, toInt_decimalText n hn,
        toString_ofInt_typed F (typedPrivate b.d (xsd "integer")) n rfl hlang rfl]
      simp only [typedPrivate_dataType, encoded_xsd_integer, List.append_assoc]
    · rw [setValueTyped_short, toInt_decimalText n hn,
        toString_ofInt_typed F (typedPrivate b.d (xsd "short")) n rfl hlang rfl]
      simp only [typedPrivate_dataType, encoded_xsd_short, List.append_assoc]
  · subst hu
    rw [setValueTyped_long, toLongLong_decimalText n hn,
      toString_ofLongLong_typed F (typedPrivate b.d (xsd "long")) n rfl hlang rfl]
    simp only [typedPrivate_dataType, encoded_xsd_long, List.append_assoc]

/-- An instance of C2: the test value -1234 with xsd:integer. -/
theorem C2_integer_text_roundtrip_witness :
    ((QSparqlBinding.newTyped [] .Invalid).setValueTyped QtDoubleOps.zero (decimalText (-1234))
        (xsd "integer")).toString QtDoubleOps.zero
      = [dquote] ++ decimalText (-1234) ++ [dquote] ++ "^^<".toList ++ (xsd "integer").toString
          ++ ['>'] :=
  C2_integer_text_roundtrip QtDoubleOps.zero _ (-1234) (xsd "integer") rfl
    (Or.inl ⟨by decide, by decide, by decide⟩)

/-- The bare text of the specification is the unquoted text of `toString`. -/
theorem literalOf_bareText (F : QtDoubleOps) (v : QVariant) (text : QString)
    (h : bareText v = some text) : literalOf F v = (text, false) := by
  cases v <;> simp [bareText] at h <;> subst h <;>
    simp [literalOf, number_eq_decimalText, numberNat_eq_decimalNat]

/-- Printing an unquoted value stored under a datatype URI. -/
theorem toString_bare_typed (F : QtDoubleOps) (d : QSparqlBindingPrivate) (v : QVariant)
    (text : QString) (hv : bareText v = some text)
    (hlit : d.nodetype = .Literal) (hlang : d.lang = []) (hdt : d.dataType.isEmpty = false) :
    QSparqlBinding.toString F ⟨d, v⟩ = [dquote] ++ text ++ [dquote] ++
      ("^^<".toList ++ QString.fromLatin1 d.dataType.toEncoded ++ ['>']) := by
  rw [toString_literal_datatype F ⟨d, v⟩ hlit hlang hdt, literalOf_bareText F v text hv]
  simp

theorem bareText_no_dquote (v : QVariant) (text : QString) (h : bareText v = some text) :
    ∀ c ∈ text, c ≠ dquote := by
  cases v <;> simp [bareText] at h <;> subst h
  · rename_i b
    cases b <;> decide
  · exact decimalText_no_dquote _
  · exact decimalNat_no_dquote _
  · exact decimalText_no_dquote _
  · exact decimalNat_no_dquote _

/-- Reading back the text printed for an exact scalar value under a datatype
URI. -/
theorem betweenQuotes_bare_typed (F : QtDoubleOps) (d : QSparqlBindingPrivate) (v : QVariant)
    (text : QString) (hv : bareText v = some text)
    (hlit : d.nodetype = .Literal) (hlang : d.lang = []) (hdt : d.dataType.isEmpty = false) :
    betweenQuotes (QSparqlBinding.toString F ⟨d, v⟩) = text := by
  rw [toString_bare_typed F d v text hv hlit hlang hdt]
  exact betweenQuotes_quoted text _ (bareText_no_dquote v text hv)

/-- C4: for the datatypes xsd:int, xsd:integer, xsd:short, xsd:long,
xsd:nonNegativeInteger and xsd:boolean, on a binding with empty language tag,
reading the text between the quotes of `setValue(x, u)`'s `toString()` back
with `setValue(_, u)` stores the same typed value. -/
theorem C4_exact_scalar_value_roundtrip (F : QtDoubleOps) (b : QSparqlBinding) (x : QString)
    (u : QUrl) (hlang : b.d.lang = [])
    (hu : u ∈ [xsd "int", xsd "integer", xsd "short", xsd "long", xsd "nonNegativeInteger",
      xsd "boolean"]) :
    (b.setValueTyped F (betweenQuotes ((b.setValueTyped F x u).toString F)) u).value
      = (b.setValueTyped F x u).value := by
  simp only [List.mem_cons, List.mem_singleton, List.mem_nil_iff, or_false] at hu
  rcases hu with rfl | rfl | rfl | rfl | rfl | rfl
  · rw [setValueTyped_int F b x,
      betweenQuotes_bare_typed F (typedPrivate b.d (xsd "int")) (.ofInt (QString.toInt x))
        (decimalText (QString.toInt x)) rfl rfl hlang rfl,
      setValueTyped_int, toInt_decimalText _ (toInt_range x)]
  · rw [setValueTyped_integer F b x,
      betweenQuotes_bare_typed F (typedPrivate b.d (xsd "integer")) (.ofInt (QString.toInt x))
        (decimalText (QString.toInt x)) rfl rfl hlang rfl,
      setValueTyped_integer, toInt_decimalText _ (toInt_range x)]
  · rw [setValueTyped_short F b x,
      betweenQuotes_bare_typed F (typedPrivate b.d (xsd "short")) (.ofInt (QString.toInt x))
        (decimalText (QString.toInt x)) rfl rfl hlang rfl,
      setValueTyped_short, toInt_decimalText _ (toInt_range x)]
  · rw [setValueTyped_long F b x,
      betweenQuotes_bare_typed F (typedPrivate b.d (xsd "long")) (.ofLongLong (QString.toLongLong x))
        (decimalText (QString.toLongLong x)) rfl rfl hlang rfl,
      setValueTyped_long, toLongLong_decimalText _ (toLongLong_range x)]
  · rw [setValueTyped_nonNegativeInteger F b x,
      betweenQuotes_bare_typed F (typedPrivate b.d (xsd "nonNegativeInteger")) (.ofUInt (QString.toUInt x))
        (decimalNat (QString.toUInt x)) rfl rfl hlang rfl,
      setValueTyped_nonNegativeInteger, toUInt_decimalNat _ (toUInt_range x)]
  · rw [setValueTyped_boolean F b x]
    generalize (QString.toLower x == "true".toList || QString.toLower x == "yes".toList
      || QString.toInt x != 0) = v
    rw [betweenQuotes_bare_typed F (typedPrivate b.d (xsd "boolean")) (.ofBool v)
        (if v then "true".toList else "false".toList) rfl rfl hlang rfl,
      setValueTyped_boolean]
    cases v <;> simp only [QSparqlBinding.value] <;> congr 1

/-- An instance of C4: a lexical with white space, a sign and leading zeroes, read as xsd:long. -/
theorem C4_exact_scalar_value_roundtrip_witness :
    ((QSparqlBinding.newTyped [] .Invalid).setValueTyped QtDoubleOps.zero
        (betweenQuotes (((QSparqlBinding.newTyped [] .Invalid).setValueTyped QtDoubleOps.zero
          " +0042 ".toList (xsd "long")).toString QtDoubleOps.zero)) (xsd "long")).value
      = ((QSparqlBinding.newTyped [] .Invalid).setValueTyped QtDoubleOps.zero
          " +0042 ".toList (xsd "long")).value :=
  C4_exact_scalar_value_roundtrip QtDoubleOps.zero _ " +0042 ".toList (xsd "long") rfl (by decide)

/-- A literal with a non-empty language tag `L` and an empty datatype URI
prints as the text of its value immediately followed by `@` and `L`; for
string, date, time, date-time and byte-array values that text is enclosed in
double quotes, so the tag follows the closing quote. -/
theorem toString_language_tag_plain (F : QtDoubleOps) (b : QSparqlBinding)
    (hlit : b.d.nodetype = .Literal) (hlang : b.d.lang ≠ [])
    (hdt : b.d.dataType.isEmpty = true) :
    b.toString F = (literalOf F b.val).1 ++ '@' :: b.d.lang
      ∧ (b.val.type ∈ [VType.String, VType.Date, VType.Time, VType.DateTime, VType.ByteArray] →
          ∃ body, (literalOf F b.val).1 = [dquote] ++ body ++ [dquote]) := by
  constructor
  · have hl : b.d.lang.isEmpty = false := by
      cases hlg : b.d.lang with
      | nil => exact absurd hlg hlang
      | cons c cs => rfl
    simp [QSparqlBinding.toString, hlit, hl, hdt]
  · intro hty
    apply literalOf_quoted
    cases hv : b.val <;> simp [hv, QVariant.type] at hty <;> rfl

/-- C5 at two literals with the language tag `es`.  After
`setValue("Una cadena", xsd:string)` and `setLanguageTag("es")` the binding
has a language tag and a datatype URI, and `toString()` prints the datatype
suffix after the tag, so that its text is not the quoted body followed by
`@es`; and an integer with the tag and no datatype URI prints the tag after a
body without quotes, although with a datatype URI the same body is put in
quotes, and with both the quotes go around the body and the tag.  The string
with the tag alone prints as the test expects. -/
theorem C5_language_tag_output :
    (((QSparqlBinding.newTyped "o".toList .String).setValueTyped QtDoubleOps.zero
        "Una cadena".toList (xsd "string")).setLanguageTag "es".toList).toString QtDoubleOps.zero
      = [dquote] ++ "Una cadena".toList ++ [dquote]
          ++ "@es^^<http://www.w3.org/2001/XMLSchema#string>".toList
    ∧ ¬ ("@es".toList <:+
        (((QSparqlBinding.newTyped "o".toList .String).setValueTyped QtDoubleOps.zero
          "Una cadena".toList (xsd "string")).setLanguageTag "es".toList).toString
            QtDoubleOps.zero)
    ∧ ((QSparqlBinding.new "o".toList (.ofInt 12)).setLanguageTag "es".toList).toString
        QtDoubleOps.zero = "12@es".toList
    ∧ ((QSparqlBinding.new "o".toList (.ofInt 12)).setDataTypeUri (xsd "integer")).toString
        QtDoubleOps.zero
      = [dquote] ++ "12".toList ++ [dquote]
          ++ "^^<http://www.w3.org/2001/XMLSchema#integer>".toList
    ∧ (((QSparqlBinding.new "o".toList (.ofInt 12)).setLanguageTag "es".toList).setDataTypeUri
        (xsd "integer")).toString QtDoubleOps.zero
      = [dquote] ++ "12@es".toList ++ [dquote]
          ++ "^^<http://www.w3.org/2001/XMLSchema#integer>".toList
    ∧ ((QSparqlBinding.new "o".toList (.ofString "Una cadena".toList)).setLanguageTag
        "es".toList).toString QtDoubleOps.zero
      = [dquote] ++ "Una cadena".toList ++ [dquote] ++ "@es".toList := by
  decide

/-- C6: a literal binding holding an integer or a boolean, with empty language
tag, prints as the bare text of the value when no datatype URI is set, and as
that text in one pair of double quotes followed by `^^<`, the URI and `>` when
a datatype URI is set. -/
theorem C6_numeric_bool_text (F : QtDoubleOps) (b : QSparqlBinding) (text : QString)
    (hlit : b.d.nodetype = .Literal) (hlang : b.d.lang = [])
    (hv : bareText b.val = some text) :
    b.toString F =
      if b.d.dataType.isEmpty then text
      else [dquote] ++ text ++ [dquote] ++ "^^<".toList
        ++ QString.fromLatin1 b.d.dataType.toEncoded ++ ['>'] := by
  cases hdt : b.d.dataType.isEmpty
  · have := toString_bare_typed F b.d b.val text hv hlit hlang hdt
    simpa using this
  · rw [toString_literal_plain F b hlit hlang hdt, literalOf_bareText F b.val text hv]
    simp

/-- An instance of C6: the unsigned value 9012 under the datatype xsd:integer. -/
theorem C6_numeric_bool_text_witness :
    (literalBinding (.ofUInt 9012) [] (xsd "integer")).toString QtDoubleOps.zero =
      if (literalBinding (.ofUInt 9012) [] (xsd "integer")).d.dataType.isEmpty then decimalNat 9012
      else [dquote] ++ decimalNat 9012 ++ [dquote] ++ "^^<".toList
        ++ QString.fromLatin1 (literalBinding (.ofUInt 9012) [] (xsd "integer")).d.dataType.toEncoded
        ++ ['>'] :=
  C6_numeric_bool_text QtDoubleOps.zero (literalBinding (.ofUInt 9012) [] (xsd "integer"))
    (decimalNat 9012) rfl rfl rfl

/-! ### Base64 -/

set_option maxRecDepth 100000 in
theorem toLatin1Char_ofNat (x : Fin 256) : toLatin1Char (Char.ofNat x.val) = x := by
  revert x
  decide

theorem toLatin1_fromLatin1 (bs : QByteArray) : QString.toLatin1 (QString.fromLatin1 bs) = bs := by
  unfold QString.toLatin1 QString.fromLatin1
  induction bs with
  | nil => rfl
  | cons x xs ih => simp only [List.map_cons, toLatin1Char_ofNat, ih]

theorem base64Value_base64Char (j : Nat) (h : j < 64) : base64Value (base64Char j) = some j := by
  interval_cases j <;> decide

theorem base64Value_pad : base64Value 61 = none := by decide

theorem fromBase64Loop_skip (buf nbits : Nat) (rest : QByteArray) :
    fromBase64Loop buf nbits (61 :: rest) = fromBase64Loop buf nbits rest := by
  rw [fromBase64Loop, base64Value_pad]

theorem fromBase64Loop_step0 (buf j : Nat) (rest : QByteArray) (h : j < 64) :
    fromBase64Loop buf 0 (base64Char j :: rest)
      = fromBase64Loop ((buf * 64 + j) % 4294967296) 6 rest := by
  rw [fromBase64Loop, base64Value_base64Char j h]
  simp

theorem fromBase64Loop_step6 (buf j : Nat) (rest : QByteArray) (h : j < 64) :
    fromBase64Loop buf 6 (base64Char j :: rest)
      = Fin.ofNat ((buf * 64 + j) % 4294967296 / 16)
        :: fromBase64Loop ((buf * 64 + j) % 4294967296 % 16) 4 rest := by
  rw [fromBase64Loop, base64Value_base64Char j h]
  simp

theorem fromBase64Loop_step4 (buf j : Nat) (rest : QByteArray) (h : j < 64) :
    fromBase64Loop buf 4 (base64Char j :: rest)
      = Fin.ofNat ((buf * 64 + j) % 4294967296 / 4)
        :: fromBase64Loop ((buf * 64 + j) % 4294967296 % 4) 2 rest := by
  rw [fromBase64Loop, base64Value_base64Char j h]
  simp

theorem fromBase64Loop_step2 (buf j : Nat) (rest : QByteArray) (h : j < 64) :
    fromBase64Loop buf 2 (base64Char j :: rest)
      = Fin.ofNat ((buf * 64 + j) % 4294967296)
        :: fromBase64Loop 0 0 rest := by
  rw [fromBase64Loop, base64Value_base64Char j h]
  simp [Nat.mod_one]

theorem fin_ofNat_eq (x : Fin 256) (n : Nat) (h : n = x.val) : (Fin.ofNat n : Fin 256) = x := by
  apply Fin.ext
  subst h
  simp [Fin.ofNat]

/-- Decoding the base64 text of a byte array gives the byte array back. -/
theorem fromBase64_toBase64 (bs : QByteArray) :
    QByteArray.fromBase64 (QByteArray.toBase64 bs) = bs := by
  unfold QByteArray.fromBase64
  induction bs using QByteArray.toBase64.induct with
  | case1 => rfl
  | case2 a =>
    have ha := a.isLt
    simp only [QByteArray.toBase64]
    rw [fromBase64Loop_step0 _ _ _ (Nat.mod_lt _ (by norm_num)),
      fromBase64Loop_step6 _ _ _ (Nat.mod_lt _ (by norm_num)),
      fromBase64Loop_skip, fromBase64Loop_skip]
    simp only [fromBase64Loop]
    rw [fin_ofNat_eq a _ (by omega)]
  | case3 a b =>
    have ha := a.isLt
    have hb := b.isLt
    simp only [QByteArray.toBase64]
    rw [fromBase64Loop_step0 _ _ _ (Nat.mod_lt _ (by norm_num)),
      fromBase64Loop_step6 _ _ _ (Nat.mod_lt _ (by norm_num)),
      fromBase64Loop_step4 _ _ _ (Nat.mod_lt _ (by norm_num)),
      fromBase64Loop_skip]
    simp only [fromBase64Loop]
    rw [fin_ofNat_eq a _ (by omega), fin_ofNat_eq b _ (by omega)]
  | case4 a b c rest ih =>
    have ha := a.isLt
    have hb := b.isLt
    have hc := c.isLt
    simp only [QByteArray.toBase64]
    rw [fromBase64Loop_step0 _ _ _ (Nat.mod_lt _ (by norm_num)),
      fromBase64Loop_step6 _ _ _ (Nat.mod_lt _ (by norm_num)),
      fromBase64Loop_step4 _ _ _ (Nat.mod_lt _ (by norm_num)),
      fromBase64Loop_step2 _ _ _ (Nat.mod_lt _ (by norm_num)), ih]
    rw [fin_ofNat_eq a _ (by omega), fin_ofNat_eq b _ (by omega), fin_ofNat_eq c _ (by omega)]

theorem encoded_xsd_base64Binary :
    QString.fromLatin1 (xsd "base64Binary").toEncoded
      = "http://www.w3.org/2001/XMLSchema#base64Binary".toList := by
  decide

/-- C8: for every byte array `bytes`, on a binding with empty language tag,
`setValue(base64(bytes), xsd:base64Binary)` stores exactly `bytes` as a
byte-array value, and `toString()` then yields the base64 text in double
quotes followed by `^^<http://www.w3.org/2001/XMLSchema#base64Binary>`. -/
theorem C8_base64_roundtrip (F : QtDoubleOps) (b : QSparqlBinding) (bytes : QByteArray)
    (hlang : b.d.lang = []) :
    (b.setValueTyped F (QString.fromLatin1 (QByteArray.toBase64 bytes))
        (xsd "base64Binary")).value = .ofByteArray bytes
      ∧ (b.setValueTyped F (QString.fromLatin1 (QByteArray.toBase64 bytes))
          (xsd "base64Binary")).toString F
        = [dquote] ++ QString.fromLatin1 (QByteArray.toBase64 bytes) ++ [dquote]
            ++ "^^<http://www.w3.org/2001/XMLSchema#base64Binary>".toList := by
  rw [setValueTyped_base64Binary, toLatin1_fromLatin1, fromBase64_toBase64]
  refine ⟨rfl, ?_⟩
  rw [toString_literal_datatype F ⟨typedPrivate b.d (xsd "base64Binary"), .ofByteArray bytes⟩
    rfl hlang rfl]
  simp only [literalOf, typedPrivate_dataType, encoded_xsd_base64Binary, if_true]
  simp

/-- An instance of C8: the bytes of the test lexical `qouh3908t38hohfr`. -/
theorem C8_base64_roundtrip_witness :
    QString.fromLatin1 (QByteArray.toBase64 (QByteArray.fromBase64 (cstr "qouh3908t38hohfr")))
        = "qouh3908t38hohfr".toList
      ∧ ((QSparqlBinding.newTyped [] .Invalid).setValueTyped QtDoubleOps.zero
          (QString.fromLatin1 (QByteArray.toBase64 (QByteArray.fromBase64 (cstr "qouh3908t38hohfr"))))
          (xsd "base64Binary")).value
        = .ofByteArray (QByteArray.fromBase64 (cstr "qouh3908t38hohfr"))
      ∧ ((QSparqlBinding.newTyped [] .Invalid).setValueTyped QtDoubleOps.zero
          (QString.fromLatin1 (QByteArray.toBase64 (QByteArray.fromBase64 (cstr "qouh3908t38hohfr"))))
          (xsd "base64Binary")).toString QtDoubleOps.zero
        = [dquote]
            ++ QString.fromLatin1 (QByteArray.toBase64 (QByteArray.fromBase64 (cstr "qouh3908t38hohfr")))
            ++ [dquote] ++ "^^<http://www.w3.org/2001/XMLSchema#base64Binary>".toList :=
  ⟨by decide,
    C8_base64_roundtrip QtDoubleOps.zero (QSparqlBinding.newTyped [] .Invalid)
      (QByteArray.fromBase64 (cstr "qouh3908t38hohfr")) rfl⟩

/-! ### Time zones -/

theorem digitChar_beq_minus (d : Nat) (h : d < 10) : (digitChar d == '-') = false :=
  beq_eq_false_iff_ne.mpr (digitChar_ne_minus d h)

theorem digitChar_beq_plus (d : Nat) (h : d < 10) : (digitChar d == '+') = false :=
  beq_eq_false_iff_ne.mpr (digitChar_ne_plus d h)

/-- A text that starts with a digit does not start with a zone. -/
theorem zoneIndexIn_digit (d : Nat) (h : d < 10) (rest : QString) :
    zoneIndexIn (digitChar d :: rest) = (zoneIndexIn rest).map (fun i => i + 1) := by
  have hm : zoneMatchesAt (digitChar d :: rest) = false := by
    unfold zoneMatchesAt
    split
    · rename_i heq
      injection heq with h0 _
      subst h0
      simp [digitChar_beq_minus d h, digitChar_beq_plus d h]
    · rfl
  simp [zoneIndexIn, hm]

/-- A text that starts with a colon or a `T` does not start with a zone. -/
theorem zoneIndexIn_other (c : Char) (hc : c = ':' ∨ c = 'T') (rest : QString) :
    zoneIndexIn (c :: rest) = (zoneIndexIn rest).map (fun i => i + 1) := by
  have hm : zoneMatchesAt (c :: rest) = false := by
    unfold zoneMatchesAt
    split
    · rename_i heq
      injection heq with h0 _
      subst h0
      rcases hc with rfl | rfl <;> simp
    · rfl
  simp [zoneIndexIn, hm]

/-- A minus sign followed by two characters and something else than a colon
does not start a zone. -/
theorem zoneIndexIn_dash (a b c : Char) (hc : c = '-' ∨ c = 'T') (rest : QString) :
    zoneIndexIn ('-' :: a :: b :: c :: rest)
      = (zoneIndexIn (a :: b :: c :: rest)).map (fun i => i + 1) := by
  have hm : zoneMatchesAt ('-' :: a :: b :: c :: rest) = false := by
    unfold zoneMatchesAt
    split
    · rename_i heq
      injection heq with _ h1
      injection h1 with _ h2
      injection h2 with _ h3
      injection h3 with h4 _
      subst h4
      rcases hc with rfl | rfl <;> simp
    · rfl
  simp [zoneIndexIn, hm]

theorem zoneIndexIn_zone (neg : Bool) (zh zm : Nat) :
    zoneIndexIn (zoneSuffix neg zh zm) = some 0 := by
  have h1 := digitChar_isDigit (zh / 10 % 10) (Nat.mod_lt _ (by norm_num))
  have h2 := digitChar_isDigit (zh % 10) (Nat.mod_lt _ (by norm_num))
  have h3 := digitChar_isDigit (zm / 10 % 10) (Nat.mod_lt _ (by norm_num))
  have h4 := digitChar_isDigit (zm % 10) (Nat.mod_lt _ (by norm_num))
  cases neg <;> simp [zoneSuffix, pad2, zoneIndexIn, zoneMatchesAt, h1, h2, h3, h4]

theorem zoneIndexIn_time (hh mm ss : Nat) (neg : Bool) (zh zm : Nat) :
    zoneIndexIn (timeLexical hh mm ss ++ zoneSuffix neg zh zm) = some 8 := by
  simp only [timeLexical, pad2, List.cons_append, List.nil_append, List.append_assoc]
  rw [zoneIndexIn_digit _ (Nat.mod_lt _ (by norm_num)), zoneIndexIn_digit _ (Nat.mod_lt _ (by norm_num)),
    zoneIndexIn_other _ (Or.inl rfl),
    zoneIndexIn_digit _ (Nat.mod_lt _ (by norm_num)), zoneIndexIn_digit _ (Nat.mod_lt _ (by norm_num)),
    zoneIndexIn_other _ (Or.inl rfl),
    zoneIndexIn_digit _ (Nat.mod_lt _ (by norm_num)), zoneIndexIn_digit _ (Nat.mod_lt _ (by norm_num)),
    zoneIndexIn_zone]
  rfl

theorem zoneIndexIn_dateTime (y m d hh mm ss : Nat) (neg : Bool) (zh zm : Nat) :
    zoneIndexIn (dateTimeLexical y m d hh mm ss ++ zoneSuffix neg zh zm) = some 19 := by
  have ht := zoneIndexIn_time hh mm ss neg zh zm
  simp only [dateTimeLexical, dateLexical, pad4, timeLexical, pad2, List.cons_append,
    List.nil_append, List.append_assoc] at ht ⊢
  rw [zoneIndexIn_digit _ (Nat.mod_lt _ (by norm_num)), zoneIndexIn_digit _ (Nat.mod_lt _ (by norm_num)),
    zoneIndexIn_digit _ (Nat.mod_lt _ (by norm_num)), zoneIndexIn_digit _ (Nat.mod_lt _ (by norm_num)),
    zoneIndexIn_dash _ _ _ (Or.inl rfl),
    zoneIndexIn_digit _ (Nat.mod_lt _ (by norm_num)), zoneIndexIn_digit _ (Nat.mod_lt _ (by norm_num)),
    zoneIndexIn_dash _ _ _ (Or.inr rfl),
    zoneIndexIn_digit _ (Nat.mod_lt _ (by norm_num)), zoneIndexIn_digit _ (Nat.mod_lt _ (by norm_num)),
    zoneIndexIn_other _ (Or.inr rfl), ht]
  rfl

theorem twoDigits_digitChar (a b : Nat) (ha : a < 10) (hb : b < 10) :
    twoDigits (digitChar a) (digitChar b) = ((a * 10 + b : Nat) : Int) := by
  unfold twoDigits
  rw [digitChar_value a ha, digitChar_value b hb]

theorem pad2_value (n : Nat) (h : n < 100) : n / 10 % 10 * 10 + n % 10 = n := by omega

theorem fromStringHHmm_pad (zh zm : Nat) (hh : zh < 100) (hm : zm < 100) :
    QTime.fromStringHHmm (pad2 zh ++ [':'] ++ pad2 zm) = QTime.ofHMS zh zm 0 0 := by
  have h1 := digitChar_isDigit (zh / 10 % 10) (Nat.mod_lt _ (by norm_num))
  have h2 := digitChar_isDigit (zh % 10) (Nat.mod_lt _ (by norm_num))
  have h3 := digitChar_isDigit (zm / 10 % 10) (Nat.mod_lt _ (by norm_num))
  have h4 := digitChar_isDigit (zm % 10) (Nat.mod_lt _ (by norm_num))
  simp only [pad2, List.cons_append, List.nil_append, QTime.fromStringHHmm, h1, h2, h3, h4,
    and_self, if_true]
  rw [twoDigits_digitChar _ _ (Nat.mod_lt _ (by norm_num)) (Nat.mod_lt _ (by norm_num)),
    twoDigits_digitChar _ _ (Nat.mod_lt _ (by norm_num)) (Nat.mod_lt _ (by norm_num)),
    pad2_value zh hh, pad2_value zm hm]

theorem ofHMS_valid (h m s : Nat) (hh : h < 24) (hm : m < 60) (hs : s < 60) :
    QTime.ofHMS h m s 0 = ⟨(((h : Int) * 3600 + (m : Int) * 60 + (s : Int)) * 1000)⟩ := by
  have hv : QTime.isValidHMS h m s 0 = true := by
    simp [QTime.isValidHMS]
    omega
  simp [QTime.ofHMS, hv]

theorem ofHMS_hour_minute (zh zm : Nat) (hh : zh ≤ 23) (hm : zm ≤ 59) :
    (QTime.ofHMS zh zm 0 0).hour = zh ∧ (QTime.ofHMS zh zm 0 0).minute = zm := by
  have hv := ofHMS_valid zh zm 0 (by omega) (by omega) (by norm_num)
  simp only [Nat.cast_zero, add_zero] at hv
  rw [hv]
  have hne : ¬ ((((zh : Int) * 3600 + (zm : Int) * 60) * 1000) = -1) := by omega
  simp only [QTime.hour, QTime.minute, QTime.ds, hne, if_false]
  constructor
  · rw [Int.tdiv_eq_ediv (by omega) (by norm_num)]
    omega
  · rw [Int.tmod_eq_emod (by omega) (by norm_num), Int.tdiv_eq_ediv (by omega) (by norm_num)]
    omega

/-- The zone of `hh:mm:ss` followed by `sHH:MM`: the signed seconds of the
zone are returned and the six characters of the zone are removed. -/
theorem extractTimezone_time (hh mm ss : Nat) (neg : Bool) (zh zm : Nat)
    (hzh : zh ≤ 23) (hzm : zm ≤ 59) :
    extractTimezone (timeLexical hh mm ss ++ zoneSuffix neg zh zm)
      = (zoneSeconds neg zh zm, timeLexical hh mm ss) := by
  unfold extractTimezone
  rw [zoneIndexIn_time]
  have hcap2 : QString.mid (timeLexical hh mm ss ++ zoneSuffix neg zh zm) (8 + 1) 5
      = pad2 zh ++ [':'] ++ pad2 zm := by
    simp [QString.mid, timeLexical, zoneSuffix, pad2]
  have hcap1 : QString.mid (timeLexical hh mm ss ++ zoneSuffix neg zh zm) 8 1
      = [if neg then '-' else '+'] := by
    simp [QString.mid, timeLexical, zoneSuffix, pad2]
  have hrem : QString.remove (timeLexical hh mm ss ++ zoneSuffix neg zh zm) 8 6
      = timeLexical hh mm ss := by
    simp [QString.remove, timeLexical, zoneSuffix, pad2]
  obtain ⟨hhour, hmin⟩ := ofHMS_hour_minute zh zm hzh hzm
  simp only [hcap1, hcap2, hrem, fromStringHHmm_pad zh zm (by omega) (by omega), hhour, hmin]
  cases neg <;> simp [zoneSeconds]

/-- The zone of `YYYY-MM-DDThh:mm:ss` followed by `sHH:MM`. -/
theorem extractTimezone_dateTime (y m d hh mm ss : Nat) (neg : Bool) (zh zm : Nat)
    (hzh : zh ≤ 23) (hzm : zm ≤ 59) :
    extractTimezone (dateTimeLexical y m d hh mm ss ++ zoneSuffix neg zh zm)
      = (zoneSeconds neg zh zm, dateTimeLexical y m d hh mm ss) := by
  unfold extractTimezone
  rw [zoneIndexIn_dateTime]
  have hcap2 : QString.mid (dateTimeLexical y m d hh mm ss ++ zoneSuffix neg zh zm) (19 + 1) 5
      = pad2 zh ++ [':'] ++ pad2 zm := by
    simp [QString.mid, dateTimeLexical, dateLexical, pad4, timeLexical, zoneSuffix, pad2]
  have hcap1 : QString.mid (dateTimeLexical y m d hh mm ss ++ zoneSuffix neg zh zm) 19 1
      = [if neg then '-' else '+'] := by
    simp [QString.mid, dateTimeLexical, dateLexical, pad4, timeLexical, zoneSuffix, pad2]
  have hrem : QString.remove (dateTimeLexical y m d hh mm ss ++ zoneSuffix neg zh zm) 19 6
      = dateTimeLexical y m d hh mm ss := by
    simp [QString.remove, dateTimeLexical, dateLexical, pad4, timeLexical, zoneSuffix, pad2]
  obtain ⟨hhour, hmin⟩ := ofHMS_hour_minute zh zm hzh hzm
  simp only [hcap1, hcap2, hrem, fromStringHHmm_pad zh zm (by omega) (by omega), hhour, hmin]
  cases neg <;> simp [zoneSeconds]

theorem toIntOk_pad2 (n : Nat) (h : n < 100) : QString.toIntOk (pad2 n) = some (n : Int) := by
  have ha : n / 10 % 10 < 10 := Nat.mod_lt _ (by norm_num)
  have hb : n % 10 < 10 := Nat.mod_lt _ (by norm_num)
  have hp := parseDigits_map [n / 10 % 10, n % 10] 0 (by
    intro d hd
    simp only [List.mem_cons, List.mem_singleton, List.mem_nil_iff, or_false] at hd
    rcases hd with rfl | rfl <;> assumption)
  simp only [List.map_cons, List.map_nil, List.foldl_cons, List.foldl_nil, Nat.zero_mul,
    Nat.zero_add] at hp
  rw [pad2_value n h] at hp
  have hs : parseSigned (pad2 n) = some (n : Int) := by
    simp [parseSigned, pad2, List.dropWhile, digitChar_not_space _ ha, digitChar_ne_minus _ ha,
      digitChar_ne_plus _ ha, parseUnsignedBody, digitChar_isDigit _ ha, hp]
  have h1 : -9223372036854775808 ≤ (n : Int) ∧ (n : Int) ≤ 9223372036854775807 := by omega
  have h2 : ¬ ((n : Int) < -2147483648 ∨ (n : Int) > 2147483647) := by omega
  simp [QString.toIntOk, QString.toLongLongOk, hs, h1, h2]
  omega

/-- Reading `hh:mm:ss`. -/
theorem fromString_timeLexical (F : QtDoubleOps) (hh mm ss : Nat)
    (h1 : hh < 100) (h2 : mm < 100) (h3 : ss < 100) :
    QTime.fromString F (timeLexical hh mm ss) = QTime.ofHMS hh mm ss 0 := by
  have e1 : QString.mid (timeLexical hh mm ss) 0 2 = pad2 hh := by
    simp [QString.mid, timeLexical, pad2]
  have e2 : QString.mid (timeLexical hh mm ss) 3 2 = pad2 mm := by
    simp [QString.mid, timeLexical, pad2]
  have e3 : QString.mid (timeLexical hh mm ss) 6 2 = pad2 ss := by
    simp [QString.mid, timeLexical, pad2]
  have e4 : QString.mid (timeLexical hh mm ss) 9 4 = [] := by
    simp [QString.mid, timeLexical, pad2]
  have e5 : (timeLexical hh mm ss).isEmpty = false := by
    simp [timeLexical, pad2]
  unfold QTime.fromString
  simp only [e1, e2, e3, e4, e5, toIntOk_pad2 hh h1, toIntOk_pad2 mm h2, toIntOk_pad2 ss h3]
  simp

/-- Adding seconds to a valid time wraps modulo 24 hours. -/
theorem addSecs_wraps (h m s : Nat) (hh : h < 24) (hm : m < 60) (hs : s < 60) (adj : Int)
    (hadj : -86400 < adj ∧ adj < 86400) :
    (QTime.ofHMS h m s 0).addSecs adj
      = ⟨(((h : Int) * 3600 + (m : Int) * 60 + (s : Int) + adj) % 86400) * 1000⟩ := by
  rw [ofHMS_valid h m s hh hm hs]
  have hne : ¬ ((((h : Int) * 3600 + (m : Int) * 60 + (s : Int)) * 1000) = -1) := by omega
  unfold QTime.addSecs QTime.addMSecs
  simp only [QTime.ds, hne, if_false]
  by_cases hneg : adj * 1000 < 0
  · rw [if_pos hneg]
    congr 1
    rw [Int.tdiv_eq_ediv (by omega) (by norm_num), Int.tmod_eq_emod (by omega) (by norm_num)]
    omega
  · rw [if_neg hneg]
    congr 1
    rw [Int.tmod_eq_emod (by omega) (by norm_num)]
    omega

theorem zoneSeconds_bound (neg : Bool) (zh zm : Nat) (hzh : zh ≤ 23) (hzm : zm ≤ 59) :
    -86400 < zoneSeconds neg zh zm ∧ zoneSeconds neg zh zm < 86400 := by
  unfold zoneSeconds
  cases neg <;> simp <;> omega

theorem digitChar_ne_Z (d : Nat) (h : d < 10) : digitChar d ≠ 'Z' := by
  interval_cases d <;> decide

/-- Reading `YYYY-MM-DDThh:mm:ss`: the date is read from the first ten
characters and the time from the last eight. -/
theorem fromString_dateTimeLexical (F : QtDoubleOps) (y m d hh mm ss : Nat)
    (h1 : hh < 100) (h2 : mm < 100) (h3 : ss < 100) :
    QDateTime.fromString F (dateTimeLexical y m d hh mm ss)
      = ⟨QDate.fromString (dateLexical y m d), QTime.ofHMS hh mm ss 0⟩ := by
  have e1 : QString.left (dateTimeLexical y m d hh mm ss) 10 = dateLexical y m d := by
    simp [QString.left, dateTimeLexical, dateLexical, pad4, pad2, timeLexical]
  have e2 : (dateTimeLexical y m d hh mm ss).length = 19 := by
    simp [dateTimeLexical, dateLexical, pad4, pad2, timeLexical]
  have e3 : (dateTimeLexical y m d hh mm ss).getLast? = some (digitChar (ss % 10)) := by
    simp [dateTimeLexical, dateLexical, pad4, pad2, timeLexical]
  have e4 : (dateTimeLexical y m d hh mm ss).drop 11 = timeLexical hh mm ss := by
    simp [dateTimeLexical, dateLexical, pad4, pad2, timeLexical]
  have e5 : digitChar (ss % 10) ≠ 'Z' := digitChar_ne_Z _ (Nat.mod_lt _ (by norm_num))
  unfold QDateTime.fromString
  simp only [e1, e2, e3, e4, Option.some.injEq, e5, if_false, fromString_timeLexical F hh mm ss h1 h2 h3]
  simp

/-- Adding less than a day of seconds to a date-time: the time of day wraps
modulo 24 hours and the Julian day moves by the quotient (as an unsigned
32-bit number). -/
theorem dateTime_addSecs_carry (jd h m s : Nat) (hh : h < 24) (hm : m < 60) (hs : s < 60)
    (adj : Int) (hadj : -86400 < adj ∧ adj < 86400) :
    QDateTime.addSecs ⟨⟨jd⟩, QTime.ofHMS h m s 0⟩ adj
      = ⟨⟨((((jd : Int) + ((h : Int) * 3600 + (m : Int) * 60 + (s : Int) + adj) / 86400)
            % 4294967296)).toNat⟩,
         ⟨(((h : Int) * 3600 + (m : Int) * 60 + (s : Int) + adj) % 86400) * 1000⟩⟩ := by
  rw [ofHMS_valid h m s hh hm hs]
  have hT : 0 ≤ (h : Int) * 3600 + (m : Int) * 60 + (s : Int) ∧
      (h : Int) * 3600 + (m : Int) * 60 + (s : Int) < 86400 := by omega
  generalize (h : Int) * 3600 + (m : Int) * 60 + (s : Int) = T at hT ⊢
  have hne : ¬ (T * 1000 = -1) := by omega
  unfold QDateTime.addSecs QDateTime.addMSecs
  simp only [QTime.ds, hne, if_false]
  by_cases hneg : adj * 1000 < 0
  · have hbig : ¬ (-(adj * 1000) ≥ 86400000) := by omega
    simp only [hneg, if_true, hbig, if_false]
    by_cases hlt : T * 1000 + -1 * -(adj * 1000) < 0
    · simp only [hlt, if_true]
      have hq : (T + adj) / 86400 = -1 := by omega
      have hr : (T + adj) % 86400 = T + adj + 86400 := by omega
      rw [hq, hr, Int.tdiv_eq_ediv (by omega) (by norm_num),
        Int.tmod_eq_emod (by omega) (by norm_num)]
      have e1 : (86400000 - (T * 1000 + -1 * -(adj * 1000)) - 1) / 86400000 = 1 := by omega
      have e2 : (86400000 - (T * 1000 + -1 * -(adj * 1000)) - 1) % 86400000
          = -(T * 1000 + adj * 1000) - 1 := by omega
      rw [e1, e2]
      congr 2
      omega
    · have hge : ¬ (T * 1000 + -1 * -(adj * 1000) ≥ 86400000) := by omega
      simp only [hlt, if_false, hge]
      have hq : (T + adj) / 86400 = 0 := by omega
      have hr : (T + adj) % 86400 = T + adj := by omega
      rw [hq, hr]
      congr 2
      omega
  · have hbig : ¬ (adj * 1000 ≥ 86400000) := by omega
    have hlt : ¬ (T * 1000 + 1 * (adj * 1000) < 0) := by omega
    simp only [hneg, if_false, hbig, hlt]
    by_cases hge : T * 1000 + 1 * (adj * 1000) ≥ 86400000
    · simp only [hge, if_true]
      have hq : (T + adj) / 86400 = 1 := by omega
      have hr : (T + adj) % 86400 = T + adj - 86400 := by omega
      rw [hq, hr, Int.tdiv_eq_ediv (by omega) (by norm_num),
        Int.tmod_eq_emod (by omega) (by norm_num)]
      have e1 : (T * 1000 + 1 * (adj * 1000)) / 86400000 = 1 := by omega
      have e2 : (T * 1000 + 1 * (adj * 1000)) % 86400000 = T * 1000 + adj * 1000 - 86400000 := by
        omega
      rw [e1, e2]
      congr 2
      omega
    · simp only [hge, if_false]
      have hq : (T + adj) / 86400 = 0 := by omega
      have hr : (T + adj) % 86400 = T + adj := by omega
      rw [hq, hr]
      congr 2
      omega

/-- The zone `+02:00` after `2010-11-30T23:30:59` takes the stored date-time
past midnight, to 1 December 2010, 01:30:59; the zone `-02:00` after
`2010-12-01T01:30:59` takes it back to 30 November, 23:30:59. -/
theorem zone_offset_carry_example :
    ((QSparqlBinding.newTyped [] .Invalid).setValueTyped QtDoubleOps.zero
        "2010-11-30T23:30:59+02:00".toList (xsd "dateTime")).value
      = .ofDateTime ⟨QDate.ofYMD 2010 12 1, QTime.ofHMS 1 30 59 0⟩ ∧
    ((QSparqlBinding.newTyped [] .Invalid).setValueTyped QtDoubleOps.zero
        "2010-12-01T01:30:59-02:00".toList (xsd "dateTime")).value
      = .ofDateTime ⟨QDate.ofYMD 2010 11 30, QTime.ofHMS 23 30 59 0⟩ := by
  rw [setValueTyped_dateTime, setValueTyped_dateTime]
  decide

/-- C10: for a valid time `hh:mm:ss` and a zone suffix `sHH:MM` with
`HH <= 23` and `MM <= 59`, `setValue` with xsd:time stores the time read from
`hh:mm:ss` plus the signed seconds `s * (HH * 3600 + MM * 60)`, which is the
time of day `(hh * 3600 + mm * 60 + ss + seconds) mod 86400`; with
xsd:dateTime it stores the date-time read from `YYYY-MM-DDThh:mm:ss` (the date
of `YYYY-MM-DD` and the time of day `hh:mm:ss`) plus the same signed seconds:
the time of day is `(hh * 3600 + mm * 60 + ss + seconds) mod 86400` and the
Julian day of the date moves by the quotient of that sum by 86400, one day
back or forth when the sum leaves the day. -/
theorem C10_zone_offset_applied (F : QtDoubleOps) (b : QSparqlBinding)
    (hh mm ss zh zm y m d : Nat) (neg : Bool)
    (ht : hh < 24 ∧ mm < 60 ∧ ss < 60) (hz : zh ≤ 23 ∧ zm ≤ 59) :
    (b.setValueTyped F (timeLexical hh mm ss ++ zoneSuffix neg zh zm) (xsd "time")).value
        = .ofTime ((QTime.fromString F (timeLexical hh mm ss)).addSecs (zoneSeconds neg zh zm))
      ∧ (QTime.fromString F (timeLexical hh mm ss)).addSecs (zoneSeconds neg zh zm)
        = ⟨(((hh : Int) * 3600 + (mm : Int) * 60 + (ss : Int) + zoneSeconds neg zh zm) % 86400)
            * 1000⟩
      ∧ (b.setValueTyped F (dateTimeLexical y m d hh mm ss ++ zoneSuffix neg zh zm)
          (xsd "dateTime")).value
        = .ofDateTime ((QDateTime.fromString F (dateTimeLexical y m d hh mm ss)).addSecs
            (zoneSeconds neg zh zm))
      ∧ QDateTime.fromString F (dateTimeLexical y m d hh mm ss)
        = ⟨QDate.fromString (dateLexical y m d),
           ⟨((hh : Int) * 3600 + (mm : Int) * 60 + (ss : Int)) * 1000⟩⟩
      ∧ (QDateTime.fromString F (dateTimeLexical y m d hh mm ss)).addSecs (zoneSeconds neg zh zm)
        = ⟨⟨((((QDate.fromString (dateLexical y m d)).jd : Int)
              + ((hh : Int) * 3600 + (mm : Int) * 60 + (ss : Int) + zoneSeconds neg zh zm)
                / 86400) % 4294967296).toNat⟩,
           ⟨(((hh : Int) * 3600 + (mm : Int) * 60 + (ss : Int) + zoneSeconds neg zh zm) % 86400)
            * 1000⟩⟩ := by
  obtain ⟨h1, h2, h3⟩ := ht
  obtain ⟨hzh, hzm⟩ := hz
  have hdt := fromString_dateTimeLexical F y m d hh mm ss (by omega) (by omega) (by omega)
  refine ⟨?_, ?_, ?_, ?_, ?_⟩
  · rw [setValueTyped_time, extractTimezone_time hh mm ss neg zh zm hzh hzm]
    rfl
  · rw [fromString_timeLexical F hh mm ss (by omega) (by omega) (by omega)]
    exact addSecs_wraps hh mm ss h1 h2 h3 _ (zoneSeconds_bound neg zh zm hzh hzm)
  · rw [setValueTyped_dateTime, extractTimezone_dateTime y m d hh mm ss neg zh zm hzh hzm]
    rfl
  · rw [hdt, ofHMS_valid hh mm ss h1 h2 h3]
  · rw [hdt]
    exact dateTime_addSecs_carry _ hh mm ss h1 h2 h3 _ (zoneSeconds_bound neg zh zm hzh hzm)

/-- An instance of C10: the time 23:30:59 and the date 2010-11-30 with the
zone +02:00, which takes the time of day past midnight. -/
theorem C10_zone_offset_applied_witness :
    ((23 : Nat) < 24 ∧ (30 : Nat) < 60 ∧ (59 : Nat) < 60) ∧ ((2 : Nat) ≤ 23 ∧ (0 : Nat) ≤ 59) ∧
    (((QSparqlBinding.newTyped [] .Invalid).setValueTyped QtDoubleOps.zero
          (timeLexical 23 30 59 ++ zoneSuffix false 2 0) (xsd "time")).value
        = .ofTime ((QTime.fromString QtDoubleOps.zero (timeLexical 23 30 59)).addSecs
            (zoneSeconds false 2 0))
      ∧ (QTime.fromString QtDoubleOps.zero (timeLexical 23 30 59)).addSecs (zoneSeconds false 2 0)
        = ⟨((((23 : Nat) : Int) * 3600 + ((30 : Nat) : Int) * 60 + ((59 : Nat) : Int)
            + zoneSeconds false 2 0) % 86400) * 1000⟩
      ∧ ((QSparqlBinding.newTyped [] .Invalid).setValueTyped QtDoubleOps.zero
          (dateTimeLexical 2010 11 30 23 30 59 ++ zoneSuffix false 2 0) (xsd "dateTime")).value
        = .ofDateTime ((QDateTime.fromString QtDoubleOps.zero
            (dateTimeLexical 2010 11 30 23 30 59)).addSecs (zoneSeconds false 2 0))
      ∧ QDateTime.fromString QtDoubleOps.zero (dateTimeLexical 2010 11 30 23 30 59)
        = ⟨QDate.fromString (dateLexical 2010 11 30),
           ⟨(((23 : Nat) : Int) * 3600 + ((30 : Nat) : Int) * 60 + ((59 : Nat) : Int)) * 1000⟩⟩
      ∧ (QDateTime.fromString QtDoubleOps.zero (dateTimeLexical 2010 11 30 23 30 59)).addSecs
          (zoneSeconds false 2 0)
        = ⟨⟨((((QDate.fromString (dateLexical 2010 11 30)).jd : Int)
              + ((((23 : Nat) : Int) * 3600 + ((30 : Nat) : Int) * 60 + ((59 : Nat) : Int)
                  + zoneSeconds false 2 0) / 86400)) % 4294967296).toNat⟩,
           ⟨((((23 : Nat) : Int) * 3600 + ((30 : Nat) : Int) * 60 + ((59 : Nat) : Int)
              + zoneSeconds false 2 0) % 86400) * 1000⟩⟩) :=
  ⟨by decide, by decide,
    C10_zone_offset_applied QtDoubleOps.zero (QSparqlBinding.newTyped [] .Invalid)
      23 30 59 2 0 2010 11 30 false (by decide) (by decide)⟩

/-! ### Dates -/

/-- C7 at the date 1 January 999: the date is valid, and the binding
constructed with it prints as `"999-01-01"`, eleven characters with a
three-digit year; the date 30 November 2010 prints as `"2010-11-30"`. -/
theorem C7_date_year_not_padded :
    QDate.isValidYMD 999 1 1 = true
      ∧ (QSparqlBinding.new "o".toList (.ofDate (QDate.ofYMD 999 1 1))).toString QtDoubleOps.zero
        = [dquote] ++ "999-01-01".toList ++ [dquote]
      ∧ ((QSparqlBinding.new "o".toList (.ofDate (QDate.ofYMD 999 1 1))).toString
          QtDoubleOps.zero).length = 11
      ∧ (QSparqlBinding.new "o".toList (.ofDate (QDate.ofYMD 2010 11 30))).toString
          QtDoubleOps.zero
        = [dquote] ++ "2010-11-30".toList ++ [dquote] := by
  decide

/-- C9 at the lexical `0999-01-01`: no zone is found and the text is left
unchanged, the date read is the valid date 1 January 999, and `setValue`
with xsd:date followed by `toString()` yields `"999-01-01"^^<...#date>`, which
is not the lexical in quotes; the three lexicals of the test are reproduced. -/
theorem C9_date_lexical_not_reproduced :
    extractTimezone "0999-01-01".toList = (0, "0999-01-01".toList)
      ∧ QDate.fromString "0999-01-01".toList = QDate.ofYMD 999 1 1
      ∧ ((QSparqlBinding.newTyped [] .Invalid).setValueTyped QtDoubleOps.zero "0999-01-01".toList
          (xsd "date")).toString QtDoubleOps.zero
        = [dquote] ++ "999-01-01".toList ++ [dquote]
            ++ "^^<http://www.w3.org/2001/XMLSchema#date>".toList
      ∧ ((QSparqlBinding.newTyped [] .Invalid).setValueTyped QtDoubleOps.zero "0999-01-01".toList
          (xsd "date")).toString QtDoubleOps.zero
        ≠ [dquote] ++ "0999-01-01".toList ++ [dquote]
            ++ "^^<http://www.w3.org/2001/XMLSchema#date>".toList
      ∧ ((QSparqlBinding.newTyped [] .Invalid).setValueTyped QtDoubleOps.zero "2010-11-30".toList
          (xsd "date")).toString QtDoubleOps.zero
        = [dquote] ++ "2010-11-30".toList ++ [dquote]
            ++ "^^<http://www.w3.org/2001/XMLSchema#date>".toList
      ∧ ((QSparqlBinding.newTyped [] .Invalid).setValueTyped QtDoubleOps.zero "12:30:59".toList
          (xsd "time")).toString QtDoubleOps.zero
        = [dquote] ++ "12:30:59".toList ++ [dquote]
            ++ "^^<http://www.w3.org/2001/XMLSchema#time>".toList
      ∧ ((QSparqlBinding.newTyped [] .Invalid).setValueTyped QtDoubleOps.zero
          "2010-11-30T12:30:59".toList (xsd "dateTime")).toString QtDoubleOps.zero
        = [dquote] ++ "2010-11-30T12:30:59".toList ++ [dquote]
            ++ "^^<http://www.w3.org/2001/XMLSchema#dateTime>".toList := by
  decide

/-! ### The zone of the specification's example -/

/-- C11 as amended: the value stored by `setValue("12:30:59+02:00", xsd:time)`
is the value stored by `setValue("12:30:59", xsd:time)` offset by the
extracted zone of 7200 seconds, that is the time 14:30:59. -/
theorem C11_zone_example_adds_offset (F : QtDoubleOps) (b : QSparqlBinding) :
    (b.setValueTyped F "12:30:59".toList (xsd "time")).value = .ofTime (QTime.ofHMS 12 30 59 0)
      ∧ (extractTimezone "12:30:59+02:00".toList).1 = 7200
      ∧ (b.setValueTyped F "12:30:59+02:00".toList (xsd "time")).value
          = .ofTime ((QTime.ofHMS 12 30 59 0).addSecs 7200)
      ∧ (QTime.ofHMS 12 30 59 0).addSecs 7200 = QTime.ofHMS 14 30 59 0 := by
  have hlex : "12:30:59".toList = timeLexical 12 30 59 := by decide
  have hz : extractTimezone "12:30:59+02:00".toList = (7200, "12:30:59".toList) := by decide
  have h0 : extractTimezone "12:30:59".toList = (0, "12:30:59".toList) := by decide
  have hp : QTime.fromString F "12:30:59".toList = QTime.ofHMS 12 30 59 0 := by
    rw [hlex]
    exact fromString_timeLexical F 12 30 59 (by norm_num) (by norm_num) (by norm_num)
  refine ⟨?_, ?_, ?_, by decide⟩
  · rw [setValueTyped_time, h0]
    simp only [QSparqlBinding.value, hp]
    decide
  · rw [hz]
  · rw [setValueTyped_time, hz]
    simp only [QSparqlBinding.value, hp]

/-- C11 as stated fails: `setValue("12:30:59+02:00", xsd:time)` stores the time
14:30:59, which is neither the time 12:30:59 nor the value stored for
`10:30:59` offset by 7200 seconds (12:30:59). -/
theorem C11_zone_example_counterexample :
    ((QSparqlBinding.newTyped [] .Invalid).setValueTyped QtDoubleOps.zero
        "12:30:59+02:00".toList (xsd "time")).value = .ofTime (QTime.ofHMS 14 30 59 0)
      ∧ ((QSparqlBinding.newTyped [] .Invalid).setValueTyped QtDoubleOps.zero
          "10:30:59".toList (xsd "time")).value = .ofTime (QTime.ofHMS 10 30 59 0)
      ∧ (QTime.ofHMS 10 30 59 0).addSecs 7200 = QTime.ofHMS 12 30 59 0
      ∧ ((QSparqlBinding.newTyped [] .Invalid).setValueTyped QtDoubleOps.zero
          "12:30:59+02:00".toList (xsd "time")).value ≠ .ofTime (QTime.ofHMS 12 30 59 0) := by
  decide

/-! ### Datatype URIs that are not recognised -/

theorem toLatin1Char_inj (a c : Char) (hc : c.toNat < 256) (hq : c.toNat ≠ 63)
    (h : toLatin1Char a = toLatin1Char c) : a = c := by
  unfold toLatin1Char at h
  rw [if_pos hc] at h
  by_cases ha : a.toNat < 256
  · rw [if_pos ha] at h
    have hv := congrArg Fin.val h
    simp only [Fin.ofNat, Nat.mod_eq_of_lt (show a.toNat < 255 + 1 from ha),
      Nat.mod_eq_of_lt (show c.toNat < 255 + 1 from hc)] at hv
    rw [← Char.ofNat_toNat a, ← Char.ofNat_toNat c, hv]
  · rw [if_neg ha] at h
    have hv := congrArg Fin.val h
    simp only [Fin.ofNat, Nat.mod_eq_of_lt (show c.toNat < 255 + 1 from hc)] at hv
    exact absurd hv.symm hq

/-- A text whose Latin-1 bytes are those of a text without question marks
and without characters above 255 is that text. -/
theorem toLatin1_inj (t k : QString) (hk : ∀ c ∈ k, c.toNat < 256 ∧ c.toNat ≠ 63)
    (h : QString.toLatin1 t = QString.toLatin1 k) : t = k := by
  unfold QString.toLatin1 at h
  induction t generalizing k with
  | nil =>
    cases k with
    | nil => rfl
    | cons c cs => simp at h
  | cons a as ih =>
    cases k with
    | nil => simp at h
    | cons c cs =>
      simp only [List.map_cons, List.cons.injEq] at h
      have hc := hk c (by simp)
      rw [toLatin1Char_inj a c hc.1 hc.2 h.1, ih cs (fun x hx => hk x (by simp [hx])) h.2]

/-- A URI that is not `xsd name` fails the comparison with the constant of
that name. -/
theorem not_recognised (u : QUrl) (name : String) (hne : u ≠ xsd name)
    (hk : ∀ c ∈ (xsd name).text, c.toNat < 256 ∧ c.toNat ≠ 63) :
    ¬ (QString.toLatin1 u.toString = QString.toLatin1 (xsd name).text) := by
  intro h
  apply hne
  have ht := toLatin1_inj u.text (xsd name).text hk h
  cases u
  exact congrArg QUrl.mk ht

/-- The fall-through of `setValue(lexical, uri)` when none of the fourteen
comparisons succeeds. -/
theorem setValueTyped_fallthrough (F : QtDoubleOps) (b : QSparqlBinding) (x : QString) (u : QUrl)
    (hu : ∀ name ∈ recognisedNames, u ≠ xsd name) :
    b.setValueTyped F x u = { d := typedPrivate b.d u, val := .ofString x } := by
  have hk : ∀ name ∈ recognisedNames,
      ∀ c ∈ (xsd name).text, c.toNat < 256 ∧ c.toNat ≠ 63 := by decide
  have hn : ∀ name ∈ recognisedNames,
      ¬ (QString.toLatin1 u.toString = QString.toLatin1 (xsd name).text) :=
    fun name hmem => not_recognised u name (hu name hmem) (hk name hmem)
  unfold QSparqlBinding.setValueTyped
  dsimp only
  rw [if_neg (show ¬ (QString.toLatin1 u.toString = cstr "http://www.w3.org/2001/XMLSchema#int")
    from hn "int" (by decide))]
  rw [if_neg (show ¬ (QString.toLatin1 u.toString = cstr "http://www.w3.org/2001/XMLSchema#integer")
    from hn "integer" (by decide))]
  rw [if_neg (show ¬ (QString.toLatin1 u.toString = cstr "http://www.w3.org/2001/XMLSchema#nonNegativeInteger")
    from hn "nonNegativeInteger" (by decide))]
  rw [if_neg (show ¬ (QString.toLatin1 u.toString = cstr "http://www.w3.org/2001/XMLSchema#decimal")
    from hn "decimal" (by decide))]
  rw [if_neg (show ¬ (QString.toLatin1 u.toString = cstr "http://www.w3.org/2001/XMLSchema#short")
    from hn "short" (by decide))]
  rw [if_neg (show ¬ (QString.toLatin1 u.toString = cstr "http://www.w3.org/2001/XMLSchema#long")
    from hn "long" (by decide))]
  rw [if_neg (show ¬ (QString.toLatin1 u.toString = cstr "http://www.w3.org/2001/XMLSchema#boolean")
    from hn "boolean" (by decide))]
  rw [if_neg (show ¬ (QString.toLatin1 u.toString = cstr "http://www.w3.org/2001/XMLSchema#double")
    from hn "double" (by decide))]
  rw [if_neg (show ¬ (QString.toLatin1 u.toString = cstr "http://www.w3.org/2001/XMLSchema#float")
    from hn "float" (by decide))]
  rw [if_neg (show ¬ (QString.toLatin1 u.toString = cstr "http://www.w3.org/2001/XMLSchema#string")
    from hn "string" (by decide))]
  rw [if_neg (show ¬ (QString.toLatin1 u.toString = cstr "http://www.w3.org/2001/XMLSchema#date")
    from hn "date" (by decide))]
  rw [if_neg (show ¬ (QString.toLatin1 u.toString = cstr "http://www.w3.org/2001/XMLSchema#time")
    from hn "time" (by decide))]
  rw [if_neg (show ¬ (QString.toLatin1 u.toString = cstr "http://www.w3.org/2001/XMLSchema#dateTime")
    from hn "dateTime" (by decide))]
  rw [if_neg (show ¬ (QString.toLatin1 u.toString = cstr "http://www.w3.org/2001/XMLSchema#base64Binary")
    from hn "base64Binary" (by decide))]
  exact setValue_literal _ _ (by intro h; cases h)

/-- C12: for a datatype URI `u` that is none of the fourteen recognised
XML-Schema URIs, `setValue(x, u)` stores the string `x` unchanged (the value
stored for xsd:string), the binding is a literal and `u` is its datatype
URI. -/
theorem C12_unrecognised_uri_stores_string (F : QtDoubleOps) (b : QSparqlBinding) (x : QString)
    (u : QUrl) (hu : ∀ name ∈ recognisedNames, u ≠ xsd name) :
    (b.setValueTyped F x u).value = .ofString x
      ∧ (b.setValueTyped F x u).value = (b.setValueTyped F x (xsd "string")).value
      ∧ (b.setValueTyped F x u).isLiteral = true
      ∧ (b.setValueTyped F x u).d.dataType = u
      ∧ (u.isEmpty = false → (b.setValueTyped F x u).dataTypeUri = u) := by
  rw [setValueTyped_fallthrough F b x u hu, setValueTyped_string]
  refine ⟨rfl, rfl, rfl, rfl, ?_⟩
  intro hne
  simp [QSparqlBinding.dataTypeUri, hne]

/-- An instance of C12: a URI that differs from xsd:int in the case of one
letter. -/
theorem C12_unrecognised_uri_stores_string_witness :
    ((QSparqlBinding.newTyped [] .Invalid).setValueTyped QtDoubleOps.zero "42".toList
        ⟨"http://www.w3.org/2001/XMLSchema#Int".toList⟩).value = .ofString "42".toList
      ∧ ((QSparqlBinding.newTyped [] .Invalid).setValueTyped QtDoubleOps.zero "42".toList
          ⟨"http://www.w3.org/2001/XMLSchema#Int".toList⟩).value
        = ((QSparqlBinding.newTyped [] .Invalid).setValueTyped QtDoubleOps.zero "42".toList
            (xsd "string")).value
      ∧ ((QSparqlBinding.newTyped [] .Invalid).setValueTyped QtDoubleOps.zero "42".toList
          ⟨"http://www.w3.org/2001/XMLSchema#Int".toList⟩).isLiteral = true
      ∧ ((QSparqlBinding.newTyped [] .Invalid).setValueTyped QtDoubleOps.zero "42".toList
          ⟨"http://www.w3.org/2001/XMLSchema#Int".toList⟩).d.dataType
        = ⟨"http://www.w3.org/2001/XMLSchema#Int".toList⟩
      ∧ (QUrl.isEmpty ⟨"http://www.w3.org/2001/XMLSchema#Int".toList⟩ = false →
          ((QSparqlBinding.newTyped [] .Invalid).setValueTyped QtDoubleOps.zero "42".toList
            ⟨"http://www.w3.org/2001/XMLSchema#Int".toList⟩).dataTypeUri
          = ⟨"http://www.w3.org/2001/XMLSchema#Int".toList⟩) :=
  C12_unrecognised_uri_stores_string QtDoubleOps.zero (QSparqlBinding.newTyped [] .Invalid)
    "42".toList ⟨"http://www.w3.org/2001/XMLSchema#Int".toList⟩ (by decide)

/-! ### Equality, construction and clearing -/

theorem privEquals_iff (p o : QSparqlBindingPrivate) :
    p.equals o = true ↔
      (p.type = o.type ∧ p.nodetype = o.nodetype ∧ p.dataType = o.dataType ∧ p.lang = o.lang) := by
  simp [QSparqlBindingPrivate.equals, and_assoc]

/-- C13 as amended: `a == b` holds if and only if `a` and `b` have the same
variant type fixed at construction, the same node type, the same stored
datatype URI, the same language tag and equal values; the names are not
compared.  The pointer comparison only succeeds on a shared private record. -/
theorem C13_equality_compares_type_too (veq : QVariant → QVariant → Bool) (samePointer : Bool)
    (a b : QSparqlBinding) (hptr : samePointer = true → a.d = b.d) :
    QSparqlBinding.equals veq samePointer a b = true ↔
      (a.d.type = b.d.type ∧ a.d.nodetype = b.d.nodetype ∧ a.d.dataType = b.d.dataType
        ∧ a.d.lang = b.d.lang ∧ veq a.val b.val = true) := by
  unfold QSparqlBinding.equals
  cases samePointer with
  | false => simp [privEquals_iff, and_assoc]
  | true =>
    have hd := hptr rfl
    simp [hd]

/-- An instance of C13 as amended: two bindings that differ in their names
only. -/
theorem C13_equality_compares_type_too_witness :
    QSparqlBinding.equals (fun x y => decide (x = y)) false
        (QSparqlBinding.new "x".toList (.ofInt 5)) (QSparqlBinding.new "y".toList (.ofInt 5)) = true ↔
      ((QSparqlBinding.new "x".toList (.ofInt 5)).d.type
          = (QSparqlBinding.new "y".toList (.ofInt 5)).d.type
        ∧ (QSparqlBinding.new "x".toList (.ofInt 5)).d.nodetype
          = (QSparqlBinding.new "y".toList (.ofInt 5)).d.nodetype
        ∧ (QSparqlBinding.new "x".toList (.ofInt 5)).d.dataType
          = (QSparqlBinding.new "y".toList (.ofInt 5)).d.dataType
        ∧ (QSparqlBinding.new "x".toList (.ofInt 5)).d.lang
          = (QSparqlBinding.new "y".toList (.ofInt 5)).d.lang
        ∧ (fun x y => decide (x = y)) (QSparqlBinding.new "x".toList (.ofInt 5)).val
            (QSparqlBinding.new "y".toList (.ofInt 5)).val = true) :=
  C13_equality_compares_type_too (fun x y => decide (x = y)) false
    (QSparqlBinding.new "x".toList (.ofInt 5)) (QSparqlBinding.new "y".toList (.ofInt 5))
    (by intro h; cases h)

/-- C13 as stated fails: the binding built as `QSparqlBinding("x", Int)` and
then given the string `s`, and the binding `QSparqlBinding("x", "s")`, have the
same node type, datatype URI, language tag and value, and are not equal:
their variant types `Int` and `String` differ. -/
theorem C13_equality_counterexample :
    ((QSparqlBinding.newTyped "x".toList .Int).setValue (.ofString "s".toList)).d.nodetype
        = (QSparqlBinding.new "x".toList (.ofString "s".toList)).d.nodetype
      ∧ ((QSparqlBinding.newTyped "x".toList .Int).setValue (.ofString "s".toList)).d.dataType
        = (QSparqlBinding.new "x".toList (.ofString "s".toList)).d.dataType
      ∧ ((QSparqlBinding.newTyped "x".toList .Int).setValue (.ofString "s".toList)).d.lang
        = (QSparqlBinding.new "x".toList (.ofString "s".toList)).d.lang
      ∧ ((QSparqlBinding.newTyped "x".toList .Int).setValue (.ofString "s".toList)).val
        = (QSparqlBinding.new "x".toList (.ofString "s".toList)).val
      ∧ QSparqlBinding.equals (fun x y => decide (x = y)) false
          ((QSparqlBinding.newTyped "x".toList .Int).setValue (.ofString "s".toList))
          (QSparqlBinding.new "x".toList (.ofString "s".toList)) = false := by
  decide

/-- C14: the binding constructed by `QSparqlBinding(name, v)` has the given
name and the value `v`; it is a URI node exactly when `v` is of type `Url` and
a literal otherwise, never both and never a blank node. -/
theorem C14_constructor_node_type (name : QString) (v : QVariant) :
    (QSparqlBinding.new name v).name = name
      ∧ (QSparqlBinding.new name v).value = v
      ∧ ((QSparqlBinding.new name v).isUri = true ↔ v.type = .Url)
      ∧ ((QSparqlBinding.new name v).isLiteral = true ↔ v.type ≠ .Url)
      ∧ ((QSparqlBinding.new name v).isUri = true → (QSparqlBinding.new name v).isLiteral = false)
      ∧ ((QSparqlBinding.new name v).isLiteral = true → (QSparqlBinding.new name v).isUri = false)
      ∧ (QSparqlBinding.new name v).isBlank = false := by
  by_cases h : v.type = .Url <;>
    simp [QSparqlBinding.new, QSparqlBinding.setValue, h, QSparqlBinding.name,
      QSparqlBinding.value, QSparqlBinding.isUri, QSparqlBinding.isLiteral,
      QSparqlBinding.isBlank, QSparqlBindingPrivate.new]

/-- C17: after `clear()` the value is absent, the node type is `Invalid` (the
binding is neither URI, literal nor blank), the language tag and
`dataTypeUri()` are empty, `toString()` is the empty string and the name is
unchanged. -/
theorem C17_clear_resets (F : QtDoubleOps) (b : QSparqlBinding) :
    b.clear.value = .invalid
      ∧ b.clear.d.nodetype = .Invalid
      ∧ b.clear.isUri = false ∧ b.clear.isLiteral = false ∧ b.clear.isBlank = false
      ∧ b.clear.languageTag = []
      ∧ b.clear.dataTypeUri = ⟨[]⟩
      ∧ b.clear.toString F = []
      ∧ b.clear.name = b.name := by
  simp [QSparqlBinding.clear, QSparqlBinding.value, QSparqlBinding.isUri,
    QSparqlBinding.isLiteral, QSparqlBinding.isBlank, QSparqlBinding.languageTag,
    QSparqlBinding.dataTypeUri, QSparqlBinding.toString, QSparqlBinding.name]

/-- C18: a URI node holding the URL `u` prints as `<`, the encoded URL and
`>`; after `setBlankNodeLabel(id)` the binding is a blank node that prints as
`_:` followed by `id`, also after a language tag and a datatype URI are set;
in both cases `dataTypeUri()` is empty, whatever tag and datatype URI are
stored. -/
theorem C18_non_literal_text (F : QtDoubleOps) (bu : QSparqlBinding) (u : QUrl)
    (bb : QSparqlBinding) (id lang : QString) (dt : QUrl)
    (hnode : bu.d.nodetype = .Uri) (hval : bu.val = .ofUrl u) :
    bu.toString F = ['<'] ++ QString.fromLatin1 u.toEncoded ++ ['>']
      ∧ bu.dataTypeUri = ⟨[]⟩
      ∧ (bb.setBlankNodeLabel id).isBlank = true
      ∧ (bb.setBlankNodeLabel id).toString F = "_:".toList ++ id
      ∧ (bb.setBlankNodeLabel id).dataTypeUri = ⟨[]⟩
      ∧ (((bb.setBlankNodeLabel id).setLanguageTag lang).setDataTypeUri dt).isBlank = true
      ∧ (((bb.setBlankNodeLabel id).setLanguageTag lang).setDataTypeUri dt).toString F
          = "_:".toList ++ id
      ∧ (((bb.setBlankNodeLabel id).setLanguageTag lang).setDataTypeUri dt).dataTypeUri = ⟨[]⟩ := by
  refine ⟨?_, ?_, ?_, ?_, ?_, ?_, ?_, ?_⟩
  · simp [QSparqlBinding.toString, hnode, hval, QVariant.toUrl]
  · simp [QSparqlBinding.dataTypeUri, hnode]
  all_goals
    simp [QSparqlBinding.setBlankNodeLabel, QSparqlBinding.setLanguageTag,
      QSparqlBinding.setDataTypeUri, QSparqlBinding.isBlank, QSparqlBinding.toString,
      QSparqlBinding.dataTypeUri, QVariant.toString]

/-- An instance of C18: the URI node of `http://example.org/a` with a language
tag and a datatype URI stored, and a blank node `b1`. -/
theorem C18_non_literal_text_witness :
    (((QSparqlBinding.new "s".toList (.ofUrl ⟨"http://example.org/a".toList⟩)).setLanguageTag
        "en".toList).setDataTypeUri (xsd "string")).toString QtDoubleOps.zero
        = ['<'] ++ QString.fromLatin1 (QUrl.toEncoded ⟨"http://example.org/a".toList⟩) ++ ['>']
      ∧ (((QSparqlBinding.new "s".toList (.ofUrl ⟨"http://example.org/a".toList⟩)).setLanguageTag
          "en".toList).setDataTypeUri (xsd "string")).dataTypeUri = ⟨[]⟩
      ∧ ((QSparqlBinding.newTyped "s".toList .String).setBlankNodeLabel "b1".toList).isBlank = true
      ∧ ((QSparqlBinding.newTyped "s".toList .String).setBlankNodeLabel "b1".toList).toString
          QtDoubleOps.zero = "_:".toList ++ "b1".toList
      ∧ ((QSparqlBinding.newTyped "s".toList .String).setBlankNodeLabel "b1".toList).dataTypeUri
          = ⟨[]⟩
      ∧ ((((QSparqlBinding.newTyped "s".toList .String).setBlankNodeLabel "b1".toList).setLanguageTag
          "en".toList).setDataTypeUri (xsd "string")).isBlank = true
      ∧ ((((QSparqlBinding.newTyped "s".toList .String).setBlankNodeLabel "b1".toList).setLanguageTag
          "en".toList).setDataTypeUri (xsd "string")).toString QtDoubleOps.zero
          = "_:".toList ++ "b1".toList
      ∧ ((((QSparqlBinding.newTyped "s".toList .String).setBlankNodeLabel "b1".toList).setLanguageTag
          "en".toList).setDataTypeUri (xsd "string")).dataTypeUri = ⟨[]⟩ :=
  C18_non_literal_text QtDoubleOps.zero
    (((QSparqlBinding.new "s".toList (.ofUrl ⟨"http://example.org/a".toList⟩)).setLanguageTag
      "en".toList).setDataTypeUri (xsd "string"))
    ⟨"http://example.org/a".toList⟩ (QSparqlBinding.newTyped "s".toList .String) "b1".toList
    "en".toList (xsd "string") rfl rfl

/-! ### Reachable bindings -/

theorem setValue_val (b : QSparqlBinding) (v : QVariant) : (b.setValue v).val = v := by
  unfold QSparqlBinding.setValue
  split <;> rfl

theorem setValue_nodetype_literal (b : QSparqlBinding) (v : QVariant)
    (h : (b.setValue v).d.nodetype = .Literal) : v.type ≠ .Url := by
  intro hu
  simp [QSparqlBinding.setValue, hu] at h

/-- Every branch of `setValue(lexical, uri)` stores a value that is present. -/
theorem setValueTyped_valid (F : QtDoubleOps) (b : QSparqlBinding) (value : QString) (u : QUrl) :
    (b.setValueTyped F value u).val.isValid = true := by
  unfold QSparqlBinding.setValueTyped
  dsimp only
  iterate 14
    refine ite_prop (fun r : QSparqlBinding => r.val.isValid = true) ?_ ?_
    · beta_reduce; rw [setValue_val]; rfl
  beta_reduce; rw [setValue_val]; rfl

/-- A literal holds a value: the invariant of C15. -/
theorem literalHasValue_step (F : QtDoubleOps) (b : QSparqlBinding) (op : Setter)
    (hop : ∀ v, op = .setValue v → v.isValid = true)
    (hb : b.d.nodetype = .Literal → b.val.isValid = true) :
    (op.apply F b).d.nodetype = .Literal → (op.apply F b).val.isValid = true := by
  cases op with
  | setValue v =>
    intro _
    simp only [Setter.apply, setValue_val]
    exact hop v rfl
  | setValueTyped x u =>
    intro _
    exact setValueTyped_valid F b x u
  | setBlankNodeLabel id =>
    intro h
    simp [Setter.apply, QSparqlBinding.setBlankNodeLabel] at h
  | setDataTypeUri u => exact hb
  | setLanguageTag l => exact hb
  | setName n => exact hb
  | clear =>
    intro h
    simp [Setter.apply, QSparqlBinding.clear] at h

theorem literalHasValue_applySetters (F : QtDoubleOps) (ops : List Setter) :
    ∀ b : QSparqlBinding, (∀ v, Setter.setValue v ∈ ops → v.isValid = true) →
      (b.d.nodetype = .Literal → b.val.isValid = true) →
      (applySetters F b ops).d.nodetype = .Literal → (applySetters F b ops).val.isValid = true := by
  induction ops with
  | nil => intro b _ hb; exact hb
  | cons op ops ih =>
    intro b hops hb
    have hstep := literalHasValue_step F b op
      (fun v hv => hops v (by simp [hv])) hb
    exact ih (op.apply F b) (fun v hv => hops v (by simp [hv])) hstep

/-- C15 as amended: in every binding reached from `QSparqlBinding(name, type)`
or from `QSparqlBinding(name, value)` with a valid `value`, through any
sequence of setters applied to that binding (its private record shared with
no copy) in which every variant passed to `setValue(variant)` is valid, a
literal holds a value that is present. -/
theorem C15_literal_has_value (F : QtDoubleOps) (b0 : QSparqlBinding) (name : QString)
    (type : VType) (v0 : QVariant) (ops : List Setter)
    (hb0 : b0 = QSparqlBinding.newTyped name type
      ∨ (b0 = QSparqlBinding.new name v0 ∧ v0.isValid = true))
    (hops : ∀ v, Setter.setValue v ∈ ops → v.isValid = true) :
    (applySetters F b0 ops).d.nodetype = .Literal → (applySetters F b0 ops).val.isValid = true := by
  apply literalHasValue_applySetters F ops b0 hops
  rcases hb0 with rfl | ⟨rfl, hv⟩
  · intro h
    simp [QSparqlBinding.newTyped, QSparqlBindingPrivate.new] at h
  · intro _
    unfold QSparqlBinding.new
    rw [setValue_val]
    exact hv

/-- An instance of C15 as amended: a value, a typed lexical, a tag and a
name set on `QSparqlBinding("x", String)`. -/
theorem C15_literal_has_value_witness :
    (applySetters QtDoubleOps.zero (QSparqlBinding.newTyped "x".toList .String)
        [.setValue (.ofInt 5), .setValueTyped "7".toList (xsd "int"),
         .setLanguageTag "en".toList, .setName "y".toList]).d.nodetype = .Literal
      ∧ (applySetters QtDoubleOps.zero (QSparqlBinding.newTyped "x".toList .String)
        [.setValue (.ofInt 5), .setValueTyped "7".toList (xsd "int"),
         .setLanguageTag "en".toList, .setName "y".toList]).val.isValid = true :=
  ⟨by decide,
    C15_literal_has_value QtDoubleOps.zero (QSparqlBinding.newTyped "x".toList .String)
      "x".toList .String .invalid
      [.setValue (.ofInt 5), .setValueTyped "7".toList (xsd "int"),
        .setLanguageTag "en".toList, .setName "y".toList]
      (Or.inl rfl) (by intro v hv; simp at hv; rw [hv]; rfl) (by decide)⟩

/-- C15 as stated fails: `setValue` with the invalid variant, and the
constructor `QSparqlBinding(name, value)` with the invalid variant, give a
literal whose value is absent. -/
theorem C15_literal_without_value_counterexample :
    (applySetters QtDoubleOps.zero (QSparqlBinding.newTyped "x".toList .String)
        [.setValue .invalid]).d.nodetype = .Literal
      ∧ (applySetters QtDoubleOps.zero (QSparqlBinding.newTyped "x".toList .String)
        [.setValue .invalid]).val = .invalid
      ∧ (QSparqlBinding.new "x".toList .invalid).d.nodetype = .Literal
      ∧ (QSparqlBinding.new "x".toList .invalid).val = .invalid := by
  decide

/-- C16 at three bindings: `QSparqlBinding("x", Int)` is valid although no
value was set; `QSparqlBinding("x", "s")` is still valid after `clear()`
although its value is absent; and `QSparqlBinding("x", Invalid)` is not valid
after `setValue("s")` although its value is present. -/
theorem C16_isValid_tests_declared_type :
    (QSparqlBinding.newTyped "x".toList .Int).isValid = true
      ∧ (QSparqlBinding.newTyped "x".toList .Int).value = .invalid
      ∧ (QSparqlBinding.new "x".toList (.ofString "s".toList)).clear.isValid = true
      ∧ (QSparqlBinding.new "x".toList (.ofString "s".toList)).clear.value = .invalid
      ∧ ((QSparqlBinding.newTyped "x".toList .Invalid).setValue (.ofString "s".toList)).isValid
          = false
      ∧ ((QSparqlBinding.newTyped "x".toList .Invalid).setValue (.ofString "s".toList)).value
          = .ofString "s".toList := by
  decide

/-! ### Copies -/

/-- C19 at the binding `a` = `QSparqlBinding("x", "s")` with tag `en` and a
copy `b` of it: `b.clear()` empties the language tag of `a`, makes `a` a
non-literal and its text empty; `b.setValue(url)` makes `a` a URI node;
`b.setValue("5", xsd:int)` gives `a` the datatype URI xsd:int; the four setters
that detach leave `a` as it was. -/
theorem C19_copy_shares_private_record :
    (copyThenSet QtDoubleOps.zero .clear).1.toString QtDoubleOps.zero
        = [dquote] ++ "s".toList ++ [dquote] ++ "@en".toList
      ∧ (copyThenSet QtDoubleOps.zero .clear).2.toString QtDoubleOps.zero = []
      ∧ (copyThenSet QtDoubleOps.zero .clear).1.languageTag = "en".toList
      ∧ (copyThenSet QtDoubleOps.zero .clear).2.languageTag = []
      ∧ (copyThenSet QtDoubleOps.zero .clear).1.isLiteral = true
      ∧ (copyThenSet QtDoubleOps.zero .clear).2.isLiteral = false
      ∧ (copyThenSet QtDoubleOps.zero (.setValue (.ofUrl ⟨"u".toList⟩))).2.isUri = true
      ∧ (copyThenSet QtDoubleOps.zero (.setValueTyped "5".toList (xsd "int"))).2.dataTypeUri
          = xsd "int"
      ∧ (copyThenSet QtDoubleOps.zero (.setValueTyped "5".toList (xsd "int"))).1.dataTypeUri
          = xsd "string"
      ∧ (copyThenSet QtDoubleOps.zero (.setLanguageTag "fr".toList)).2
          = (copyThenSet QtDoubleOps.zero (.setLanguageTag "fr".toList)).1
      ∧ (copyThenSet QtDoubleOps.zero (.setDataTypeUri (xsd "int"))).2
          = (copyThenSet QtDoubleOps.zero (.setDataTypeUri (xsd "int"))).1
      ∧ (copyThenSet QtDoubleOps.zero (.setName "y".toList)).2
          = (copyThenSet QtDoubleOps.zero (.setName "y".toList)).1
      ∧ (copyThenSet QtDoubleOps.zero (.setBlankNodeLabel "b1".toList)).2
          = (copyThenSet QtDoubleOps.zero (.setBlankNodeLabel "b1".toList)).1 := by
  decide

/-! ### The update result -/

/-- C20: `exec()` on an update result whose state is `Executing` or `Finished`
changes nothing: state, error record, connection reference, backend updates
started and notifications emitted are all as before. -/
theorem C20_exec_noop_outside_idle (s : UpdateResult)
    (h : s.state = .Executing ∨ s.state = .Finished) : s.exec = s := by
  unfold UpdateResult.exec
  have hne : s.state ≠ .Idle := by
    rcases h with h | h <;> rw [h] <;> decide
  rw [if_pos hne]

/-- An instance of C20: a second `exec()` after the first one started the
update, and an `exec()` after the result finished with a connection error. -/
theorem C20_exec_noop_outside_idle_witness :
    ((UpdateResult.new "q".toList true []).exec.state = .Executing
        ∨ (UpdateResult.new "q".toList true []).exec.state = .Finished)
      ∧ (UpdateResult.new "q".toList true []).exec.exec = (UpdateResult.new "q".toList true []).exec
      ∧ (UpdateResult.new "q".toList false []).exec.exec
          = (UpdateResult.new "q".toList false []).exec :=
  ⟨by decide,
    C20_exec_noop_outside_idle _ (by decide),
    C20_exec_noop_outside_idle (UpdateResult.new "q".toList false []).exec (by decide)⟩

/-! ### Sequences of events on the update result -/

theorem UpdateResult.Inv_new (query : QString) (driverOpen : Bool) (driverError : QString) :
    (UpdateResult.new query driverOpen driverError).Inv := by
  simp [UpdateResult.Inv, UpdateResult.new]

theorem UpdateResult.terminate_fields (s : UpdateResult) :
    s.terminate.state = .Finished ∧ s.terminate.terminateRuns = s.terminateRuns + 1 ∧
    s.terminate.finishedEmitted = (if s.q then s.finishedEmitted + 1 else s.finishedEmitted) ∧
    s.terminate.callbackPending = s.callbackPending ∧
    s.terminate.terminateQueued = s.terminateQueued ∧
    s.terminate.resultAlive = s.resultAlive ∧ s.terminate.privateAlive = s.privateAlive ∧
    s.terminate.q = s.q ∧ s.terminate.driverPrivate = s.driverPrivate ∧
    s.terminate.driverOpen = s.driverOpen ∧ s.terminate.updatesStarted = s.updatesStarted ∧
    s.terminate.lastError = s.lastError ∧ s.terminate.loop = s.loop ∧
    s.terminate.fault = (s.fault || !s.q) := by
  unfold UpdateResult.terminate
  cases hq : s.q <;> simp [hq, UpdateResult.hasError]
  split_ifs <;> simp

theorem UpdateResult.leaveLoop_Inv (a b : UpdateResult) (h : b.Inv) :
    (UpdateResult.leaveLoop a b).Inv := by
  unfold UpdateResult.leaveLoop
  split_ifs
  · exact h
  · exact h

theorem UpdateResult.terminate_Inv (s : UpdateResult)
    (h1 : s.resultAlive = true → s.privateAlive = true ∧ s.q = true)
    (h2 : s.terminateRuns = 0) (h3 : s.finishedEmitted = 0) (h4 : s.callbackPending = false)
    (h5 : s.terminateQueued = 0) : s.terminate.Inv := by
  obtain ⟨t1, t2, t3, t4, t5, t6, t7, t8, t9, t10, t11, t12, t13, t14⟩ := s.terminate_fields
  refine ⟨?_, ?_, ?_, ?_⟩
  · rw [t6, t7, t8]; exact h1
  · intro h; rw [t1] at h; cases h
  · intro h; rw [t1] at h; cases h
  · intro _
    rw [t2, t3, t4, t5, h2, h3]
    refine ⟨rfl, ?_, h4, h5⟩
    split_ifs <;> omega

theorem UpdateResult.Inv_exec (s : UpdateResult) (h : s.Inv) : s.exec.Inv := by
  obtain ⟨h1, h2, h3, h4⟩ := h
  unfold UpdateResult.exec
  split_ifs with c1 c2 c3
  · exact ⟨h1, h2, h3, h4⟩
  · exact ⟨h1, h2, h3, h4⟩
  · have hi : s.state = .Idle := by simpa using c1
    obtain ⟨a, b, c, d, _⟩ := h2 hi
    exact UpdateResult.terminate_Inv _ h1 c d a b
  · have hi : s.state = .Idle := by simpa using c1
    obtain ⟨a, b, c, d, _⟩ := h2 hi
    simp only [UpdateResult.startUpdate, UpdateResult.Inv]
    refine ⟨h1, ?_, ?_, ?_⟩
    · intro h; cases h
    · intro _; refine ⟨c, d, (by omega), fun _ => b, fun _ _ => (by simpa using c3)⟩
    · intro h; cases h

theorem UpdateResult.Inv_waitForFinished (s : UpdateResult) (h : s.Inv)
    (ha : s.resultAlive = true) : s.waitForFinished.Inv := by
  obtain ⟨h1, h2, h3, h4⟩ := h
  unfold UpdateResult.waitForFinished
  split_ifs with c1 c2 c3 c4
  · exact ⟨h1, h2, h3, h4⟩
  · have hi : s.state = .Idle := by
      cases hs : s.state
      · rfl
      · have := (h3 hs).2.2.2.2 (h1 ha).1 c2
        simp [this] at c3
      · simp [UpdateResult.isFinished, hs] at c1
    obtain ⟨a, b, c, d, _⟩ := h2 hi
    exact UpdateResult.terminate_Inv _ h1 c d a b
  · exact ⟨h1, h2, h3, h4⟩
  · exact ⟨h1, h2, h3, h4⟩
  · exact ⟨h1, h2, h3, h4⟩

theorem UpdateResult.Inv_destroy (s : UpdateResult) (h : s.Inv) : s.destroy.Inv := by
  obtain ⟨h1, h2, h3, h4⟩ := h
  unfold UpdateResult.destroy
  split_ifs with c1
  · refine ⟨(by intro h; cases h), h2, ?_, h4⟩
    intro hs
    obtain ⟨a, b, c, d, e⟩ := h3 hs
    exact ⟨a, b, c, d, e⟩
  · refine ⟨(by intro h; cases h), h2, ?_, h4⟩
    intro hs
    exact absurd hs c1

theorem UpdateResult.Inv_callback (ect : Int → ErrorType) (s : UpdateResult)
    (error : Option BackendError) (h : s.Inv) (hp : s.callbackPending = true) :
    (UpdateResult.asyncUpdateCallback ect { s with callbackPending := false } error).Inv := by
  obtain ⟨h1, h2, h3, h4⟩ := h
  have hs : s.state = .Executing := by
    cases hs : s.state
    · have := (h2 hs).1; rw [hp] at this; cases this
    · rfl
    · have := (h4 hs).2.2.1; rw [hp] at this; cases this
  obtain ⟨a, b, c, d, e⟩ := h3 hs
  have hq := d hp
  unfold UpdateResult.asyncUpdateCallback
  simp only []
  split_ifs with c1 c2 c3
  · refine ⟨h1, ?_, ?_, ?_⟩
    · intro h; rw [hs] at h; cases h
    · intro _; exact ⟨a, b, c, fun h => (by cases h), e⟩
    · intro h; rw [hs] at h; cases h
  · refine ⟨?_, ?_, ?_, ?_⟩
    · intro hr; have := (h1 hr).2; simp [this] at c2
    · intro h; rw [hs] at h; cases h
    · intro _; exact ⟨a, b, c, fun h => (by cases h), fun h => (by cases h)⟩
    · intro h; rw [hs] at h; cases h
  · cases error <;>
    · simp only [UpdateResult.setLastError]
      refine ⟨h1, ?_, ?_, ?_⟩
      · intro h; rw [hs] at h; cases h
      · intro _; exact ⟨a, b, (by dsimp only; omega), fun h => (by cases h), e⟩
      · intro h; rw [hs] at h; cases h
  · refine ⟨h1, ?_, ?_, ?_⟩
    · intro h; rw [hs] at h; cases h
    · intro _; exact ⟨a, b, (by dsimp only; omega), fun h => (by cases h), e⟩
    · intro h; rw [hs] at h; cases h

theorem UpdateResult.Inv_deliverTerminate (s : UpdateResult) (h : s.Inv)
    (hq : s.terminateQueued ≠ 0) :
    (UpdateResult.terminate { s with terminateQueued := s.terminateQueued - 1 }).Inv ∧
    UpdateResult.Inv { s with terminateQueued := s.terminateQueued - 1 } := by
  obtain ⟨h1, h2, h3, h4⟩ := h
  have hs : s.state = .Executing := by
    cases hs : s.state
    · exact absurd (h2 hs).2.1 hq
    · rfl
    · exact absurd (h4 hs).2.2.2 hq
  obtain ⟨a, b, c, d, e⟩ := h3 hs
  have hp : s.callbackPending = false := by
    cases hp : s.callbackPending
    · rfl
    · exact absurd (d hp) hq
  constructor
  · exact UpdateResult.terminate_Inv _ h1 a b hp (by dsimp only; omega)
  · refine ⟨h1, ?_, ?_, ?_⟩
    · intro h; rw [hs] at h; cases h
    · intro _; exact ⟨a, b, (by dsimp only; omega), fun _ => (by dsimp only; omega), e⟩
    · intro h; rw [hs] at h; cases h

theorem UpdateResult.Inv_step (ect : Int → ErrorType) (s : UpdateResult) (ev : UpdateEvent)
    (h : s.Inv) (hev : ev ≠ .driverNotOpen) : (s.step ect ev).Inv := by
  cases ev with
  | driverNotOpen => exact absurd rfl hev
  | exec =>
    simp only [UpdateResult.step]
    split_ifs
    · exact UpdateResult.leaveLoop_Inv _ _ (UpdateResult.Inv_exec s h)
    · exact h
  | waitForFinished =>
    simp only [UpdateResult.step]
    split_ifs with c
    · exact UpdateResult.Inv_waitForFinished s h (by simp at c; exact c.1)
    · exact h
  | callback error =>
    simp only [UpdateResult.step]
    split_ifs with c
    · exact UpdateResult.Inv_callback ect s error h c
    · exact h
  | deliverTerminate =>
    simp only [UpdateResult.step]
    split_ifs with c1 c2
    · exact h
    · exact UpdateResult.leaveLoop_Inv _ _ (UpdateResult.Inv_deliverTerminate s h c1).1
    · exact (UpdateResult.Inv_deliverTerminate s h c1).2
  | closing =>
    obtain ⟨h1, h2, h3, h4⟩ := h
    simp only [UpdateResult.step, UpdateResult.driverClosing]
    split_ifs with hc
    · refine ⟨h1, h2, ?_, h4⟩
      intro hs
      obtain ⟨a, b, c, d, e⟩ := h3 hs
      exact ⟨a, b, c, d, fun _ h => (by cases h)⟩
    · refine ⟨h1, h2, ?_, h4⟩
      intro hs
      obtain ⟨a, b, c, d, e⟩ := h3 hs
      exact ⟨a, b, c, d, fun h => absurd h hc⟩
  | driverOpens =>
    obtain ⟨h1, h2, h3, h4⟩ := h
    simp only [UpdateResult.step]
    refine ⟨h1, h2, ?_, h4⟩
    intro hs
    obtain ⟨a, b, c, d, e⟩ := h3 hs
    exact ⟨a, b, c, d, fun _ _ => rfl⟩
  | destroy =>
    simp only [UpdateResult.step]
    split_ifs
    · exact UpdateResult.Inv_destroy s h
    · exact h

theorem UpdateResult.Inv_run (ect : Int → ErrorType) (events : List UpdateEvent)
    (hno : UpdateEvent.driverNotOpen ∉ events) :
    ∀ s : UpdateResult, s.Inv → (s.run ect events).Inv := by
  induction events with
  | nil => intro s h; exact h
  | cons ev rest ih =>
    intro s h
    have hev : ev ≠ .driverNotOpen := fun he => hno (by simp [he])
    exact ih (fun hm => hno (List.mem_cons_of_mem _ hm)) _ (UpdateResult.Inv_step ect s ev h hev)

/-- In the state `Idle` no callback is pending and no `terminate` is queued,
whatever the events. -/
theorem UpdateResult.step_idle_quiet (ect : Int → ErrorType) (s : UpdateResult)
    (ev : UpdateEvent)
    (h : s.state = .Idle → s.callbackPending = false ∧ s.terminateQueued = 0) :
    (s.step ect ev).state = .Idle →
      (s.step ect ev).callbackPending = false ∧ (s.step ect ev).terminateQueued = 0 := by
  have hterm : ∀ t : UpdateResult, t.terminate.state ≠ .Idle := by
    intro t ht
    rw [(UpdateResult.terminate_fields t).1] at ht
    cases ht
  have hleave : ∀ a b : UpdateResult, (UpdateResult.leaveLoop a b).state = b.state ∧
      (UpdateResult.leaveLoop a b).callbackPending = b.callbackPending ∧
      (UpdateResult.leaveLoop a b).terminateQueued = b.terminateQueued := by
    intro a b
    unfold UpdateResult.leaveLoop
    split_ifs <;> exact ⟨rfl, rfl, rfl⟩
  cases ev with
  | exec =>
    simp only [UpdateResult.step]
    split_ifs
    · rw [(hleave s s.exec).1, (hleave s s.exec).2.1, (hleave s s.exec).2.2]
      unfold UpdateResult.exec
      split_ifs
      · exact h
      · exact h
      · intro hi; exact absurd hi (hterm _)
      · intro hi; simp [UpdateResult.startUpdate] at hi
    · exact h
  | waitForFinished =>
    simp only [UpdateResult.step]
    split_ifs
    · unfold UpdateResult.waitForFinished
      split_ifs
      · exact h
      · intro hi; exact absurd hi (hterm _)
      · exact h
      · exact h
      · exact h
    · exact h
  | callback error =>
    simp only [UpdateResult.step]
    split_ifs with c
    · intro hi
      have hst : (UpdateResult.asyncUpdateCallback ect { s with callbackPending := false }
          error).state = s.state := by
        unfold UpdateResult.asyncUpdateCallback
        split_ifs
        · rfl
        · rfl
        · cases error <;> rfl
        · rfl
      rw [hst] at hi
      have := (h hi).1
      rw [c] at this
      cases this
    · exact h
  | deliverTerminate =>
    simp only [UpdateResult.step]
    split_ifs with c1 c2
    · exact h
    · intro hi
      rw [(hleave _ _).1] at hi
      exact absurd hi (hterm _)
    · intro hi
      exact absurd (h hi).2 c1
  | closing =>
    simp only [UpdateResult.step, UpdateResult.driverClosing]
    split_ifs <;> exact h
  | driverOpens => exact h
  | driverNotOpen => exact h
  | destroy =>
    simp only [UpdateResult.step, UpdateResult.destroy]
    split_ifs <;> exact h

theorem UpdateResult.run_idle_quiet (ect : Int → ErrorType) (events : List UpdateEvent) :
    ∀ s : UpdateResult, (s.state = .Idle → s.callbackPending = false ∧ s.terminateQueued = 0) →
      (s.run ect events).state = .Idle →
        (s.run ect events).callbackPending = false ∧ (s.run ect events).terminateQueued = 0 := by
  induction events with
  | nil => intro s h; exact h
  | cons ev rest ih =>
    intro s h
    exact ih _ (UpdateResult.step_idle_quiet ect s ev h)

theorem UpdateResult.leaveLoop_state (a b : UpdateResult) :
    (UpdateResult.leaveLoop a b).state = b.state := by
  unfold UpdateResult.leaveLoop
  split_ifs <;> rfl

theorem UpdateResult.asyncUpdateCallback_state (ect : Int → ErrorType) (s : UpdateResult)
    (error : Option BackendError) : (s.asyncUpdateCallback ect error).state = s.state := by
  unfold UpdateResult.asyncUpdateCallback
  split_ifs
  · rfl
  · rfl
  · cases error <;> rfl
  · rfl

theorem UpdateResult.terminate_alive (s : UpdateResult) (hq : s.q = true) :
    s.terminate.state = .Finished ∧ s.terminate.finishedEmitted = s.finishedEmitted + 1 ∧
    s.terminate.lastError = s.lastError ∧ s.terminate.hasError = s.hasError ∧
    s.terminate.fault = s.fault ∧ s.terminate.terminateRuns = s.terminateRuns + 1 := by
  obtain ⟨t1, t2, t3, t4, t5, t6, t7, t8, t9, t10, t11, t12, t13, t14⟩ := s.terminate_fields
  refine ⟨t1, ?_, t12, ?_, ?_, t2⟩
  · rw [t3]; simp [hq]
  · unfold UpdateResult.hasError; rw [t12]
  · rw [t14]; simp [hq]

/-- Once the result and its private object are gone and nothing is pending or
queued, an event changes at most the open flag of the driver. -/
theorem UpdateResult.step_after_delete (ect : Int → ErrorType) (t : UpdateResult)
    (ev : UpdateEvent) (h1 : t.resultAlive = false) (h2 : t.privateAlive = false)
    (h3 : t.callbackPending = false) (h4 : t.terminateQueued = 0) :
    ∃ b, t.step ect ev = { t with driverOpen := b } := by
  cases t
  simp only [] at h1 h2 h3 h4
  subst h1 h2 h3 h4
  cases ev with
  | exec => exact ⟨_, rfl⟩
  | waitForFinished => exact ⟨_, rfl⟩
  | callback error => exact ⟨_, rfl⟩
  | deliverTerminate => exact ⟨_, rfl⟩
  | closing => exact ⟨false, rfl⟩
  | driverOpens => exact ⟨true, rfl⟩
  | driverNotOpen => exact ⟨false, rfl⟩
  | destroy => exact ⟨_, rfl⟩

theorem UpdateResult.run_after_delete (ect : Int → ErrorType) (events : List UpdateEvent) :
    ∀ t : UpdateResult, t.resultAlive = false → t.privateAlive = false →
      t.callbackPending = false → t.terminateQueued = 0 →
      ∃ b, t.run ect events = { t with driverOpen := b } := by
  induction events with
  | nil => intro t _ _ _ _; exact ⟨t.driverOpen, rfl⟩
  | cons ev rest ih =>
    intro t h1 h2 h3 h4
    obtain ⟨b, hb⟩ := UpdateResult.step_after_delete ect t ev h1 h2 h3 h4
    have hr : t.run ect (ev :: rest) = (t.step ect ev).run ect rest := rfl
    rw [hr, hb]
    obtain ⟨c, hc⟩ := ih { t with driverOpen := b } h1 h2 h3 h4
    exact ⟨c, hc⟩

/-! ### C21 to C30: the update result under events -/

/-- Along the sequences of events in which the driver stops being open through
`closing` only, `terminate` runs at most once and `finished()` is emitted at
most once. -/
theorem UpdateResult.terminate_once_while_open (errorCodeToType : Int → ErrorType)
    (query : QString) (driverOpen : Bool) (driverError : QString) (events : List UpdateEvent)
    (hno : UpdateEvent.driverNotOpen ∉ events) :
    ((UpdateResult.new query driverOpen driverError).run errorCodeToType events).terminateRuns ≤ 1 ∧
    ((UpdateResult.new query driverOpen driverError).run errorCodeToType events).finishedEmitted
      ≤ 1 := by
  obtain ⟨_, h2, h3, h4⟩ := UpdateResult.Inv_run errorCodeToType events hno _
    (UpdateResult.Inv_new query driverOpen driverError)
  cases hs : ((UpdateResult.new query driverOpen driverError).run errorCodeToType events).state
  · obtain ⟨_, _, a, b, _⟩ := h2 hs
    omega
  · obtain ⟨a, b, _⟩ := h3 hs
    omega
  · obtain ⟨a, b, _⟩ := h4 hs
    omega

/-- An update that completes runs `terminate` and emits `finished()` once,
and later events add nothing: the bounds on both counts are reached. -/
theorem UpdateResult.terminate_once_example :
    (openUpdateExample.run errorCodeToTypeExample
      [.exec, .callback none, .deliverTerminate, .exec, .deliverTerminate]).terminateRuns = 1 ∧
    (openUpdateExample.run errorCodeToTypeExample
      [.exec, .callback none, .deliverTerminate, .exec, .deliverTerminate]).finishedEmitted = 1 := by
  decide

/-- C22: when the result is destroyed while the state is `Executing`, the
private object stays with its link `q` cleared, and the completion callback
(with or without a backend error) then only deletes the private object: no
error is recorded, no `terminate` queued, nothing emitted and no fault. -/
theorem C22_in_flight_destruction (errorCodeToType : Int → ErrorType) (s : UpdateResult)
    (error : Option BackendError) (hs : s.state = .Executing) (ha : s.privateAlive = true) :
    s.destroy = { s with resultAlive := false, q := false } ∧
    s.destroy.asyncUpdateCallback errorCodeToType error
      = { s with resultAlive := false, q := false, privateAlive := false } := by
  have hd : s.destroy = { s with resultAlive := false, q := false } := by
    unfold UpdateResult.destroy
    rw [if_pos hs]
  refine ⟨hd, ?_⟩
  rw [hd]
  unfold UpdateResult.asyncUpdateCallback
  simp [ha]

theorem C22_in_flight_destruction_witness :
    openUpdateExample.exec.state = .Executing ∧ openUpdateExample.exec.privateAlive = true ∧
    openUpdateExample.exec.destroy
      = { openUpdateExample.exec with resultAlive := false, q := false } ∧
    openUpdateExample.exec.destroy.asyncUpdateCallback errorCodeToTypeExample
        (some backendErrorExample)
      = { openUpdateExample.exec with resultAlive := false, q := false, privateAlive := false } :=
  ⟨by decide, by decide,
    C22_in_flight_destruction errorCodeToTypeExample openUpdateExample.exec
      (some backendErrorExample) (by decide) (by decide)⟩

/-- C23: the result destroyed after the completion callback has queued
`terminate` and before `terminate` runs: the state is still `Executing`, so
the destructor keeps the private object and clears `q`, and the queued
`terminate` then runs on it and dereferences the null `q`. -/
theorem C23_destroy_before_queued_terminate :
    (openUpdateExample.run errorCodeToTypeExample [.exec, .callback none]).state = .Executing ∧
    (openUpdateExample.run errorCodeToTypeExample [.exec, .callback none]).terminateQueued = 1 ∧
    (openUpdateExample.run errorCodeToTypeExample [.exec, .callback none, .destroy]).privateAlive
      = true ∧
    (openUpdateExample.run errorCodeToTypeExample [.exec, .callback none, .destroy]).q = false ∧
    (openUpdateExample.run errorCodeToTypeExample [.exec, .callback none, .destroy]).fault
      = false ∧
    (openUpdateExample.run errorCodeToTypeExample
      [.exec, .callback none, .destroy, .deliverTerminate]).fault = true ∧
    (openUpdateExample.run errorCodeToTypeExample
      [.exec, .callback none, .destroy, .deliverTerminate]).terminateRuns = 1 := by
  decide

/-- Destroying a result that is not executing, with no callback pending and
no `terminate` queued, deletes the private object, and no later sequence of
events changes anything but the open flag of the driver. -/
theorem UpdateResult.destroy_quiet (ect : Int → ErrorType) (s : UpdateResult)
    (after : List UpdateEvent) (hne : s.state ≠ .Executing) (hp : s.callbackPending = false)
    (hq : s.terminateQueued = 0) :
    s.destroy.privateAlive = false ∧
    ∃ b, s.destroy.run ect after = { s.destroy with driverOpen := b } := by
  have hd : s.destroy = { s with resultAlive := false, privateAlive := false } := by
    unfold UpdateResult.destroy
    rw [if_neg hne]
  rw [hd]
  exact ⟨rfl, UpdateResult.run_after_delete ect after _ rfl rfl hp hq⟩

/-- The destruction of a result whose state is `Idle`, reached by any
sequence of events, is safe: no callback is pending on the private object that
is deleted. -/
theorem UpdateResult.destroy_idle_safe (ect : Int → ErrorType) (query : QString)
    (driverOpen : Bool) (driverError : QString) (before after : List UpdateEvent)
    (hs : ((UpdateResult.new query driverOpen driverError).run ect before).state = .Idle) :
    ((UpdateResult.new query driverOpen driverError).run ect before).destroy.privateAlive
      = false ∧
    ∃ b, ((UpdateResult.new query driverOpen driverError).run ect before).destroy.run ect after
      = { ((UpdateResult.new query driverOpen driverError).run ect before).destroy
          with driverOpen := b } := by
  obtain ⟨hp, hq⟩ := UpdateResult.run_idle_quiet ect before _ (fun _ => ⟨rfl, rfl⟩) hs
  exact UpdateResult.destroy_quiet ect _ after (by rw [hs]; decide) hp hq

/-- The destruction of a result whose state is `Finished` is safe along the
sequences of events in which the driver stops being open through `closing`
only. -/
theorem UpdateResult.destroy_finished_safe_while_open (ect : Int → ErrorType) (query : QString)
    (driverOpen : Bool) (driverError : QString) (before after : List UpdateEvent)
    (hno : UpdateEvent.driverNotOpen ∉ before)
    (hs : ((UpdateResult.new query driverOpen driverError).run ect before).state = .Finished) :
    ((UpdateResult.new query driverOpen driverError).run ect before).destroy.privateAlive
      = false ∧
    ∃ b, ((UpdateResult.new query driverOpen driverError).run ect before).destroy.run ect after
      = { ((UpdateResult.new query driverOpen driverError).run ect before).destroy
          with driverOpen := b } := by
  obtain ⟨_, _, _, h4⟩ := UpdateResult.Inv_run ect before hno _
    (UpdateResult.Inv_new query driverOpen driverError)
  exact UpdateResult.destroy_quiet ect _ after (by rw [hs]; decide) (h4 hs).2.2.1 (h4 hs).2.2.2

/-- C25 as stated fails: after `closing` has cleared the connection
reference, the callback does not read the outcome of the update, and a
backend error is not recorded. -/
theorem C25_backend_error_dropped_counterexample :
    (openUpdateExample.run errorCodeToTypeExample [.exec, .closing]).state = .Executing ∧
    (openUpdateExample.run errorCodeToTypeExample [.exec, .closing]).resultAlive = true ∧
    (openUpdateExample.run errorCodeToTypeExample [.exec, .closing]).q = true ∧
    (openUpdateExample.run errorCodeToTypeExample [.exec, .closing]).lastError
      = QSparqlError.noError ∧
    (UpdateResult.asyncUpdateCallback errorCodeToTypeExample
      (openUpdateExample.run errorCodeToTypeExample [.exec, .closing])
      (some backendErrorExample)).lastError = QSparqlError.noError ∧
    (UpdateResult.asyncUpdateCallback errorCodeToTypeExample
      (openUpdateExample.run errorCodeToTypeExample [.exec, .closing])
      (some backendErrorExample)).lastError
      ≠ QSparqlError.ofBackend errorCodeToTypeExample backendErrorExample := by
  decide

/-- C25, amended: when the completion callback runs while the result exists
and the state is `Executing`, it records the backend error (message, type
mapped from the code, number equal to the code) exactly when the backend
reported one and the connection reference is present, leaves the error record
untouched otherwise, and in every case only queues `terminate`: the state is
still `Executing` and nothing has been emitted. -/
theorem C25_callback_defers_completion (errorCodeToType : Int → ErrorType) (s : UpdateResult)
    (error : Option BackendError) (ha : s.privateAlive = true) (hq : s.q = true)
    (hs : s.state = .Executing) :
    (s.asyncUpdateCallback errorCodeToType error).lastError
      = (match s.driverPrivate, error with
         | true, some e => { message := e.message, type := errorCodeToType e.code, number := e.code }
         | _, _ => s.lastError) ∧
    (s.asyncUpdateCallback errorCodeToType error).state = .Executing ∧
    (s.asyncUpdateCallback errorCodeToType error).terminateQueued = s.terminateQueued + 1 ∧
    (s.asyncUpdateCallback errorCodeToType error).finishedEmitted = s.finishedEmitted ∧
    (s.asyncUpdateCallback errorCodeToType error).terminateRuns = s.terminateRuns ∧
    (s.asyncUpdateCallback errorCodeToType error).fault = s.fault := by
  unfold UpdateResult.asyncUpdateCallback
  cases hd : s.driverPrivate <;> cases error <;>
    simp [ha, hq, hs, UpdateResult.setLastError, QSparqlError.ofBackend]

theorem C25_callback_defers_completion_witness :
    openUpdateExample.exec.privateAlive = true ∧ openUpdateExample.exec.q = true ∧
    openUpdateExample.exec.state = .Executing ∧
    (openUpdateExample.exec.asyncUpdateCallback errorCodeToTypeExample
        (some backendErrorExample)).lastError
      = (match openUpdateExample.exec.driverPrivate, some backendErrorExample with
         | true, some e =>
           { message := e.message, type := errorCodeToTypeExample e.code, number := e.code }
         | _, _ => openUpdateExample.exec.lastError) ∧
    (openUpdateExample.exec.asyncUpdateCallback errorCodeToTypeExample
        (some backendErrorExample)).state = .Executing ∧
    (openUpdateExample.exec.asyncUpdateCallback errorCodeToTypeExample
        (some backendErrorExample)).terminateQueued = openUpdateExample.exec.terminateQueued + 1 ∧
    (openUpdateExample.exec.asyncUpdateCallback errorCodeToTypeExample
        (some backendErrorExample)).finishedEmitted = openUpdateExample.exec.finishedEmitted ∧
    (openUpdateExample.exec.asyncUpdateCallback errorCodeToTypeExample
        (some backendErrorExample)).terminateRuns = openUpdateExample.exec.terminateRuns ∧
    (openUpdateExample.exec.asyncUpdateCallback errorCodeToTypeExample
        (some backendErrorExample)).fault = openUpdateExample.exec.fault :=
  ⟨by decide, by decide, by decide,
    C25_callback_defers_completion errorCodeToTypeExample openUpdateExample.exec
      (some backendErrorExample) (by decide) (by decide) (by decide)⟩

/-- C26 as stated fails: `closing` during execution, then the completion
(here with a backend error) and the queued `terminate`; the result is
finished with `finished()` emitted and no error at all. -/
theorem C26_closed_during_execution_counterexample :
    (openUpdateExample.run errorCodeToTypeExample [.exec, .closing]).state = .Executing ∧
    (openUpdateExample.run errorCodeToTypeExample [.exec, .closing]).driverPrivate = false ∧
    (openUpdateExample.run errorCodeToTypeExample
      [.exec, .closing, .callback (some backendErrorExample), .deliverTerminate]).state
      = .Finished ∧
    (openUpdateExample.run errorCodeToTypeExample
      [.exec, .closing, .callback (some backendErrorExample), .deliverTerminate]).finishedEmitted
      = 1 ∧
    (openUpdateExample.run errorCodeToTypeExample
      [.exec, .closing, .callback (some backendErrorExample), .deliverTerminate]).hasError
      = false ∧
    (openUpdateExample.run errorCodeToTypeExample
      [.exec, .closing, .callback (some backendErrorExample), .deliverTerminate]).lastError.type
      ≠ .ConnectionError := by
  decide

/-- C26, amended: `closing` clears the connection reference; the completion
callback that follows (result alive) makes no call on the connection and
leaves the error record as it was, and after the queued `terminate` the state
is `Finished`, `finished()` has been emitted once more and `lastError()` and
`hasError()` are what they were before. -/
theorem C26_closed_during_execution (errorCodeToType : Int → ErrorType) (s : UpdateResult)
    (error : Option BackendError) (ha : s.privateAlive = true) (hq : s.q = true) :
    s.driverClosing.driverPrivate = false ∧
    (s.driverClosing.asyncUpdateCallback errorCodeToType error).updateFinishCalls
      = s.updateFinishCalls ∧
    (s.driverClosing.asyncUpdateCallback errorCodeToType error).lastError = s.lastError ∧
    (s.driverClosing.asyncUpdateCallback errorCodeToType error).terminateQueued
      = s.terminateQueued + 1 ∧
    (s.driverClosing.asyncUpdateCallback errorCodeToType error).terminate.state = .Finished ∧
    (s.driverClosing.asyncUpdateCallback errorCodeToType error).terminate.finishedEmitted
      = s.finishedEmitted + 1 ∧
    (s.driverClosing.asyncUpdateCallback errorCodeToType error).terminate.lastError
      = s.lastError ∧
    (s.driverClosing.asyncUpdateCallback errorCodeToType error).terminate.hasError
      = s.hasError ∧
    (s.driverClosing.asyncUpdateCallback errorCodeToType error).terminate.fault = s.fault := by
  have hc : s.driverClosing.asyncUpdateCallback errorCodeToType error
      = { s with driverPrivate := false, warnings := s.warnings + 1,
                 terminateQueued := s.terminateQueued + 1 } := by
    unfold UpdateResult.asyncUpdateCallback UpdateResult.driverClosing
    simp [ha, hq]
  have hq2 : (s.driverClosing.asyncUpdateCallback errorCodeToType error).q = true := by
    rw [hc]; exact hq
  obtain ⟨u1, u2, u3, u4, u5, u6⟩ := UpdateResult.terminate_alive _ hq2
  rw [u1, u2, u3, u4, u5, hc]
  exact ⟨rfl, rfl, rfl, rfl, rfl, rfl, rfl, rfl, rfl⟩

theorem C26_closed_during_execution_witness :
    openUpdateExample.exec.privateAlive = true ∧ openUpdateExample.exec.q = true ∧
    openUpdateExample.exec.driverClosing.driverPrivate = false ∧
    (openUpdateExample.exec.driverClosing.asyncUpdateCallback errorCodeToTypeExample
        (some backendErrorExample)).updateFinishCalls = openUpdateExample.exec.updateFinishCalls ∧
    (openUpdateExample.exec.driverClosing.asyncUpdateCallback errorCodeToTypeExample
        (some backendErrorExample)).lastError = openUpdateExample.exec.lastError ∧
    (openUpdateExample.exec.driverClosing.asyncUpdateCallback errorCodeToTypeExample
        (some backendErrorExample)).terminateQueued = openUpdateExample.exec.terminateQueued + 1 ∧
    (openUpdateExample.exec.driverClosing.asyncUpdateCallback errorCodeToTypeExample
        (some backendErrorExample)).terminate.state = .Finished ∧
    (openUpdateExample.exec.driverClosing.asyncUpdateCallback errorCodeToTypeExample
        (some backendErrorExample)).terminate.finishedEmitted
      = openUpdateExample.exec.finishedEmitted + 1 ∧
    (openUpdateExample.exec.driverClosing.asyncUpdateCallback errorCodeToTypeExample
        (some backendErrorExample)).terminate.lastError = openUpdateExample.exec.lastError ∧
    (openUpdateExample.exec.driverClosing.asyncUpdateCallback errorCodeToTypeExample
        (some backendErrorExample)).terminate.hasError = openUpdateExample.exec.hasError ∧
    (openUpdateExample.exec.driverClosing.asyncUpdateCallback errorCodeToTypeExample
        (some backendErrorExample)).terminate.fault = openUpdateExample.exec.fault :=
  ⟨by decide, by decide,
    C26_closed_during_execution errorCodeToTypeExample openUpdateExample.exec
      (some backendErrorExample) (by decide) (by decide)⟩

/-- C27: `exec()` on an `Idle` result whose connection reference is present
and whose driver is not open starts no update, records a `ConnectionError`
with the error text of the driver, sets the state to `Finished` and emits
`finished()` exactly once. -/
theorem C27_exec_not_open (s : UpdateResult) (hs : s.state = .Idle)
    (hd : s.driverPrivate = true) (ho : s.driverOpen = false) (hq : s.q = true) :
    s.exec.updatesStarted = s.updatesStarted ∧
    s.exec.callbackPending = s.callbackPending ∧
    s.exec.lastError
      = { message := s.driverError, type := .ConnectionError, number := -1 } ∧
    s.exec.hasError = true ∧
    s.exec.state = .Finished ∧
    s.exec.finishedEmitted = s.finishedEmitted + 1 ∧
    s.exec.terminateRuns = s.terminateRuns + 1 ∧
    s.exec.fault = s.fault := by
  have he : s.exec
      = (s.setLastError (QSparqlError.ofType s.driverError .ConnectionError)).terminate := by
    unfold UpdateResult.exec
    simp [hs, hd, ho]
  obtain ⟨u1, u2, u3, u4, u5, u6⟩ := UpdateResult.terminate_alive
    (s.setLastError (QSparqlError.ofType s.driverError .ConnectionError)) hq
  obtain ⟨t1, t2, t3, t4, t5, t6, t7, t8, t9, t10, t11, t12, t13, t14⟩ :=
    UpdateResult.terminate_fields
      (s.setLastError (QSparqlError.ofType s.driverError .ConnectionError))
  rw [he, u1, u2, u3, u4, u5, u6, t11, t4]
  exact ⟨rfl, rfl, rfl, rfl, rfl, rfl, rfl, rfl⟩

theorem C27_exec_not_open_witness :
    notOpenUpdateExample.state = .Idle ∧ notOpenUpdateExample.driverPrivate = true ∧
    notOpenUpdateExample.driverOpen = false ∧ notOpenUpdateExample.q = true ∧
    notOpenUpdateExample.exec.updatesStarted = notOpenUpdateExample.updatesStarted ∧
    notOpenUpdateExample.exec.callbackPending = notOpenUpdateExample.callbackPending ∧
    notOpenUpdateExample.exec.lastError
      = { message := notOpenUpdateExample.driverError, type := .ConnectionError, number := -1 } ∧
    notOpenUpdateExample.exec.hasError = true ∧
    notOpenUpdateExample.exec.state = .Finished ∧
    notOpenUpdateExample.exec.finishedEmitted = notOpenUpdateExample.finishedEmitted + 1 ∧
    notOpenUpdateExample.exec.terminateRuns = notOpenUpdateExample.terminateRuns + 1 ∧
    notOpenUpdateExample.exec.fault = notOpenUpdateExample.fault :=
  ⟨by decide, by decide, by decide, by decide,
    C27_exec_not_open notOpenUpdateExample (by decide) (by decide) (by decide) (by decide)⟩

/-- C28 as stated fails: after `closing` on an `Idle` result, `exec()` leaves
the state `Idle`, records no error and emits nothing, and `waitForFinished()`
returns without finishing it either. -/
theorem C28_exec_after_closing_counterexample :
    (openUpdateExample.run errorCodeToTypeExample [.closing]).state = .Idle ∧
    (openUpdateExample.run errorCodeToTypeExample [.closing]).driverPrivate = false ∧
    (openUpdateExample.run errorCodeToTypeExample [.closing, .exec]).isFinished = false ∧
    (openUpdateExample.run errorCodeToTypeExample [.closing, .exec]).hasError = false ∧
    (openUpdateExample.run errorCodeToTypeExample [.closing, .exec]).finishedEmitted = 0 ∧
    (openUpdateExample.run errorCodeToTypeExample
      [.closing, .exec, .waitForFinished]).isFinished = false := by
  decide

/-- C28, amended: on an `Idle` result whose connection reference has been
cleared, `exec()` changes nothing (the state stays `Idle`, no error is
recorded, nothing is emitted or started), and so does `waitForFinished()`. -/
theorem C28_exec_after_closing_noop (s : UpdateResult) (hs : s.state = .Idle)
    (hd : s.driverPrivate = false) :
    s.exec = s ∧ s.exec.isFinished = false ∧ s.waitForFinished = s := by
  have he : s.exec = s := by
    unfold UpdateResult.exec
    simp [hs, hd]
  refine ⟨he, ?_, ?_⟩
  · rw [he]; simp [UpdateResult.isFinished, hs]
  · unfold UpdateResult.waitForFinished
    simp [UpdateResult.isFinished, hs, hd]

theorem C28_exec_after_closing_noop_witness :
    openUpdateExample.driverClosing.state = .Idle ∧
    openUpdateExample.driverClosing.driverPrivate = false ∧
    openUpdateExample.driverClosing.exec = openUpdateExample.driverClosing ∧
    openUpdateExample.driverClosing.exec.isFinished = false ∧
    openUpdateExample.driverClosing.waitForFinished = openUpdateExample.driverClosing :=
  ⟨by decide, by decide,
    C28_exec_after_closing_noop openUpdateExample.driverClosing (by decide) (by decide)⟩

/-- C29: `waitForFinished()` on a result whose state is `Finished` changes
nothing: the state, the error record, the loop pointer and the emissions
are as before, and the connection is not consulted. -/
theorem C29_waitForFinished_when_finished (s : UpdateResult) (hs : s.state = .Finished) :
    s.waitForFinished = s := by
  unfold UpdateResult.waitForFinished
  simp [UpdateResult.isFinished, hs]

theorem C29_waitForFinished_when_finished_witness :
    notOpenUpdateExample.exec.state = .Finished ∧
    notOpenUpdateExample.exec.waitForFinished = notOpenUpdateExample.exec :=
  ⟨by decide, C29_waitForFinished_when_finished notOpenUpdateExample.exec (by decide)⟩

/-- C30 as stated fails: `exec()` on a new result whose driver is not open
takes the state from `Idle` to `Finished` in one step, and so does
`waitForFinished()`. -/
theorem C30_idle_to_finished_counterexample :
    notOpenUpdateExample.state = .Idle ∧
    (notOpenUpdateExample.step errorCodeToTypeExample .exec).state = .Finished ∧
    (notOpenUpdateExample.step errorCodeToTypeExample .waitForFinished).state = .Finished := by
  decide

/-- C30, amended: in every step that changes the state to `Finished`, after
any sequence of events, either the state before is `Executing`, or the state
before is `Idle` and the step is `exec()` or `waitForFinished()` on a result
whose connection reference is present and whose driver is not open. -/
theorem C30_finished_entered_from (errorCodeToType : Int → ErrorType) (query : QString)
    (driverOpen : Bool) (driverError : QString) (events : List UpdateEvent) (ev : UpdateEvent)
    (hb : ((UpdateResult.new query driverOpen driverError).run errorCodeToType events).state
      ≠ .Finished)
    (ha : (((UpdateResult.new query driverOpen driverError).run errorCodeToType events).step
      errorCodeToType ev).state = .Finished) :
    ((UpdateResult.new query driverOpen driverError).run errorCodeToType events).state
        = .Executing ∨
    (((UpdateResult.new query driverOpen driverError).run errorCodeToType events).state = .Idle ∧
      (ev = .exec ∨ ev = .waitForFinished) ∧
      ((UpdateResult.new query driverOpen driverError).run errorCodeToType events).driverPrivate
        = true ∧
      ((UpdateResult.new query driverOpen driverError).run errorCodeToType events).driverOpen
        = false) := by
  have h2 := UpdateResult.run_idle_quiet errorCodeToType events
    (UpdateResult.new query driverOpen driverError) (fun _ => ⟨rfl, rfl⟩)
  generalize (UpdateResult.new query driverOpen driverError).run errorCodeToType events = s at *
  cases hs : s.state with
  | Executing => exact Or.inl rfl
  | Finished => exact absurd hs hb
  | Idle =>
    right
    refine ⟨rfl, ?_⟩
    cases ev with
    | exec =>
      simp only [UpdateResult.step] at ha
      split_ifs at ha with c
      · rw [UpdateResult.leaveLoop_state] at ha
        unfold UpdateResult.exec at ha
        split_ifs at ha with c1 c2 c3
        · exact absurd ha hb
        · exact absurd ha hb
        · exact ⟨Or.inl rfl, by simpa using c2, by simpa using c3⟩
        · simp [UpdateResult.startUpdate] at ha
      · exact absurd ha hb
    | waitForFinished =>
      simp only [UpdateResult.step] at ha
      split_ifs at ha with c
      · unfold UpdateResult.waitForFinished at ha
        split_ifs at ha with c1 c2 c3 <;>
          first
          | exact absurd ha hb
          | exact ⟨Or.inr rfl, c2, by simpa using c3⟩
      · exact absurd ha hb
    | callback error =>
      simp only [UpdateResult.step] at ha
      split_ifs at ha with c
      · rw [UpdateResult.asyncUpdateCallback_state] at ha
        exact absurd ha hb
      · exact absurd ha hb
    | deliverTerminate =>
      simp only [UpdateResult.step] at ha
      split_ifs at ha with c1 c2
      · exact absurd ha hb
      · exact absurd (h2 hs).2 c1
      · exact absurd ha hb
    | closing =>
      simp only [UpdateResult.step, UpdateResult.driverClosing] at ha
      split_ifs at ha <;> exact absurd ha hb
    | driverOpens =>
      simp only [UpdateResult.step] at ha
      exact absurd ha hb
    | driverNotOpen =>
      simp only [UpdateResult.step] at ha
      exact absurd ha hb
    | destroy =>
      simp only [UpdateResult.step, UpdateResult.destroy] at ha
      split_ifs at ha <;> exact absurd ha hb

theorem C30_finished_entered_from_witness :
    ((UpdateResult.new ['u'] false ['n', 'o']).run errorCodeToTypeExample []).state
      ≠ .Finished ∧
    (((UpdateResult.new ['u'] false ['n', 'o']).run errorCodeToTypeExample []).step
      errorCodeToTypeExample .exec).state = .Finished ∧
    (((UpdateResult.new ['u'] false ['n', 'o']).run errorCodeToTypeExample []).state
        = .Executing ∨
    (((UpdateResult.new ['u'] false ['n', 'o']).run errorCodeToTypeExample []).state = .Idle ∧
      (UpdateEvent.exec = .exec ∨ UpdateEvent.exec = .waitForFinished) ∧
      ((UpdateResult.new ['u'] false ['n', 'o']).run errorCodeToTypeExample []).driverPrivate
        = true ∧
      ((UpdateResult.new ['u'] false ['n', 'o']).run errorCodeToTypeExample []).driverOpen
        = false)) :=
  ⟨by decide, by decide,
    C30_finished_entered_from errorCodeToTypeExample ['u'] false ['n', 'o'] [] .exec
      (by decide) (by decide)⟩

/-! ### The result cursor -/

theorem ResultCursor.next_rows (c : ResultCursor) : c.next.1.rows = c.rows := by
  unfold ResultCursor.next
  cases c.position with
  | BeforeFirst => dsimp only; split_ifs <;> rfl
  | AfterLast => rfl
  | RowIndex i => dsimp only; split_ifs <;> rfl

theorem ResultCursor.afterCalls_rows (m : Nat) (c : ResultCursor) :
    (c.afterCalls m).rows = c.rows := by
  induction m with
  | zero => rfl
  | succ m ih => rw [ResultCursor.afterCalls, ResultCursor.next_rows, ih]

/-- The position of a cursor that starts before the first row, after `m`
calls of `next()`. -/
theorem ResultCursor.afterCalls_position (rows : List QSparqlResultRow) (m : Nat) :
    ((ResultCursor.finished rows).afterCalls m).position =
      (if m = 0 then .BeforeFirst
       else if m ≤ rows.length then .RowIndex (m - 1) else .AfterLast) := by
  induction m with
  | zero => rfl
  | succ m ih =>
    have hr := ResultCursor.afterCalls_rows m (ResultCursor.finished rows)
    have hrows : (ResultCursor.finished rows).rows = rows := rfl
    rw [hrows] at hr
    rw [ResultCursor.afterCalls]
    unfold ResultCursor.next
    rw [ih, hr]
    by_cases h0 : m = 0
    · subst h0
      by_cases hl : 0 < rows.length
      · have h1 : 0 + 1 ≤ rows.length := hl
        simp [hl, h1]
      · have h1 : ¬ (0 + 1 ≤ rows.length) := by omega
        simp [hl, h1]
    · by_cases hm : m ≤ rows.length
      · rw [if_neg h0, if_pos hm]
        dsimp only
        by_cases hl : m - 1 + 1 < rows.length
        · have h1 : m + 1 ≤ rows.length := by omega
          have h2 : m - 1 + 1 = m := by omega
          have h3 : m < rows.length := by omega
          simp [h1, h2, h3]
        · have h1 : ¬ (m + 1 ≤ rows.length) := by omega
          simp [hl, h1]
      · rw [if_neg h0, if_neg hm]
        have h1 : ¬ (m + 1 ≤ rows.length) := by omega
        simp [h1]

/-- The outcome of the call of `next()` that follows `m` calls, on a cursor
that starts before the first row. -/
theorem ResultCursor.afterCalls_next (rows : List QSparqlResultRow) (m : Nat) :
    (((ResultCursor.finished rows).afterCalls m).next).2 = decide (m < rows.length) := by
  have hr := ResultCursor.afterCalls_rows m (ResultCursor.finished rows)
  have hrows : (ResultCursor.finished rows).rows = rows := rfl
  rw [hrows] at hr
  have hp := ResultCursor.afterCalls_position rows m
  unfold ResultCursor.next
  rw [hp, hr]
  by_cases h0 : m = 0
  · subst h0
    by_cases hl : 0 < rows.length <;> simp [hl]
  · by_cases hm : m ≤ rows.length
    · rw [if_neg h0, if_pos hm]
      dsimp only
      by_cases hl : m - 1 + 1 < rows.length
      · have h1 : m < rows.length := by omega
        simp [hl, h1]
      · have h1 : ¬ (m < rows.length) := by omega
        simp [hl, h1]
    · rw [if_neg h0, if_neg hm]
      have h1 : ¬ (m < rows.length) := by omega
      simp [h1]

/-- C31: on the cursor of a finished, error-free select result with `n`
rows of `k` columns, each of the first `n` calls of `next()` returns true
and leaves a current row of `k` bindings; the call after them returns false,
and so does every later one, with the position `AfterLast` and the empty
current row; and the position is not `AfterLast` after any of the first `n`
calls nor before the first call. -/
theorem C31_cursor_exhaustion (rows : List QSparqlResultRow) (k : Nat)
    (hk : ∀ row ∈ rows, row.length = k) :
    (∀ j, j < rows.length →
      (((ResultCursor.finished rows).afterCalls j).next).2 = true ∧
      ((ResultCursor.finished rows).afterCalls (j + 1)).position = .RowIndex j ∧
      ((ResultCursor.finished rows).afterCalls (j + 1)).current.length = k) ∧
    (∀ m, rows.length ≤ m →
      (((ResultCursor.finished rows).afterCalls m).next).2 = false ∧
      ((ResultCursor.finished rows).afterCalls (m + 1)).position = .AfterLast ∧
      ((ResultCursor.finished rows).afterCalls (m + 1)).current = []) ∧
    (∀ j, j ≤ rows.length →
      ((ResultCursor.finished rows).afterCalls j).position ≠ .AfterLast) := by
  refine ⟨?_, ?_, ?_⟩
  · intro j hj
    have hp := ResultCursor.afterCalls_position rows (j + 1)
    have h1 : j + 1 ≤ rows.length := hj
    rw [if_neg (by omega), if_pos h1] at hp
    have hp2 : ((ResultCursor.finished rows).afterCalls (j + 1)).position = .RowIndex j := by
      rw [hp]; simp
    refine ⟨by rw [ResultCursor.afterCalls_next]; simp [hj], hp2, ?_⟩
    unfold ResultCursor.current
    rw [hp2]
    dsimp only
    rw [ResultCursor.afterCalls_rows]
    have hrows : (ResultCursor.finished rows).rows = rows := rfl
    rw [hrows, List.getD_eq_getElem _ _ hj]
    exact hk _ (List.getElem_mem hj)
  · intro m hm
    have hp := ResultCursor.afterCalls_position rows (m + 1)
    rw [if_neg (by omega), if_neg (by omega)] at hp
    refine ⟨by rw [ResultCursor.afterCalls_next]; simp; omega, hp, ?_⟩
    unfold ResultCursor.current
    rw [hp]
  · intro j hj
    rw [ResultCursor.afterCalls_position]
    by_cases h0 : j = 0
    · rw [if_pos h0]; intro h; cases h
    · rw [if_neg h0, if_pos hj]; intro h; cases h

theorem C31_cursor_exhaustion_witness :
    (∀ row ∈ contactRowsExample, row.length = 2) ∧
    (∀ j, j < contactRowsExample.length →
      (((ResultCursor.finished contactRowsExample).afterCalls j).next).2 = true ∧
      ((ResultCursor.finished contactRowsExample).afterCalls (j + 1)).position = .RowIndex j ∧
      ((ResultCursor.finished contactRowsExample).afterCalls (j + 1)).current.length = 2) ∧
    (∀ m, contactRowsExample.length ≤ m →
      (((ResultCursor.finished contactRowsExample).afterCalls m).next).2 = false ∧
      ((ResultCursor.finished contactRowsExample).afterCalls (m + 1)).position = .AfterLast ∧
      ((ResultCursor.finished contactRowsExample).afterCalls (m + 1)).current = []) ∧
    (∀ j, j ≤ contactRowsExample.length →
      ((ResultCursor.finished contactRowsExample).afterCalls j).position ≠ .AfterLast) :=
  ⟨by decide, C31_cursor_exhaustion contactRowsExample 2 (by decide)⟩

/-! ### The datatype URI of a binding -/

/-- C32: `dataTypeUri()` of a literal is the stored datatype URI when that
is not empty, and otherwise the URI inferred from the type of the value
(`Int`: `xsd:integer`, `LongLong`: `xsd:long`, `UInt`: `xsd:unsignedInt`,
`ULongLong`: `xsd:unsignedLong`, `Bool`: `xsd:boolean`, `Double`:
`xsd:double`, `String`: `xsd:string`, `Date`: `xsd:date`, `Time`: `xsd:time`,
`DateTime`: `xsd:dateTime`, `ByteArray`: `xsd:base64Binary`, empty for every
other type); for a binding that is not a literal it is the empty URI, whatever
is stored. -/
theorem C32_dataTypeUri (p : QSparqlBindingPrivate) (v : QVariant) (c : Char) (cs : QString) :
    QSparqlBinding.dataTypeUri
        ⟨{ p with nodetype := .Literal, dataType := ⟨c :: cs⟩ }, v⟩ = ⟨c :: cs⟩ ∧
    (∀ i, QSparqlBinding.dataTypeUri
        ⟨{ p with nodetype := .Literal, dataType := ⟨[]⟩ }, .ofInt i⟩ = xsd "integer") ∧
    (∀ i, QSparqlBinding.dataTypeUri
        ⟨{ p with nodetype := .Literal, dataType := ⟨[]⟩ }, .ofLongLong i⟩ = xsd "long") ∧
    (∀ n, QSparqlBinding.dataTypeUri
        ⟨{ p with nodetype := .Literal, dataType := ⟨[]⟩ }, .ofUInt n⟩ = xsd "unsignedInt") ∧
    (∀ n, QSparqlBinding.dataTypeUri
        ⟨{ p with nodetype := .Literal, dataType := ⟨[]⟩ }, .ofULongLong n⟩
      = xsd "unsignedLong") ∧
    (∀ b, QSparqlBinding.dataTypeUri
        ⟨{ p with nodetype := .Literal, dataType := ⟨[]⟩ }, .ofBool b⟩ = xsd "boolean") ∧
    (∀ x, QSparqlBinding.dataTypeUri
        ⟨{ p with nodetype := .Literal, dataType := ⟨[]⟩ }, .ofDouble x⟩ = xsd "double") ∧
    (∀ s, QSparqlBinding.dataTypeUri
        ⟨{ p with nodetype := .Literal, dataType := ⟨[]⟩ }, .ofString s⟩ = xsd "string") ∧
    (∀ d, QSparqlBinding.dataTypeUri
        ⟨{ p with nodetype := .Literal, dataType := ⟨[]⟩ }, .ofDate d⟩ = xsd "date") ∧
    (∀ t, QSparqlBinding.dataTypeUri
        ⟨{ p with nodetype := .Literal, dataType := ⟨[]⟩ }, .ofTime t⟩ = xsd "time") ∧
    (∀ dt, QSparqlBinding.dataTypeUri
        ⟨{ p with nodetype := .Literal, dataType := ⟨[]⟩ }, .ofDateTime dt⟩ = xsd "dateTime") ∧
    (∀ a, QSparqlBinding.dataTypeUri
        ⟨{ p with nodetype := .Literal, dataType := ⟨[]⟩ }, .ofByteArray a⟩
      = xsd "base64Binary") ∧
    (∀ u, QSparqlBinding.dataTypeUri
        ⟨{ p with nodetype := .Literal, dataType := ⟨[]⟩ }, .ofUrl u⟩ = ⟨[]⟩) ∧
    (∀ tag, QSparqlBinding.dataTypeUri
        ⟨{ p with nodetype := .Literal, dataType := ⟨[]⟩ }, .ofOther tag⟩ = ⟨[]⟩) ∧
    QSparqlBinding.dataTypeUri
        ⟨{ p with nodetype := .Literal, dataType := ⟨[]⟩ }, .invalid⟩ = ⟨[]⟩ ∧
    QSparqlBinding.dataTypeUri ⟨{ p with nodetype := .Uri }, v⟩ = ⟨[]⟩ ∧
    QSparqlBinding.dataTypeUri ⟨{ p with nodetype := .Blank }, v⟩ = ⟨[]⟩ ∧
    QSparqlBinding.dataTypeUri ⟨{ p with nodetype := .Invalid }, v⟩ = ⟨[]⟩ := by
  refine ⟨rfl, fun _ => rfl, fun _ => rfl, fun _ => rfl, fun _ => rfl, fun _ => rfl,
    fun _ => rfl, fun _ => rfl, fun _ => rfl, fun _ => rfl, fun _ => rfl, fun _ => rfl,
    fun _ => rfl, fun _ => rfl, rfl, rfl, rfl, rfl⟩

/-! ### What `extractTimezone` removes -/

theorem zoneMatchesAt_length (s : QString) (h : zoneMatchesAt s = true) : 6 ≤ s.length := by
  match s with
  | [] => simp [zoneMatchesAt] at h
  | [_] => simp [zoneMatchesAt] at h
  | [_, _] => simp [zoneMatchesAt] at h
  | [_, _, _] => simp [zoneMatchesAt] at h
  | [_, _, _, _] => simp [zoneMatchesAt] at h
  | [_, _, _, _, _] => simp [zoneMatchesAt] at h
  | _ :: _ :: _ :: _ :: _ :: _ :: _ => simp

/-- The index that `zoneIndexIn` returns is the position of the leftmost
match of the pattern. -/
theorem zoneIndexIn_some (s : QString) : ∀ ix, zoneIndexIn s = some ix →
    zoneMatchesAt (s.drop ix) = true ∧ ix + 6 ≤ s.length ∧
    ∀ j, j < ix → zoneMatchesAt (s.drop j) = false := by
  induction s with
  | nil => intro ix h; simp [zoneIndexIn] at h
  | cons c cs ih =>
    intro ix h
    unfold zoneIndexIn at h
    by_cases hm : zoneMatchesAt (c :: cs) = true
    · rw [if_pos hm] at h
      have hix : ix = 0 := by cases h; rfl
      subst hix
      exact ⟨hm, by have := zoneMatchesAt_length _ hm; simpa using this, fun j hj => by omega⟩
    · rw [if_neg hm] at h
      cases hz : zoneIndexIn cs with
      | none => rw [hz] at h; simp at h
      | some i =>
        rw [hz] at h
        have hix : ix = i + 1 := by simp at h; omega
        subst hix
        obtain ⟨h1, h2, h3⟩ := ih i hz
        refine ⟨by simpa using h1, by simp; omega, ?_⟩
        intro j hj
        cases j with
        | zero => simpa using hm
        | succ j => simpa using h3 j (by omega)

theorem zoneIndexIn_none (s : QString) : zoneIndexIn s = none →
    ∀ j, zoneMatchesAt (s.drop j) = false := by
  induction s with
  | nil => intro _ j; simp [zoneMatchesAt]
  | cons c cs ih =>
    intro h j
    unfold zoneIndexIn at h
    by_cases hm : zoneMatchesAt (c :: cs) = true
    · rw [if_pos hm] at h; cases h
    · rw [if_neg hm] at h
      cases hz : zoneIndexIn cs with
      | some i => rw [hz] at h; simp at h
      | none =>
        cases j with
        | zero => simpa using hm
        | succ j => simpa using ih hz j

/-- C33 as stated fails: in `12:30:59+02:00` followed by a blank the pattern
does not end the text, and `extractTimezone` removes it all the same; and of
two occurrences it is the first that goes, not the one that ends the text. -/
theorem C33_zone_not_suffix_counterexample :
    extractTimezone "12:30:59+02:00 ".toList = (7200, "12:30:59 ".toList) ∧
    extractTimezone "+01:00 12:30:59-02:00".toList = (3600, " 12:30:59-02:00".toList) := by
  decide

/-- C33, amended: `extractTimezone` either finds no occurrence of the pattern
anywhere and returns 0 with the text unchanged, or removes exactly the six
characters of the leftmost occurrence of the pattern, wherever it lies,
leaving the characters before and after it in place and in order. -/
theorem C33_zone_first_occurrence (s : QString) :
    ((∀ j, zoneMatchesAt (s.drop j) = false) ∧ extractTimezone s = (0, s)) ∨
    (∃ ix, zoneMatchesAt (s.drop ix) = true ∧ (∀ j, j < ix → zoneMatchesAt (s.drop j) = false) ∧
      ix + 6 ≤ s.length ∧ (extractTimezone s).2 = s.take ix ++ s.drop (ix + 6) ∧
      ((extractTimezone s).2).length + 6 = s.length) := by
  cases hz : zoneIndexIn s with
  | none =>
    left
    exact ⟨zoneIndexIn_none s hz, by simp [extractTimezone, hz]⟩
  | some ix =>
    right
    obtain ⟨h1, h2, h3⟩ := zoneIndexIn_some s ix hz
    have he : (extractTimezone s).2 = s.take ix ++ s.drop (ix + 6) := by
      simp [extractTimezone, hz, QString.remove]
    refine ⟨ix, h1, h3, h2, he, ?_⟩
    rw [he]
    simp
    omega

/-! ### The escaped body of a string literal -/

/-- The escape of a character is the character itself, which is then none of
the eight of the table, or a backslash and an escape letter that stands for
the character. -/
theorem escapeChar_cases (c : Char) :
    (escapeChar c = [c] ∧ c ≠ backslash ∧ isRawForbidden c = false) ∨
    (∃ e, escapeChar c = [backslash, e] ∧ isEscapeLetter e = true ∧ unescapeChar e = c ∧
      e ≠ chTab ∧ e ≠ chNewline ∧ e ≠ chReturn ∧ e ≠ chBackspace ∧ e ≠ chFormFeed) := by
  unfold escapeChar
  by_cases h1 : c = chTab
  · right; subst h1; exact ⟨'t', by decide⟩
  by_cases h2 : c = chNewline
  · right; subst h2; exact ⟨'n', by decide⟩
  by_cases h3 : c = chReturn
  · right; subst h3; exact ⟨'r', by decide⟩
  by_cases h4 : c = chBackspace
  · right; subst h4; exact ⟨'b', by decide⟩
  by_cases h5 : c = chFormFeed
  · right; subst h5; exact ⟨'f', by decide⟩
  by_cases h6 : c = dquote
  · right; subst h6; exact ⟨dquote, by decide⟩
  by_cases h7 : c = squote
  · right; subst h7; exact ⟨squote, by decide⟩
  by_cases h8 : c = backslash
  · right; subst h8; exact ⟨backslash, by decide⟩
  left
  refine ⟨by simp [h1, h2, h3, h4, h5, h6, h7, h8], h8, ?_⟩
  simp [isRawForbidden, h1, h2, h3, h4, h5, h6, h7]

theorem unescape_cons_plain (c : Char) (rest : QString) (h : c ≠ backslash) :
    unescape (c :: rest) = c :: unescape rest := by
  cases rest with
  | nil => rfl
  | cons e r => simp [unescape, h]

theorem wellFormedBody_cons_plain (c : Char) (rest : QString) (h : c ≠ backslash)
    (hr : isRawForbidden c = false) : wellFormedBody (c :: rest) = wellFormedBody rest := by
  cases rest with
  | nil => simp [wellFormedBody, h, hr]
  | cons e r => simp [wellFormedBody, h, hr]

/-- Reading back the escaped body gives the string. -/
theorem unescape_escape (s : QString) : unescape (s.flatMap escapeChar) = s := by
  induction s with
  | nil => rfl
  | cons c s ih =>
    rw [List.flatMap_cons]
    rcases escapeChar_cases c with ⟨h1, h2, -⟩ | ⟨e, h1, -, h3, -⟩
    · rw [h1, List.singleton_append, unescape_cons_plain c _ h2, ih]
    · rw [h1]
      show unescape (backslash :: e :: s.flatMap escapeChar) = c :: s
      simp only [unescape, if_true, h3, ih]

theorem wellFormedBody_escape (s : QString) : wellFormedBody (s.flatMap escapeChar) = true := by
  induction s with
  | nil => rfl
  | cons c s ih =>
    rw [List.flatMap_cons]
    rcases escapeChar_cases c with ⟨h1, h2, h3⟩ | ⟨e, h1, h2, -⟩
    · rw [h1, List.singleton_append, wellFormedBody_cons_plain c _ h2 h3, ih]
    · rw [h1]
      show wellFormedBody (backslash :: e :: s.flatMap escapeChar) = true
      simp only [wellFormedBody, if_true, h2, ih, Bool.and_self]

/-- The text of a literal that holds a string: the opening quote, the escaped
body, the closing quote, and a tail that depends on the language tag and the
datatype URI only. -/
theorem toString_ofString (F : QtDoubleOps) (lang : QString) (dt : QUrl) :
    ∃ tail, ∀ s, (literalBinding (.ofString s) lang dt).toString F
      = [dquote] ++ s.flatMap escapeChar ++ ([dquote] ++ tail) := by
  refine ⟨(if !lang.isEmpty then '@' :: lang else [])
    ++ (if !dt.isEmpty then "^^<".toList ++ QString.fromLatin1 dt.toEncoded ++ ['>'] else []), ?_⟩
  intro s
  cases hl : lang.isEmpty <;> cases hd : dt.isEmpty <;>
    simp [QSparqlBinding.toString, literalBinding, literalOf, QSparqlBinding.dataTypeUri, hl, hd]

/-- C34: two literals that hold strings, with the same language tag and the
same datatype URI, and whose `toString()` texts are equal, hold the same
string. -/
theorem C34_escape_injective (F : QtDoubleOps) (lang : QString) (dt : QUrl) (s1 s2 : QString)
    (h : (literalBinding (.ofString s1) lang dt).toString F
      = (literalBinding (.ofString s2) lang dt).toString F) : s1 = s2 := by
  obtain ⟨tail, ht⟩ := toString_ofString F lang dt
  rw [ht s1, ht s2] at h
  have h2 : s1.flatMap escapeChar = s2.flatMap escapeChar :=
    List.append_cancel_left (List.append_cancel_right h)
  have h3 := congrArg unescape h2
  rwa [unescape_escape, unescape_escape] at h3

theorem C34_escape_injective_witness :
    (literalBinding (.ofString [chTab, 'a']) ['e', 'n'] (xsd "string")).toString QtDoubleOps.zero
      = (literalBinding (.ofString [chTab, 'a']) ['e', 'n'] (xsd "string")).toString
          QtDoubleOps.zero ∧
    [chTab, 'a'] = [chTab, 'a'] :=
  ⟨rfl, C34_escape_injective QtDoubleOps.zero ['e', 'n'] (xsd "string") [chTab, 'a']
    [chTab, 'a'] rfl⟩

/-- C35: the text that `toString()` gives for a string literal is a double
quote, the escaped body and a double quote; the body holds no raw tab,
newline, carriage return, backspace or form feed, and read from the left it
is well formed: every backslash starts a two-character escape of the table,
and a double quote or an apostrophe occurs as the second character of such an
escape only. -/
theorem C35_escaped_body_well_formed (F : QtDoubleOps) (s : QString) :
    (literalBinding (.ofString s) [] ⟨[]⟩).toString F
      = [dquote] ++ s.flatMap escapeChar ++ [dquote] ∧
    (∀ c ∈ s.flatMap escapeChar, c ≠ chTab ∧ c ≠ chNewline ∧ c ≠ chReturn ∧ c ≠ chBackspace
      ∧ c ≠ chFormFeed) ∧
    wellFormedBody (s.flatMap escapeChar) = true := by
  refine ⟨by simp [QSparqlBinding.toString, literalBinding, literalOf, QUrl.isEmpty], ?_,
    wellFormedBody_escape s⟩
  intro c hc
  rw [List.mem_flatMap] at hc
  obtain ⟨a, -, ha⟩ := hc
  rcases escapeChar_cases a with ⟨h1, -, h3⟩ | ⟨e, h1, -, -, h4⟩
  · rw [h1] at ha
    have hca : c = a := by simpa using ha
    subst hca
    simp only [isRawForbidden, Bool.or_eq_false_iff, beq_eq_false_iff_ne, ne_eq] at h3
    tauto
  · rw [h1] at ha
    have hca : c = backslash ∨ c = e := by simpa using ha
    rcases hca with hb | he
    · subst hb; decide
    · subst he; exact h4

/-! ### The order of the phases and the nested event loop -/

theorem UpdateResult.exec_rank (s : UpdateResult) : s.state.rank ≤ s.exec.state.rank := by
  unfold UpdateResult.exec
  split_ifs with c1 c2 c3
  · exact Nat.le_refl _
  · exact Nat.le_refl _
  · rw [(UpdateResult.terminate_fields _).1]
    cases s.state <;> decide
  · have hi : s.state = .Idle := by simpa using c1
    rw [hi]
    exact Nat.zero_le _

theorem UpdateResult.waitForFinished_rank (s : UpdateResult) :
    s.state.rank ≤ s.waitForFinished.state.rank := by
  unfold UpdateResult.waitForFinished
  split_ifs
  · exact Nat.le_refl _
  · rw [(UpdateResult.terminate_fields _).1]
    cases s.state <;> decide
  · exact Nat.le_refl _
  · exact Nat.le_refl _
  · exact Nat.le_refl _

theorem UpdateResult.terminate_rank (s : UpdateResult) :
    s.state.rank ≤ s.terminate.state.rank := by
  rw [(UpdateResult.terminate_fields s).1]
  cases s.state <;> decide

theorem UpdateResult.step_rank (ect : Int → ErrorType) (s : UpdateResult) (ev : UpdateEvent) :
    s.state.rank ≤ (s.step ect ev).state.rank := by
  cases ev with
  | exec =>
    simp only [UpdateResult.step]
    split_ifs
    · rw [UpdateResult.leaveLoop_state]; exact s.exec_rank
    · exact Nat.le_refl _
  | waitForFinished =>
    simp only [UpdateResult.step]
    split_ifs
    · exact s.waitForFinished_rank
    · exact Nat.le_refl _
  | callback error =>
    simp only [UpdateResult.step]
    split_ifs
    · rw [UpdateResult.asyncUpdateCallback_state]
    · exact Nat.le_refl _
  | deliverTerminate =>
    simp only [UpdateResult.step]
    split_ifs
    · exact Nat.le_refl _
    · rw [UpdateResult.leaveLoop_state]
      exact UpdateResult.terminate_rank { s with terminateQueued := s.terminateQueued - 1 }
    · exact Nat.le_refl _
  | closing =>
    simp only [UpdateResult.step, UpdateResult.driverClosing]
    split_ifs <;> exact Nat.le_refl _
  | driverOpens => exact Nat.le_refl _
  | driverNotOpen => exact Nat.le_refl _
  | destroy =>
    simp only [UpdateResult.step, UpdateResult.destroy]
    split_ifs <;> exact Nat.le_refl _

theorem UpdateResult.leaveLoop_updatesStarted (a b : UpdateResult) :
    (UpdateResult.leaveLoop a b).updatesStarted = b.updatesStarted := by
  unfold UpdateResult.leaveLoop
  split_ifs <;> rfl

theorem UpdateResult.exec_started (s : UpdateResult)
    (h1 : s.state = .Idle → s.updatesStarted = []) (h2 : s.updatesStarted.length ≤ 1) :
    (s.exec.state = .Idle → s.exec.updatesStarted = []) ∧ s.exec.updatesStarted.length ≤ 1 := by
  unfold UpdateResult.exec
  split_ifs with c1 c2 c3
  · exact ⟨h1, h2⟩
  · exact ⟨h1, h2⟩
  · obtain ⟨t1, -, -, -, -, -, -, -, -, -, t11, -⟩ := UpdateResult.terminate_fields
      (s.setLastError (QSparqlError.ofType s.driverError .ConnectionError))
    rw [t1, t11]
    exact ⟨fun h => (by cases h), h2⟩
  · have hi : s.state = .Idle := by simpa using c1
    simp [UpdateResult.startUpdate, h1 hi]

/-- An update is started from `Idle` only, and at most once. -/
theorem UpdateResult.step_started (ect : Int → ErrorType) (s : UpdateResult) (ev : UpdateEvent)
    (h1 : s.state = .Idle → s.updatesStarted = []) (h2 : s.updatesStarted.length ≤ 1) :
    ((s.step ect ev).state = .Idle → (s.step ect ev).updatesStarted = []) ∧
    (s.step ect ev).updatesStarted.length ≤ 1 := by
  have hmono := UpdateResult.step_rank ect s ev
  have hkeep : (s.step ect ev).updatesStarted = s.updatesStarted →
      ((s.step ect ev).state = .Idle → (s.step ect ev).updatesStarted = []) ∧
      (s.step ect ev).updatesStarted.length ≤ 1 := by
    intro hk
    rw [hk]
    refine ⟨fun hi => h1 ?_, h2⟩
    rw [hi] at hmono
    cases hs : s.state
    · rfl
    · rw [hs] at hmono; exact absurd hmono (by decide)
    · rw [hs] at hmono; exact absurd hmono (by decide)
  cases ev with
  | exec =>
    simp only [UpdateResult.step]
    split_ifs
    · rw [UpdateResult.leaveLoop_state, UpdateResult.leaveLoop_updatesStarted]
      exact UpdateResult.exec_started s h1 h2
    · exact ⟨h1, h2⟩
  | waitForFinished =>
    apply hkeep
    simp only [UpdateResult.step]
    split_ifs
    · unfold UpdateResult.waitForFinished
      split_ifs <;> first | rfl | exact (UpdateResult.terminate_fields _).2.2.2.2.2.2.2.2.2.2.1
    · rfl
  | callback error =>
    apply hkeep
    simp only [UpdateResult.step]
    split_ifs
    · unfold UpdateResult.asyncUpdateCallback
      split_ifs
      · rfl
      · rfl
      · cases error <;> rfl
      · rfl
    · rfl
  | deliverTerminate =>
    apply hkeep
    simp only [UpdateResult.step]
    split_ifs
    · rfl
    · unfold UpdateResult.leaveLoop
      split_ifs <;> exact (UpdateResult.terminate_fields _).2.2.2.2.2.2.2.2.2.2.1
    · rfl
  | closing =>
    apply hkeep
    simp only [UpdateResult.step, UpdateResult.driverClosing]
    split_ifs <;> rfl
  | driverOpens => exact hkeep rfl
  | driverNotOpen => exact hkeep rfl
  | destroy =>
    apply hkeep
    simp only [UpdateResult.step, UpdateResult.destroy]
    split_ifs <;> rfl

theorem UpdateResult.run_started (ect : Int → ErrorType) (events : List UpdateEvent) :
    ∀ s : UpdateResult, (s.state = .Idle → s.updatesStarted = []) → s.updatesStarted.length ≤ 1 →
      ((s.run ect events).state = .Idle → (s.run ect events).updatesStarted = []) ∧
      (s.run ect events).updatesStarted.length ≤ 1 := by
  induction events with
  | nil => intro s h1 h2; exact ⟨h1, h2⟩
  | cons ev rest ih =>
    intro s h1 h2
    obtain ⟨a, b⟩ := UpdateResult.step_started ect s ev h1 h2
    exact ih _ a b

/-- C36: with the order `Idle` before `Executing` before `Finished`, no
event on the update result and none of `exec()`, `waitForFinished()`,
`terminate()`, the completion callback, `driverClosing()` and
`checkConnection()` decreases the phase; `Finished` is kept by every event;
along every sequence of events `startUpdate` runs at most once; and
`startUpdate`, which sets `Executing`, is run by `exec()` in the state `Idle`
only. -/
theorem C36_phase_monotone (errorCodeToType : Int → ErrorType) (s : UpdateResult)
    (ev : UpdateEvent) (error : Option BackendError) (connection : Bool) (errorMsg : QString)
    (query : QString) (driverOpen : Bool) (driverError : QString) (events : List UpdateEvent) :
    s.state.rank ≤ (s.step errorCodeToType ev).state.rank ∧
    s.state.rank ≤ s.exec.state.rank ∧
    s.state.rank ≤ s.waitForFinished.state.rank ∧
    s.state.rank ≤ s.terminate.state.rank ∧
    s.state.rank ≤ (s.asyncUpdateCallback errorCodeToType error).state.rank ∧
    s.state.rank ≤ s.driverClosing.state.rank ∧
    s.state.rank ≤ (s.checkConnection connection errorMsg).1.state.rank ∧
    (s.state = .Finished → (s.step errorCodeToType ev).state = .Finished) ∧
    ((UpdateResult.new query driverOpen driverError).run errorCodeToType
      events).updatesStarted.length ≤ 1 ∧
    (s.startUpdate query).state = .Executing ∧
    (s.exec.updatesStarted ≠ s.updatesStarted →
      s.state = .Idle ∧ s.exec = s.startUpdate s.query) := by
  have hstep := UpdateResult.step_rank errorCodeToType s ev
  refine ⟨hstep, s.exec_rank, s.waitForFinished_rank, s.terminate_rank, ?_, Nat.le_refl _, ?_, ?_,
    ?_, rfl, ?_⟩
  rotate_right
  · intro hne
    unfold UpdateResult.exec at hne ⊢
    split_ifs at hne ⊢ with c1 c2 c3
    · exact absurd rfl hne
    · exact absurd rfl hne
    · exact absurd (UpdateResult.terminate_fields _).2.2.2.2.2.2.2.2.2.2.1 hne
    · exact ⟨by simpa using c1, rfl⟩
  · rw [UpdateResult.asyncUpdateCallback_state]
  · unfold UpdateResult.checkConnection
    split_ifs <;> exact Nat.le_refl _
  · intro hf
    rw [hf] at hstep
    cases hs : (s.step errorCodeToType ev).state
    · rw [hs] at hstep; exact absurd hstep (by decide)
    · rw [hs] at hstep; exact absurd hstep (by decide)
    · rfl
  · exact (UpdateResult.run_started errorCodeToType events _ (fun _ => rfl)
      (by simp [UpdateResult.new])).2

/-- C37 as stated fails: `waitForFinished()` on a new result whose driver is
open, before any `exec()`, sets the loop pointer and blocks with the state
`Idle`. -/
theorem C37_loop_entered_when_idle_counterexample :
    openUpdateExample.state = .Idle ∧ openUpdateExample.loop = false ∧
    openUpdateExample.waitForFinished.loop = true ∧
    openUpdateExample.waitForFinished.state = .Idle ∧
    (openUpdateExample.step errorCodeToTypeExample .waitForFinished).loop = true := by
  decide

/-- C37, amended: `waitForFinished()` reaches its nested event loop exactly
when the state is not `Finished` and either the connection reference is
present with the driver open (the state is then `Idle` or `Executing`), or
the reference has been cleared and the state is `Executing`; in the state
`Idle` it returns without blocking exactly when the reference has been
cleared, and then nothing changes, or the driver is not open, and then it
records the `ConnectionError` with the error text of the driver, sets the
state to `Finished` and emits `finished()`. -/
theorem C37_loop_entered_iff (s : UpdateResult) (hl : s.loop = false) :
    (s.waitForFinished.loop = true ↔
      (s.state ≠ .Finished ∧ s.driverPrivate = true ∧ s.driverOpen = true) ∨
      (s.state = .Executing ∧ s.driverPrivate = false)) ∧
    (s.state = .Idle →
      (s.waitForFinished.loop = false ↔ s.driverPrivate = false ∨ s.driverOpen = false)) ∧
    (s.state = .Idle → s.driverPrivate = false → s.waitForFinished = s) ∧
    (s.state = .Idle → s.driverPrivate = true → s.driverOpen = false →
      s.waitForFinished.state = .Finished ∧
      s.waitForFinished.lastError
        = { message := s.driverError, type := .ConnectionError, number := -1 } ∧
      s.waitForFinished.hasError = true ∧
      s.waitForFinished.terminateRuns = s.terminateRuns + 1 ∧
      s.waitForFinished.updatesStarted = s.updatesStarted ∧
      (s.q = true → s.waitForFinished.finishedEmitted = s.finishedEmitted + 1 ∧
        s.waitForFinished.fault = s.fault)) := by
  have ht : ∀ t : UpdateResult, t.terminate.loop = t.loop := fun t =>
    (UpdateResult.terminate_fields t).2.2.2.2.2.2.2.2.2.2.2.2.1
  have key : s.waitForFinished.loop = true ↔
      (s.state ≠ .Finished ∧ s.driverPrivate = true ∧ s.driverOpen = true) ∨
      (s.state = .Executing ∧ s.driverPrivate = false) := by
    unfold UpdateResult.waitForFinished
    cases hs : s.state <;> cases hd : s.driverPrivate <;> cases ho : s.driverOpen <;>
      simp [UpdateResult.isFinished, hs, hd, ho, hl, ht, UpdateResult.setLastError]
  refine ⟨key, ?_, ?_, ?_⟩
  · intro hi
    have hb : s.waitForFinished.loop = false ↔ ¬ (s.waitForFinished.loop = true) := by
      cases s.waitForFinished.loop <;> simp
    rw [hb, key]
    cases hd : s.driverPrivate <;> cases ho : s.driverOpen <;> simp [hi]
  · intro hi hd
    unfold UpdateResult.waitForFinished
    simp [UpdateResult.isFinished, hi, hd]
  · intro hi hd ho
    have hw : s.waitForFinished
        = (s.setLastError (QSparqlError.ofType s.driverError .ConnectionError)).terminate := by
      unfold UpdateResult.waitForFinished
      simp [UpdateResult.isFinished, hi, hd, ho]
    obtain ⟨t1, t2, t3, t4, t5, t6, t7, t8, t9, t10, t11, t12, t13, t14⟩ :=
      UpdateResult.terminate_fields
        (s.setLastError (QSparqlError.ofType s.driverError .ConnectionError))
    rw [hw]
    refine ⟨t1, t12, ?_, t2, t11, ?_⟩
    · unfold UpdateResult.hasError; rw [t12]; rfl
    · intro hq
      obtain ⟨-, u2, -, -, u5, -⟩ := UpdateResult.terminate_alive
        (s.setLastError (QSparqlError.ofType s.driverError .ConnectionError)) hq
      exact ⟨u2, u5⟩

theorem C37_loop_entered_iff_witness :
    notOpenUpdateExample.loop = false ∧
    ((notOpenUpdateExample.waitForFinished.loop = true ↔
      (notOpenUpdateExample.state ≠ .Finished ∧ notOpenUpdateExample.driverPrivate = true ∧
        notOpenUpdateExample.driverOpen = true) ∨
      (notOpenUpdateExample.state = .Executing ∧ notOpenUpdateExample.driverPrivate = false)) ∧
    (notOpenUpdateExample.state = .Idle →
      (notOpenUpdateExample.waitForFinished.loop = false ↔
        notOpenUpdateExample.driverPrivate = false ∨ notOpenUpdateExample.driverOpen = false)) ∧
    (notOpenUpdateExample.state = .Idle → notOpenUpdateExample.driverPrivate = false →
      notOpenUpdateExample.waitForFinished = notOpenUpdateExample) ∧
    (notOpenUpdateExample.state = .Idle → notOpenUpdateExample.driverPrivate = true →
      notOpenUpdateExample.driverOpen = false →
      notOpenUpdateExample.waitForFinished.state = .Finished ∧
      notOpenUpdateExample.waitForFinished.lastError
        = { message := notOpenUpdateExample.driverError, type := .ConnectionError,
            number := -1 } ∧
      notOpenUpdateExample.waitForFinished.hasError = true ∧
      notOpenUpdateExample.waitForFinished.terminateRuns
        = notOpenUpdateExample.terminateRuns + 1 ∧
      notOpenUpdateExample.waitForFinished.updatesStarted = notOpenUpdateExample.updatesStarted ∧
      (notOpenUpdateExample.q = true →
        notOpenUpdateExample.waitForFinished.finishedEmitted
          = notOpenUpdateExample.finishedEmitted + 1 ∧
        notOpenUpdateExample.waitForFinished.fault = notOpenUpdateExample.fault))) :=
  ⟨by decide, C37_loop_entered_iff notOpenUpdateExample (by decide)⟩

/-! ### Coercion of booleans and integers -/

theorem toInt_ne_zero_iff (x : QString) :
    QString.toInt x ≠ 0 ↔ ∃ v, QString.toIntOk x = some v ∧ v ≠ 0 := by
  unfold QString.toInt
  cases h : QString.toIntOk x with
  | none => simp
  | some v => simp

/-- C38: `setValue(x, xsd:boolean)` stores the boolean true exactly when the
lower-cased `x` is `true` or `yes`, or `x` parses as a 32-bit integer
different from 0, and the boolean false for every other `x`, among them
`false`, `no`, the empty string and a text that is not a number. -/
theorem C38_boolean_coercion (F : QtDoubleOps) (b : QSparqlBinding) (x : QString) :
    ((b.setValueTyped F x (xsd "boolean")).val = .ofBool true ↔
      (QString.toLower x = "true".toList ∨ QString.toLower x = "yes".toList ∨
        ∃ v, QString.toIntOk x = some v ∧ v ≠ 0)) ∧
    ((b.setValueTyped F x (xsd "boolean")).val = .ofBool false ↔
      ¬ (QString.toLower x = "true".toList ∨ QString.toLower x = "yes".toList ∨
        ∃ v, QString.toIntOk x = some v ∧ v ≠ 0)) ∧
    (b.setValueTyped F "TRUE".toList (xsd "boolean")).val = .ofBool true ∧
    (b.setValueTyped F "Yes".toList (xsd "boolean")).val = .ofBool true ∧
    (b.setValueTyped F "-7".toList (xsd "boolean")).val = .ofBool true ∧
    (b.setValueTyped F "false".toList (xsd "boolean")).val = .ofBool false ∧
    (b.setValueTyped F "no".toList (xsd "boolean")).val = .ofBool false ∧
    (b.setValueTyped F [] (xsd "boolean")).val = .ofBool false ∧
    (b.setValueTyped F "0".toList (xsd "boolean")).val = .ofBool false ∧
    (b.setValueTyped F "4294967296".toList (xsd "boolean")).val = .ofBool false ∧
    (b.setValueTyped F "maybe".toList (xsd "boolean")).val = .ofBool false := by
  have hex := toInt_ne_zero_iff x
  have hval : ∀ y : QString, (b.setValueTyped F y (xsd "boolean")).val
      = .ofBool (QString.toLower y == "true".toList || QString.toLower y == "yes".toList
          || QString.toInt y != 0) := by
    intro y; rw [setValueTyped_boolean]
  have hcond : (QString.toLower x == "true".toList || QString.toLower x == "yes".toList
      || QString.toInt x != 0) = true ↔
      (QString.toLower x = "true".toList ∨ QString.toLower x = "yes".toList ∨
        ∃ v, QString.toIntOk x = some v ∧ v ≠ 0) := by
    rw [← hex]
    simp [Bool.or_eq_true, or_assoc]
  refine ⟨?_, ?_, ?_, ?_, ?_, ?_, ?_, ?_, ?_, ?_, ?_⟩
  · rw [hval, ← hcond]
    simp
  · rw [hval, ← hcond]
    simp
  all_goals (rw [hval]; decide)

theorem foldl_digits_eq_ofDigits (ds : List Nat) :
    ds.foldl (fun a d => a * 10 + d) 0 = Nat.ofDigits 10 ds.reverse := by
  rw [Nat.ofDigits_eq_foldr, List.foldr_reverse]
  congr 1
  funext a d
  simp [Nat.mul_comm, Nat.add_comm]

theorem parseUnsignedBody_digits (ds : List Nat) (hne : ds ≠ []) (hlt : ∀ d ∈ ds, d < 10) :
    parseUnsignedBody (ds.map digitChar) = some (Nat.ofDigits 10 ds.reverse) := by
  cases ds with
  | nil => exact absurd rfl hne
  | cons d ds =>
    have hd : d < 10 := hlt d (by simp)
    have h := parseDigits_map (d :: ds) 0 hlt
    rw [foldl_digits_eq_ofDigits] at h
    simp only [List.map_cons] at h ⊢
    simp only [parseUnsignedBody, digitChar_isDigit d hd, if_true]
    exact h

theorem digits_head (ds : List Nat) (hne : ds ≠ []) (hlt : ∀ d ∈ ds, d < 10) :
    ∃ d rest, d < 10 ∧ ds.map digitChar = digitChar d :: rest := by
  cases ds with
  | nil => exact absurd rfl hne
  | cons d ds => exact ⟨d, ds.map digitChar, hlt d (by simp), rfl⟩

/-- `qstrtoll` reads the integer that a decimal lexical denotes. -/
theorem parseSigned_decimalLexical (sign : LexSign) (ds : List Nat) (hne : ds ≠ [])
    (hlt : ∀ d ∈ ds, d < 10) :
    parseSigned (decimalLexical sign ds) = some (decimalLexicalValue sign ds) := by
  have hb := parseUnsignedBody_digits ds hne hlt
  obtain ⟨d, rest, hd, heq⟩ := digits_head ds hne hlt
  cases sign with
  | none =>
    rw [heq] at hb
    simp [decimalLexical, decimalLexicalValue, LexSign.text, heq, parseSigned, List.dropWhile,
      digitChar_not_space d hd, digitChar_ne_minus d hd, digitChar_ne_plus d hd, hb]
  | plus =>
    have hsp : isSpace '+' = false := by decide
    have hpm : ('+' : Char) ≠ '-' := by decide
    simp [decimalLexical, decimalLexicalValue, LexSign.text, parseSigned, List.dropWhile, hsp,
      hpm, hb]
  | minus =>
    have hsp : isSpace '-' = false := by decide
    simp [decimalLexical, decimalLexicalValue, LexSign.text, parseSigned, List.dropWhile, hsp, hb]

/-- `qstrtoull` reads the number of a decimal lexical without a minus sign
and refuses one with a minus sign. -/
theorem parseUnsigned_decimalLexical (sign : LexSign) (ds : List Nat) (hne : ds ≠ [])
    (hlt : ∀ d ∈ ds, d < 10) :
    parseUnsigned (decimalLexical sign ds)
      = if sign = .minus then none else some (Nat.ofDigits 10 ds.reverse) := by
  have hb := parseUnsignedBody_digits ds hne hlt
  obtain ⟨d, rest, hd, heq⟩ := digits_head ds hne hlt
  cases sign with
  | none =>
    rw [heq] at hb
    simp [decimalLexical, LexSign.text, heq, parseUnsigned, List.dropWhile,
      digitChar_not_space d hd, digitChar_ne_minus d hd, digitChar_ne_plus d hd, hb]
  | plus =>
    have hsp : isSpace '+' = false := by decide
    have hpm : ('+' : Char) ≠ '-' := by decide
    simp [decimalLexical, LexSign.text, parseUnsigned, List.dropWhile, hsp, hpm, hb]
  | minus =>
    have hsp : isSpace '-' = false := by decide
    simp [decimalLexical, LexSign.text, parseUnsigned, List.dropWhile, hsp]

theorem toInt_decimalLexical (sign : LexSign) (ds : List Nat) (hne : ds ≠ [])
    (hlt : ∀ d ∈ ds, d < 10) :
    QString.toInt (decimalLexical sign ds)
      = if -2147483648 ≤ decimalLexicalValue sign ds ∧ decimalLexicalValue sign ds ≤ 2147483647
        then decimalLexicalValue sign ds else 0 := by
  unfold QString.toInt QString.toIntOk QString.toLongLongOk
  rw [parseSigned_decimalLexical sign ds hne hlt]
  generalize decimalLexicalValue sign ds = n
  by_cases h64 : -9223372036854775808 ≤ n ∧ n ≤ 9223372036854775807
  · by_cases h32 : -2147483648 ≤ n ∧ n ≤ 2147483647
    · have hno : ¬ (n < -2147483648 ∨ n > 2147483647) := by omega
      simp only [h64, and_self, if_true, hno, if_false, Option.getD_some, h32]
    · have hyes : n < -2147483648 ∨ n > 2147483647 := by omega
      simp only [h64, and_self, if_true, hyes, Option.getD_none, h32, if_false]
  · have h32 : ¬ (-2147483648 ≤ n ∧ n ≤ 2147483647) := by omega
    simp only [h64, if_false, Option.getD_none, h32]

theorem toLongLong_decimalLexical (sign : LexSign) (ds : List Nat) (hne : ds ≠ [])
    (hlt : ∀ d ∈ ds, d < 10) :
    QString.toLongLong (decimalLexical sign ds)
      = if -9223372036854775808 ≤ decimalLexicalValue sign ds
          ∧ decimalLexicalValue sign ds ≤ 9223372036854775807
        then decimalLexicalValue sign ds else 0 := by
  unfold QString.toLongLong QString.toLongLongOk
  rw [parseSigned_decimalLexical sign ds hne hlt]
  generalize decimalLexicalValue sign ds = n
  by_cases h64 : -9223372036854775808 ≤ n ∧ n ≤ 9223372036854775807
  · simp only [h64, and_self, if_true, Option.getD_some]
  · simp only [h64, if_false, Option.getD_none]

theorem toUInt_decimalLexical (sign : LexSign) (ds : List Nat) (hne : ds ≠ [])
    (hlt : ∀ d ∈ ds, d < 10) :
    QString.toUInt (decimalLexical sign ds)
      = if 0 ≤ decimalLexicalValue sign ds ∧ decimalLexicalValue sign ds < 4294967296
        then (decimalLexicalValue sign ds).toNat else 0 := by
  unfold QString.toUInt QString.toUIntOk QString.toULongLongOk
  rw [parseUnsigned_decimalLexical sign ds hne hlt]
  generalize hv : Nat.ofDigits 10 ds.reverse = v
  cases sign with
  | minus =>
    simp only [if_true, Option.getD_none, decimalLexicalValue, hv]
    split_ifs with h
    · omega
    · rfl
  | none =>
    simp only [decimalLexicalValue, hv, if_false, reduceCtorEq]
    by_cases h64 : v ≤ 18446744073709551615
    · by_cases h32 : v > 4294967295
      · have hn : ¬ (0 ≤ (v : Int) ∧ (v : Int) < 4294967296) := by omega
        simp only [h64, if_true, h32, Option.getD_none, hn, if_false]
      · have hy : 0 ≤ (v : Int) ∧ (v : Int) < 4294967296 := by omega
        simp only [h64, if_true, h32, if_false, Option.getD_some, hy, and_self, Int.toNat_ofNat]
    · have hn : ¬ (0 ≤ (v : Int) ∧ (v : Int) < 4294967296) := by omega
      simp only [h64, if_false, Option.getD_none, hn]
  | plus =>
    simp only [decimalLexicalValue, hv, if_false, reduceCtorEq]
    by_cases h64 : v ≤ 18446744073709551615
    · by_cases h32 : v > 4294967295
      · have hn : ¬ (0 ≤ (v : Int) ∧ (v : Int) < 4294967296) := by omega
        simp only [h64, if_true, h32, Option.getD_none, hn, if_false]
      · have hy : 0 ≤ (v : Int) ∧ (v : Int) < 4294967296 := by omega
        simp only [h64, if_true, h32, if_false, Option.getD_some, hy, and_self, Int.toNat_ofNat]
    · have hn : ¬ (0 ≤ (v : Int) ∧ (v : Int) < 4294967296) := by omega
      simp only [h64, if_false, Option.getD_none, hn]

/-- C39: for a decimal lexical (an optional sign and at least one digit)
that denotes the integer `n`, `setValue(lexical, u)` stores `n` for `u` one of
`xsd:int`, `xsd:integer` and `xsd:short` when `n` is in the signed 32-bit
range, for `xsd:long` when `n` is in the signed 64-bit range, and for
`xsd:nonNegativeInteger` when `0 ≤ n < 2^32`; outside the respective range it
stores 0. -/
theorem C39_integer_coercion (F : QtDoubleOps) (b : QSparqlBinding) (sign : LexSign)
    (digits : List Nat) (hne : digits ≠ []) (hlt : ∀ d ∈ digits, d < 10) :
    (b.setValueTyped F (decimalLexical sign digits) (xsd "int")).val
      = .ofInt (if -2147483648 ≤ decimalLexicalValue sign digits
          ∧ decimalLexicalValue sign digits ≤ 2147483647
        then decimalLexicalValue sign digits else 0) ∧
    (b.setValueTyped F (decimalLexical sign digits) (xsd "integer")).val
      = .ofInt (if -2147483648 ≤ decimalLexicalValue sign digits
          ∧ decimalLexicalValue sign digits ≤ 2147483647
        then decimalLexicalValue sign digits else 0) ∧
    (b.setValueTyped F (decimalLexical sign digits) (xsd "short")).val
      = .ofInt (if -2147483648 ≤ decimalLexicalValue sign digits
          ∧ decimalLexicalValue sign digits ≤ 2147483647
        then decimalLexicalValue sign digits else 0) ∧
    (b.setValueTyped F (decimalLexical sign digits) (xsd "long")).val
      = .ofLongLong (if -9223372036854775808 ≤ decimalLexicalValue sign digits
          ∧ decimalLexicalValue sign digits ≤ 9223372036854775807
        then decimalLexicalValue sign digits else 0) ∧
    (b.setValueTyped F (decimalLexical sign digits) (xsd "nonNegativeInteger")).val
      = .ofUInt (if 0 ≤ decimalLexicalValue sign digits
          ∧ decimalLexicalValue sign digits < 4294967296
        then (decimalLexicalValue sign digits).toNat else 0) := by
  rw [setValueTyped_int, setValueTyped_integer, setValueTyped_short, setValueTyped_long,
    setValueTyped_nonNegativeInteger]
  dsimp only
  rw [toInt_decimalLexical sign digits hne hlt, toLongLong_decimalLexical sign digits hne hlt,
    toUInt_decimalLexical sign digits hne hlt]
  exact ⟨rfl, rfl, rfl, rfl, rfl⟩

theorem C39_integer_coercion_witness :
    ([0, 4, 2] : List Nat) ≠ [] ∧ (∀ d ∈ ([0, 4, 2] : List Nat), d < 10) ∧
    ((QSparqlBinding.newTyped [] .Invalid).setValueTyped QtDoubleOps.zero
        (decimalLexical .minus [0, 4, 2]) (xsd "int")).val
      = .ofInt (if -2147483648 ≤ decimalLexicalValue .minus [0, 4, 2]
          ∧ decimalLexicalValue .minus [0, 4, 2] ≤ 2147483647
        then decimalLexicalValue .minus [0, 4, 2] else 0) ∧
    ((QSparqlBinding.newTyped [] .Invalid).setValueTyped QtDoubleOps.zero
        (decimalLexical .minus [0, 4, 2]) (xsd "integer")).val
      = .ofInt (if -2147483648 ≤ decimalLexicalValue .minus [0, 4, 2]
          ∧ decimalLexicalValue .minus [0, 4, 2] ≤ 2147483647
        then decimalLexicalValue .minus [0, 4, 2] else 0) ∧
    ((QSparqlBinding.newTyped [] .Invalid).setValueTyped QtDoubleOps.zero
        (decimalLexical .minus [0, 4, 2]) (xsd "short")).val
      = .ofInt (if -2147483648 ≤ decimalLexicalValue .minus [0, 4, 2]
          ∧ decimalLexicalValue .minus [0, 4, 2] ≤ 2147483647
        then decimalLexicalValue .minus [0, 4, 2] else 0) ∧
    ((QSparqlBinding.newTyped [] .Invalid).setValueTyped QtDoubleOps.zero
        (decimalLexical .minus [0, 4, 2]) (xsd "long")).val
      = .ofLongLong (if -9223372036854775808 ≤ decimalLexicalValue .minus [0, 4, 2]
          ∧ decimalLexicalValue .minus [0, 4, 2] ≤ 9223372036854775807
        then decimalLexicalValue .minus [0, 4, 2] else 0) ∧
    ((QSparqlBinding.newTyped [] .Invalid).setValueTyped QtDoubleOps.zero
        (decimalLexical .minus [0, 4, 2]) (xsd "nonNegativeInteger")).val
      = .ofUInt (if 0 ≤ decimalLexicalValue .minus [0, 4, 2]
          ∧ decimalLexicalValue .minus [0, 4, 2] < 4294967296
        then (decimalLexicalValue .minus [0, 4, 2]).toNat else 0) :=
  ⟨by decide, by decide,
    C39_integer_coercion QtDoubleOps.zero (QSparqlBinding.newTyped [] .Invalid) .minus [0, 4, 2]
      (by decide) (by decide)⟩

/-- Instances of the coercion of integers: a lexical with a sign and leading
zeroes, one beyond 32 bits, and a negative one read as a non-negative
integer. -/
theorem integer_coercion_examples :
    QString.toInt "-042".toList = -42 ∧ QString.toInt "+7".toList = 7 ∧
    QString.toInt "2147483648".toList = 0 ∧ QString.toLongLong "2147483648".toList = 2147483648 ∧
    QString.toLongLong "9223372036854775808".toList = 0 ∧
    QString.toUInt "4294967295".toList = 4294967295 ∧ QString.toUInt "4294967296".toList = 0 ∧
    QString.toUInt "-5".toList = 0 := by
  decide

end QtSparql
